import Mathlib

/-!
# Binding and staging controllers of the carrier API server

A shallow embedding of the request handlers of `internal/api/v1`
(`servicebindings.go`, `services.go`, `stage.go`).

The cluster and everything reached through it (organizations, applications,
services, pipeline runs, the response writer) is an external collaborator.
It is embedded as a deterministic state machine over an arbitrary state type
`σ`: every call takes the current state and returns its Go result together
with the next state.  Each handler threads the state through its calls in
source order and logs every call, with its outcome, in a trace.
-/

set_option autoImplicit false

namespace Carrier

/-! ## Go values -/

/-- Go `error` value: `none` is `nil`, `some msg` is an error whose `Error()` text is `msg`. -/
abbrev GoError := Option String

deriving instance DecidableEq for Except

/-- Constants of `net/http` used by the handlers. -/
def StatusBadRequest : Nat := 400

/-- Constant `http.StatusNotFound`. -/
def StatusNotFound : Nat := 404

/-- Constant `http.StatusConflict`. -/
def StatusConflict : Nat := 409

/-- Constant `http.StatusInternalServerError`. -/
def StatusInternalServerError : Nat := 500

/-! ## API errors -/

/-- Modelled from the spec: the `APIError` type of `errors.go`, which is absent from the
sources.  Its fields are the error body shape of spec §6 (`title`, `details`, `status`). -/
structure APIError where
  Title : String
  Details : String
  Status : Nat
  deriving DecidableEq, Repr

/-- Go type `APIErrors` (also written `[]APIError`); `nil` is the empty list. -/
abbrev APIErrors := List APIError

/-- Modelled from the spec: `NewAPIError(title, details, status)` of the absent `errors.go`;
the argument order is the one of its call sites in `services.go` and `stage.go`. -/
def NewAPIError (title details : String) (status : Nat) : APIError :=
  { Title := title, Details := details, Status := status }

/-- Modelled from the spec: `InternalError(err)` of the absent `errors.go`, the
`InternalError` kind of spec §7.  Title, details and status are those `services.go`
writes out in full for the same failures (status 5xx per `servicebindings.go:21`). -/
def InternalError (err : String) : APIError :=
  NewAPIError err "" StatusInternalServerError

/-- Modelled from the spec: `BadRequest(err)` of the absent `errors.go`, the `BadRequest`
kind of spec §7, as `services.go` writes it out for a malformed body. -/
def BadRequest (err : String) : APIError :=
  NewAPIError err "" StatusBadRequest

/-- Modelled from the spec: `OrgIsNotKnown(org)` of the absent `errors.go`, a `NotFound`
kind of spec §7, as `services.go` writes it out for an unknown organization. -/
def OrgIsNotKnown (org : String) : APIError :=
  NewAPIError ("Organization '" ++ org ++ "' does not exist") "" StatusNotFound

/-- Modelled from the spec: `AppIsNotKnown(app)` of the absent `errors.go`, a `NotFound`
kind of spec §7. -/
def AppIsNotKnown (app : String) : APIError :=
  NewAPIError ("Application '" ++ app ++ "' does not exist") "" StatusNotFound

/-- Modelled from the spec: `ServiceIsNotKnown(service)` of the absent `errors.go`, a
`NotFound` kind of spec §7, as `services.go` writes it out for an unknown service. -/
def ServiceIsNotKnown (service : String) : APIError :=
  NewAPIError ("Service '" ++ service ++ "' does not exist") "" StatusNotFound

/-- Modelled from the spec: `ServiceAlreadyBound(service)` of the absent `errors.go`, the
`AlreadyBound` kind of spec §7, a binding state violation (not a 5xx error). -/
def ServiceAlreadyBound (service : String) : APIError :=
  NewAPIError ("Service '" ++ service ++ "' already bound") "" StatusConflict

/-- Modelled from the spec: `ServiceIsNotBound(service)` of the absent `errors.go`, the
`NotBound` kind of spec §7, a binding state violation (not a 5xx error). -/
def ServiceIsNotBound (service : String) : APIError :=
  NewAPIError ("Service '" ++ service ++ "' is not bound") "" StatusBadRequest

/-- An internal error is one reported with a 5xx status (`servicebindings.go:21`). -/
def APIError.isInternal (e : APIError) : Bool :=
  decide (500 ≤ e.Status) && decide (e.Status < 600)

/-- A per-item business issue of a bind batch: service not known, or service already bound. -/
def APIError.isBindIssue (e : APIError) : Prop :=
  ∃ name : String, e = ServiceIsNotKnown name ∨ e = ServiceAlreadyBound name

/-! ## Domain values -/

/-- A value of the `interfaces.Service` interface, as far as the handlers use it:
`Name()` and `Org()`. -/
structure Service where
  Name : String
  Org : String
  deriving DecidableEq, Repr

/-- A value of `application.Application`, as far as the handlers use it. -/
structure Application where
  Name : String
  Organization : String
  deriving DecidableEq, Repr

/-- Type `models.BindRequest`. -/
structure BindRequest where
  Names : List String
  deriving DecidableEq, Repr

/-- Type `models.DeleteRequest`. -/
structure DeleteRequest where
  Unbind : Bool
  deriving DecidableEq, Repr

/-- Type `models.DeleteResponse`. -/
structure DeleteResponse where
  BoundApps : List String
  deriving DecidableEq, Repr

/-- Outcome of reading and decoding a request body (`ioutil.ReadAll`, then
`json.Unmarshal`), the first two steps of every handler with a body. -/
inductive Body (α : Type) where
  | readError (err : String)
  | unmarshalError (err : String)
  | decoded (req : α)
  deriving DecidableEq, Repr

/-- What a handler hands to the response writer. -/
inductive Payload where
  | empty
  | deleteResponse (resp : DeleteResponse)
  deriving DecidableEq, Repr

/-! ## The cluster as a state machine, and the call trace -/

/-- One call made by a handler, with its arguments and its outcome. -/
inductive Event where
  | GetCluster (err : GoError)
  | OrgExists (org : String) (res : Except String Bool)
  | AppLookup (org app : String) (res : Except String (Option Application))
  | ServiceLookup (org name : String) (res : Except String Service)
  | AppList (org : String) (res : Except String (List Application))
  | AppServices (app : Application) (res : Except String (List Service))
  | Bind (app : Application) (service : Service) (err : GoError)
  | Unbind (app : Application) (service : Service) (err : GoError)
  | ServiceDelete (service : Service) (err : GoError)
  | Write (body : Payload) (err : GoError)
  deriving DecidableEq, Repr

/-- The external collaborators of the binding handlers: `kubernetes.GetCluster`,
`organizations.Exists`, `application.Lookup`, `services.Lookup`, `application.List`,
`app.Services`, `app.Bind`, `app.Unbind`, `service.Delete`, `json.Marshal` and
`w.Write`.  None of them is under the sources; each is an arbitrary function of the
current cluster state. -/
structure World (σ : Type) where
  GetCluster : σ → GoError × σ
  OrgExists : String → σ → Except String Bool × σ
  AppLookup : String → String → σ → Except String (Option Application) × σ
  ServiceLookup : String → String → σ → Except String Service × σ
  AppList : String → σ → Except String (List Application) × σ
  AppServices : Application → σ → Except String (List Service) × σ
  Bind : Application → Service → σ → GoError × σ
  Unbind : Application → Service → σ → GoError × σ
  ServiceDelete : Service → σ → GoError × σ
  Marshal : Payload → GoError
  Write : Payload → σ → GoError × σ

/-- State of a running handler: the cluster state and the calls made so far. -/
structure Run (σ : Type) where
  world : σ
  trace : List Event

variable {σ : Type}

/-- Record a call in the trace and move to the state it left. -/
def Run.step (s : Run σ) (ev : Event) (next : σ) : Run σ :=
  { world := next, trace := s.trace ++ [ev] }

/-- Call `kubernetes.GetCluster()`. -/
def World.getCluster (w : World σ) (s : Run σ) : GoError × Run σ :=
  let r := w.GetCluster s.world
  (r.1, s.step (Event.GetCluster r.1) r.2)

/-- Call `organizations.Exists(cluster, org)`. -/
def World.orgExists (w : World σ) (org : String) (s : Run σ) : Except String Bool × Run σ :=
  let r := w.OrgExists org s.world
  (r.1, s.step (Event.OrgExists org r.1) r.2)

/-- Call `application.Lookup(cluster, org, appName)`. -/
def World.appLookup (w : World σ) (org appName : String) (s : Run σ) :
    Except String (Option Application) × Run σ :=
  let r := w.AppLookup org appName s.world
  (r.1, s.step (Event.AppLookup org appName r.1) r.2)

/-- Call `services.Lookup(cluster, org, serviceName)`. -/
def World.serviceLookup (w : World σ) (org serviceName : String) (s : Run σ) :
    Except String Service × Run σ :=
  let r := w.ServiceLookup org serviceName s.world
  (r.1, s.step (Event.ServiceLookup org serviceName r.1) r.2)

/-- Call `application.List(cluster, org)`. -/
def World.appList (w : World σ) (org : String) (s : Run σ) :
    Except String (List Application) × Run σ :=
  let r := w.AppList org s.world
  (r.1, s.step (Event.AppList org r.1) r.2)

/-- Call `app.Services()`. -/
def World.appServices (w : World σ) (app : Application) (s : Run σ) :
    Except String (List Service) × Run σ :=
  let r := w.AppServices app s.world
  (r.1, s.step (Event.AppServices app r.1) r.2)

/-- Call `app.Bind(service)`. -/
def World.bind (w : World σ) (app : Application) (service : Service) (s : Run σ) :
    GoError × Run σ :=
  let r := w.Bind app service s.world
  (r.1, s.step (Event.Bind app service r.1) r.2)

/-- Call `app.Unbind(service)`. -/
def World.unbind (w : World σ) (app : Application) (service : Service) (s : Run σ) :
    GoError × Run σ :=
  let r := w.Unbind app service s.world
  (r.1, s.step (Event.Unbind app service r.1) r.2)

/-- Call `service.Delete()`. -/
def World.serviceDelete (w : World σ) (service : Service) (s : Run σ) : GoError × Run σ :=
  let r := w.ServiceDelete service s.world
  (r.1, s.step (Event.ServiceDelete service r.1) r.2)

/-- Call `w.Write(body)`. -/
def World.write (w : World σ) (body : Payload) (s : Run σ) : GoError × Run σ :=
  let r := w.Write body s.world
  (r.1, s.step (Event.Write body r.1) r.2)

/-! ## `servicebindings.go` -/

namespace ServicebindingsController

/-- First loop of `Create` (`servicebindings.go:84-96`): resolve the requested names.
`Except.error` is the early `return` of the handler with that error list; `Except.ok`
is the fall-through with the resolved services and the issues collected so far. -/
def resolveLoop (w : World σ) (org : String) :
    List String → List Service → APIErrors → Run σ →
      Except APIErrors (List Service × APIErrors) × Run σ
  | [], theServices, theIssues, s => (.ok (theServices, theIssues), s)
  | serviceName :: rest, theServices, theIssues, s =>
    match w.serviceLookup org serviceName s with
    | (.error err, s1) =>
      if err = "service not found" then
        resolveLoop w org rest theServices (theIssues ++ [ServiceIsNotKnown serviceName]) s1
      else
        (.error ([InternalError err] ++ theIssues), s1)
    | (.ok service, s1) =>
      resolveLoop w org rest (theServices ++ [service]) theIssues s1

/-- Second loop of `Create` (`servicebindings.go:98-108`): bind the resolved services. -/
def bindLoop (w : World σ) (app : Application) :
    List Service → APIErrors → Run σ → Except APIErrors APIErrors × Run σ
  | [], theIssues, s => (.ok theIssues, s)
  | service :: rest, theIssues, s =>
    match w.bind app service s with
    | (some err, s1) =>
      if err = "service already bound" then
        bindLoop w app rest (theIssues ++ [ServiceAlreadyBound service.Name]) s1
      else
        (.error ([InternalError err] ++ theIssues), s1)
    | (none, s1) => bindLoop w app rest theIssues s1

/-- Handler `ServicebindingsController.Create` (`servicebindings.go:26-121`). -/
def Create (w : World σ) (org appName : String) (body : Body BindRequest) (s0 : Run σ) :
    APIErrors × Run σ :=
  match body with
  | .readError err => ([InternalError err], s0)
  | .unmarshalError err => ([BadRequest err], s0)
  | .decoded bindRequest =>
    if bindRequest.Names.length = 0 then
      ([BadRequest "Cannot bind service without names"], s0)
    else if bindRequest.Names.any (fun serviceName => serviceName == "") then
      ([BadRequest "Cannot bind service with empty name"], s0)
    else
      match w.getCluster s0 with
      | (some err, s1) => ([InternalError err], s1)
      | (none, s1) =>
        match w.orgExists org s1 with
        | (.error err, s2) => ([InternalError err], s2)
        | (.ok false, s2) => ([OrgIsNotKnown org], s2)
        | (.ok true, s2) =>
          match w.appLookup org appName s2 with
          | (.error err, s3) => ([InternalError err], s3)
          | (.ok none, s3) => ([AppIsNotKnown appName], s3)
          | (.ok (some app), s3) =>
            match resolveLoop w org bindRequest.Names [] [] s3 with
            | (.error errs, s4) => (errs, s4)
            | (.ok (theServices, theIssues), s4) =>
              match bindLoop w app theServices theIssues s4 with
              | (.error errs, s5) => (errs, s5)
              | (.ok theIssues, s5) =>
                if theIssues.length > 0 then
                  (theIssues, s5)
                else
                  match w.write Payload.empty s5 with
                  | (some err, s6) => ([InternalError err] ++ theIssues, s6)
                  | (none, s6) => ([], s6)

/-- Handler `ServicebindingsController.Delete` (`servicebindings.go:123-173`), the
unbind of one service from one application. -/
def Delete (w : World σ) (org appName serviceName : String) (s0 : Run σ) :
    APIErrors × Run σ :=
  match w.getCluster s0 with
  | (some err, s1) => ([InternalError err], s1)
  | (none, s1) =>
    match w.orgExists org s1 with
    | (.error err, s2) => ([InternalError err], s2)
    | (.ok false, s2) => ([OrgIsNotKnown org], s2)
    | (.ok true, s2) =>
      match w.appLookup org appName s2 with
      | (.error err, s3) => ([InternalError err], s3)
      | (.ok none, s3) => ([AppIsNotKnown appName], s3)
      | (.ok (some app), s3) =>
        match w.serviceLookup org serviceName s3 with
        | (.error err, s4) =>
          if err = "service not found" then
            ([ServiceIsNotKnown serviceName], s4)
          else
            ([InternalError err], s4)
        | (.ok service, s4) =>
          match w.unbind app service s4 with
          | (some err, s5) =>
            if err = "service is not bound to the application" then
              ([ServiceIsNotBound serviceName], s5)
            else
              ([InternalError err], s5)
          | (none, s5) =>
            match w.write Payload.empty s5 with
            | (some err, s6) => ([InternalError err], s6)
            | (none, s6) => ([], s6)

end ServicebindingsController

/-! ## `services.go` -/

/-- Go `map[string]application.ApplicationList`: a key is present when its value is `some`. -/
abbrev AppsOf := String → Option (List Application)

/-- The empty map `map[string]application.ApplicationList{}`. -/
def AppsOf.empty : AppsOf := fun _ => none

/-- Map assignment `appsOf[key] = value`. -/
def AppsOf.set (appsOf : AppsOf) (key : String) (value : List Application) : AppsOf :=
  fun k => if k = key then some value else appsOf k

/-- Inner loop of `servicesToApps` (`services.go:423-430`): enter `app` under the name of
each service it binds. -/
def invertBound (app : Application) : List Service → AppsOf → AppsOf
  | [], appsOf => appsOf
  | bonded :: rest, appsOf =>
    let bname := bonded.Name
    match appsOf bname with
    | some theapps => invertBound app rest (appsOf.set bname (theapps ++ [app]))
    | none => invertBound app rest (appsOf.set bname [app])

/-- Outer loop of `servicesToApps` (`services.go:418-431`). -/
def invertApps (w : World σ) :
    List Application → AppsOf → Run σ → Except String AppsOf × Run σ
  | [], appsOf, s => (.ok appsOf, s)
  | app :: rest, appsOf, s =>
    match w.appServices app s with
    | (.error err, s1) => (.error err, s1)
    | (.ok bound, s1) => invertApps w rest (invertBound app bound appsOf) s1

/-- Function `servicesToApps` (`services.go:406-434`): the applications bound to each
service, by querying the applications of the organization for their services. -/
def servicesToApps (w : World σ) (org : String) (s : Run σ) : Except String AppsOf × Run σ :=
  match w.appList org s with
  | (.error err, s1) => (.error err, s1)
  | (.ok apps, s1) => invertApps w apps AppsOf.empty s1

namespace ServicesController

/-- Unbind loop of `Delete` (`services.go:377-382`).  `some errs` is the early `return`
of the handler with that error list. -/
def unbindLoop (w : World σ) (service : Service) :
    List Application → Run σ → Option APIErrors × Run σ
  | [], s => (none, s)
  | app :: rest, s =>
    match w.unbind app service s with
    | (some err, s1) => (some [NewAPIError err "" StatusInternalServerError], s1)
    | (none, s1) => unbindLoop w service rest s1

/-- Block `services.go:366-383` of `Delete`: what happens when the service has an entry
in the inverse index.  `Except.error` is the early `return` of the handler;
`Except.ok` carries `boundAppNames` to the rest of the handler. -/
def handleBound (w : World σ) (deleteRequest : DeleteRequest) (service : Service)
    (appsOf : AppsOf) (boundAppNames : List String) (s : Run σ) :
    Except APIErrors (List String) × Run σ :=
  match appsOf service.Name with
  | some boundApps =>
    let boundAppNames := boundAppNames ++ boundApps.map (fun app => app.Name)
    if !deleteRequest.Unbind then
      (.error [NewAPIError "bound applications exist" (String.intercalate "," boundAppNames)
        StatusBadRequest], s)
    else
      match unbindLoop w service boundApps s with
      | (some errs, s1) => (.error errs, s1)
      | (none, s1) => (.ok boundAppNames, s1)
  | none => (.ok boundAppNames, s)

/-- End of `Delete` (`services.go:385-403`): delete the service, then answer with the
names of the applications it was bound to. -/
def deleteAndRespond (w : World σ) (service : Service) (boundAppNames : List String)
    (s5 : Run σ) : APIErrors × Run σ :=
  match w.serviceDelete service s5 with
  | (some err, s6) => ([NewAPIError err "" StatusInternalServerError], s6)
  | (none, s6) =>
    let resp := Payload.deleteResponse { BoundApps := boundAppNames }
    match w.Marshal resp with
    | some err => ([NewAPIError err "" StatusInternalServerError], s6)
    | none =>
      match w.write resp s6 with
      | (some err, s7) => ([NewAPIError err "" StatusInternalServerError], s7)
      | (none, s7) => ([], s7)

/-- Handler `ServicesController.Delete` (`services.go:315-404`). -/
def Delete (w : World σ) (org serviceName : String) (body : Body DeleteRequest)
    (s0 : Run σ) : APIErrors × Run σ :=
  match body with
  | .readError err => ([NewAPIError err "" StatusInternalServerError], s0)
  | .unmarshalError err => ([NewAPIError err "" StatusBadRequest], s0)
  | .decoded deleteRequest =>
    match w.getCluster s0 with
    | (some err, s1) => ([NewAPIError err "" StatusInternalServerError], s1)
    | (none, s1) =>
      match w.orgExists org s1 with
      | (.error err, s2) => ([NewAPIError err "" StatusInternalServerError], s2)
      | (.ok false, s2) =>
        ([NewAPIError ("Organization '" ++ org ++ "' does not exist") "" StatusNotFound], s2)
      | (.ok true, s2) =>
        match w.serviceLookup org serviceName s2 with
        | (.error err, s3) =>
          if err = "service not found" then
            ([NewAPIError ("service '" ++ serviceName ++ "' not found") "" StatusNotFound], s3)
          else
            ([NewAPIError err "" StatusInternalServerError], s3)
        | (.ok service, s3) =>
          match servicesToApps w org s3 with
          | (.error err, s4) => ([NewAPIError err "" StatusInternalServerError], s4)
          | (.ok appsOf, s4) =>
            match handleBound w deleteRequest service appsOf [] s4 with
            | (.error errs, s5) => (errs, s5)
            | (.ok boundAppNames, s5) => deleteAndRespond w service boundAppNames s5

end ServicesController

/-! ## `stage.go` -/

/-- Modelled from the spec: `singleNewError(message, status)` of the absent `errors.go`:
a list holding one error with that message. -/
def singleNewError (message : String) (status : Nat) : APIErrors :=
  [NewAPIError message "" status]

/-- Modelled from the spec: `singleError(err, status)` of the absent `errors.go`: a list
holding one error made from `err`. -/
def singleError (err : String) (status : Nat) : APIErrors :=
  [NewAPIError err "" status]

/-- Modelled from the spec: `singleInternalError(err, msg)` of the absent `errors.go`: a
list holding one internal error (spec §7) made from `err` and the step message `msg`. -/
def singleInternalError (err msg : String) : APIErrors :=
  [InternalError (msg ++ ": " ++ err)]

/-- Modelled from the spec: `NewAPIErrors(errs...)` of the absent `errors.go`. -/
def NewAPIErrors (errs : List APIError) : APIErrors := errs

/-- Constant `DefaultInstances` (`stage.go:39`). -/
def DefaultInstances : Int := 1

/-- Constant `RegistryURL` (`stage.go:38`). -/
def RegistryURL : String := "registry.epinio-registry/apps"

/-- Go conversion `int32(n)`: the value of the low 32 bits, two's complement. -/
def int32 (n : Int) : Int :=
  (n + 2147483648) % 4294967296 - 2147483648

/-- Type `models.AppRef`. -/
structure AppRef where
  Name : String
  Org : String
  deriving DecidableEq, Repr

/-- Type `models.GitRef`. -/
structure GitRef where
  Revision : String
  URL : String
  deriving DecidableEq, Repr

/-- Type `models.StageRequest` as `stage.go` uses it: `Instances` is a pointer to an
`int`, `Git` a pointer to a `GitRef` (`none` is `nil`). -/
structure StageRequest where
  App : AppRef
  Instances : Option Int
  Git : Option GitRef
  Route : String
  deriving DecidableEq, Repr

/-- Type `models.App`: an `AppRef` with git reference, route and instance count (`int32`). -/
structure App where
  AppRef : AppRef
  Git : Option GitRef
  Route : String
  Instances : Int
  deriving DecidableEq, Repr

/-- One condition of a pipeline run status: `c.IsFalse()` and `c.Message`. -/
structure Condition where
  IsFalse : Bool
  Message : String
  deriving DecidableEq, Repr

/-- A Tekton `v1beta1.PipelineRun`, as far as `stage.go` builds and reads it. -/
structure PipelineRun where
  Name : String
  Labels : List (String × String)
  ServiceAccountName : String
  PipelineRef : String
  Params : List (String × String)
  Workspaces : List (String × String)
  Resources : List (String × List (String × String))
  Conditions : List Condition
  CompletionTime : Option Nat
  deriving DecidableEq, Repr

/-- Type `models.StageResponse`, holding the stage id. -/
structure StageResponse where
  Stage : String
  deriving DecidableEq, Repr

/-- Outcome of `Deployments(org).Get(name)`: the deployment's replica count, an error
for which `apierrors.IsNotFound` holds, or another error. -/
inductive DeploymentResult where
  | found (replicas : Int)
  | notFound (err : String)
  | failed (err : String)
  deriving DecidableEq, Repr

/-- One call made by `Stage`, with its arguments and its outcome. -/
inductive StageEvent where
  | GetCluster (err : GoError)
  | NewForConfig (err : GoError)
  | Hex16 (res : Except String String)
  | PipelineRunList (selector : String) (res : Except String (List PipelineRun))
  | DeploymentGet (org name : String) (res : DeploymentResult)
  | PipelineRunCreate (pr : PipelineRun) (err : GoError)
  | MainDomain (res : Except String String)
  | CreateCertificate (name org domain : String) (err : GoError)
  | Write (resp : StageResponse) (err : GoError)
  deriving DecidableEq, Repr

/-- The external collaborators of `Stage`: the cluster and Tekton clients, `randstr.Hex16`,
the pipeline-run and deployment interfaces, `domain.MainDomain`, `auth.CreateCertificate`,
the response writer, and the constants and `models.App` methods that are absent from the
sources (`models.EpinioStageIDLabel`, `gitea.LocalRegistry`, `deployments.GiteaURL`,
`ImageURL`, `GitURL`, and the `%#v` rendering of the created object). -/
structure StageWorld (σ : Type) where
  GetCluster : σ → GoError × σ
  NewForConfig : σ → GoError × σ
  Hex16 : σ → Except String String × σ
  PipelineRunList : String → σ → Except String (List PipelineRun) × σ
  DeploymentGet : String → String → σ → DeploymentResult × σ
  PipelineRunCreate : PipelineRun → σ → (Option PipelineRun × GoError) × σ
  MainDomain : σ → Except String String × σ
  CreateCertificate : String → String → String → σ → GoError × σ
  Marshal : StageResponse → GoError
  Write : StageResponse → σ → GoError × σ
  EpinioStageIDLabel : String
  LocalRegistry : String
  GiteaURL : String
  ImageURL : App → String → String
  GitURL : App → String → String
  GoSyntax : Option PipelineRun → String

/-- State of a running `Stage`: the cluster state and the calls made so far. -/
structure StageRun (σ : Type) where
  world : σ
  trace : List StageEvent

/-- A handler starts on a cluster state with an empty trace. -/
def StageRun.start (st : σ) : StageRun σ := { world := st, trace := [] }

/-- Record a call in the trace and move to the state it left. -/
def StageRun.step (s : StageRun σ) (ev : StageEvent) (next : σ) : StageRun σ :=
  { world := next, trace := s.trace ++ [ev] }

/-- What a handler call ends with: the returned error list, or a Go panic (a nil pointer
dereference), which returns nothing. -/
inductive Reply where
  | returned (errs : APIErrors)
  | panicked
  deriving DecidableEq, Repr

/-- Function `jsonResponse` (`router.go:16-24`): marshal the response and write it. -/
def jsonResponse (w : StageWorld σ) (response : StageResponse) (s : StageRun σ) :
    GoError × StageRun σ :=
  match w.Marshal response with
  | some err => (some err, s)
  | none =>
    let r := w.Write response s.world
    (r.1, s.step (StageEvent.Write response r.1) r.2)

/-- Function `existingReplica` (`stage.go:222-232`): the replica count of the deployment
of the application, `DefaultInstances` when there is none. -/
def existingReplica (w : StageWorld σ) (app : AppRef) (s : StageRun σ) :
    Except String Int × StageRun σ :=
  let r := w.DeploymentGet app.Org app.Name s.world
  let s1 := s.step (StageEvent.DeploymentGet app.Org app.Name r.1) r.2
  match r.1 with
  | .notFound _ => (.ok DefaultInstances, s1)
  | .failed err => (.error err, s1)
  | .found replicas => (.ok replicas, s1)

/-- Function `newPipelineRun` (`stage.go:234-285`).  It reads `app.Git.Revision`, so it
has no result (`none`, a nil dereference) when `app.Git` is `nil`. -/
def newPipelineRun (w : StageWorld σ) (uid : String) (app : App) : Option PipelineRun :=
  match app.Git with
  | none => none
  | some git =>
    some {
      Name := uid
      Labels := [
        ("app.kubernetes.io/name", app.AppRef.Name),
        ("app.kubernetes.io/part-of", app.AppRef.Org),
        (w.EpinioStageIDLabel, uid),
        ("app.kubernetes.io/managed-by", "epinio"),
        ("app.kubernetes.io/component", "staging")]
      ServiceAccountName := "staging-triggers-admin"
      PipelineRef := "staging-pipeline"
      Params := [
        ("APP_NAME", app.AppRef.Name),
        ("ORG", app.AppRef.Org),
        ("ROUTE", app.Route),
        ("INSTANCES", toString app.Instances),
        ("APP_IMAGE", w.ImageURL app RegistryURL),
        ("DEPLOYMENT_IMAGE", w.ImageURL app w.LocalRegistry),
        ("STAGE_ID", uid)]
      Workspaces := [("source", "1Gi")]
      Resources := [("source-repo", [("revision", git.Revision), ("url", w.GitURL app w.GiteaURL)])]
      Conditions := []
      CompletionTime := none }

/-- The label selector `Stage` lists the pipeline runs of an application with
(`stage.go:164`). -/
def stageSelector (app : AppRef) : String :=
  "app.kubernetes.io/name=" ++ app.Name ++ ",app.kubernetes.io/part-of=" ++ app.Org

namespace ApplicationsController

/-- End of `Stage` (`stage.go:195-219`): build and create the pipeline run, request the
certificate, answer with the stage id. -/
def createRun (w : StageWorld σ) (uid : String) (app : App) (s5 : StageRun σ) :
    Reply × StageRun σ :=
  match newPipelineRun w uid app with
  | none => (.panicked, s5)
  | some pr =>
    let c := w.PipelineRunCreate pr s5.world
    let s6 := s5.step (StageEvent.PipelineRunCreate pr c.1.2) c.2
    match c.1.2 with
    | some err =>
      (.returned (singleInternalError err
        ("failed to create pipeline run: " ++ w.GoSyntax c.1.1)), s6)
    | none =>
      let d := w.MainDomain s6.world
      let s7 := s6.step (StageEvent.MainDomain d.1) d.2
      match d.1 with
      | .error err => (.returned (singleError err StatusInternalServerError), s7)
      | .ok mainDomain =>
        let k := w.CreateCertificate app.AppRef.Name app.AppRef.Org mainDomain s7.world
        let s8 := s7.step
          (StageEvent.CreateCertificate app.AppRef.Name app.AppRef.Org mainDomain k.1) k.2
        match k.1 with
        | some err => (.returned (singleError err StatusInternalServerError), s8)
        | none =>
          let j := jsonResponse w { Stage := uid } s8
          match j.1 with
          | some err => (.returned (singleError err StatusInternalServerError), j.2)
          | none => (.returned [], j.2)

/-- Second half of `Stage` (`stage.go:177-219`): resolve the instances (the explicit
value, else the replicas of the existing deployment, else the default), then create the
run for the application. -/
def stageRun (w : StageWorld σ) (req : StageRequest) (uid : String) (s4 : StageRun σ) :
    Reply × StageRun σ :=
  let resolved : Except String Int × StageRun σ :=
    match req.Instances with
    | some n => (.ok (int32 n), s4)
    | none => existingReplica w req.App s4
  match resolved with
  | (.error err, s5) => (.returned (singleError err StatusInternalServerError), s5)
  | (.ok instances, s5) =>
    createRun w uid
      { AppRef := req.App, Git := req.Git, Route := req.Route, Instances := instances } s5

/-- Handler `ApplicationsController.Stage` (`stage.go:116-220`); `name` is the `app`
parameter of the URL. -/
def Stage (w : StageWorld σ) (name : String) (body : Body StageRequest)
    (s0 : StageRun σ) : Reply × StageRun σ :=
  match body with
  | .readError err => (.returned (singleError err StatusInternalServerError), s0)
  | .unmarshalError err =>
    (.returned (NewAPIErrors [NewAPIError "Failed to construct an Application from the request"
      err StatusBadRequest]), s0)
  | .decoded req =>
    if name ≠ req.App.Name then
      (.returned (singleNewError "name parameter from URL does not match name param in body"
        StatusBadRequest), s0)
    else if req.Instances.any (fun n => decide (n < 0)) then
      (.returned [NewAPIError "instances param should be integer equal or greater than zero"
        "" StatusBadRequest], s0)
    else
      let a := w.GetCluster s0.world
      let s1 := s0.step (StageEvent.GetCluster a.1) a.2
      match a.1 with
      | some err =>
        (.returned (singleInternalError err "failed to get access to a kube client"), s1)
      | none =>
        let b := w.NewForConfig s1.world
        let s2 := s1.step (StageEvent.NewForConfig b.1) b.2
        match b.1 with
        | some err =>
          (.returned (singleInternalError err "failed to get access to a tekton client"), s2)
        | none =>
          let h := w.Hex16 s2.world
          let s3 := s2.step (StageEvent.Hex16 h.1) h.2
          match h.1 with
          | .error err =>
            (.returned (singleInternalError err "failed to generate a uid"), s3)
          | .ok uid =>
            let l := w.PipelineRunList (stageSelector req.App) s3.world
            let s4 := s3.step (StageEvent.PipelineRunList (stageSelector req.App) l.1) l.2
            match l.1 with
            | .error err => (.returned (singleError err StatusInternalServerError), s4)
            | .ok items =>
              if items.any (fun pr => pr.CompletionTime.isNone) then
                (.returned (singleNewError "pipelinerun for image ID still running"
                  StatusBadRequest), s4)
              else
                stageRun w req uid s4

end ApplicationsController

/-- The pipeline runs a trace created. -/
def createdRuns (tr : List StageEvent) : List PipelineRun :=
  tr.filterMap fun ev =>
    match ev with
    | .PipelineRunCreate pr _ => some pr
    | _ => none

/-- The certificates a trace requested: application name and organization. -/
def requestedCertificates (tr : List StageEvent) : List (String × String) :=
  tr.filterMap fun ev =>
    match ev with
    | .CreateCertificate name org _ _ => some (name, org)
    | _ => none

/-- The messages of the deployment lookups of a trace that failed with anything but
not-found. -/
def replicaFailures (tr : List StageEvent) : List String :=
  tr.filterMap fun ev =>
    match ev with
    | .DeploymentGet _ _ (.failed err) => some err
    | _ => none

/-! ## Reading a trace -/

/-- The service lookups of a trace, in call order: requested name and outcome. -/
def lookups (tr : List Event) : List (String × Except String Service) :=
  tr.filterMap fun ev =>
    match ev with
    | .ServiceLookup _ name res => some (name, res)
    | _ => none

/-- The `app.Bind` calls of a trace, in call order: service and outcome. -/
def binds (tr : List Event) : List (Service × GoError) :=
  tr.filterMap fun ev =>
    match ev with
    | .Bind _ service err => some (service, err)
    | _ => none

/-- The `app.Unbind` calls of a trace, in call order: application and outcome. -/
def unbinds (tr : List Event) : List (Application × GoError) :=
  tr.filterMap fun ev =>
    match ev with
    | .Unbind app _ err => some (app, err)
    | _ => none

/-- The `service.Delete` calls of a trace. -/
def serviceDeletes (tr : List Event) : List (Service × GoError) :=
  tr.filterMap fun ev =>
    match ev with
    | .ServiceDelete service err => some (service, err)
    | _ => none

/-- The bodies handed to the response writer. -/
def written (tr : List Event) : List Payload :=
  tr.filterMap fun ev =>
    match ev with
    | .Write body _ => some body
    | _ => none

/-- The services that a list of lookups resolved. -/
def foundServices (ls : List (String × Except String Service)) : List Service :=
  ls.filterMap fun p =>
    match p.2 with
    | .ok service => some service
    | .error _ => none

/-- The requested names that a list of lookups reported as "service not found". -/
def notFoundNames (ls : List (String × Except String Service)) : List String :=
  ls.filterMap fun p =>
    match p.2 with
    | .ok _ => none
    | .error err => if err = "service not found" then some p.1 else none

/-- The messages of the lookups that failed with anything but "service not found". -/
def lookupFailures (ls : List (String × Except String Service)) : List String :=
  ls.filterMap fun p =>
    match p.2 with
    | .ok _ => none
    | .error err => if err = "service not found" then none else some err

/-- The names of the services that `app.Bind` reported as "service already bound". -/
def alreadyBoundNames (bs : List (Service × GoError)) : List String :=
  bs.filterMap fun p =>
    match p.2 with
    | none => none
    | some err => if err = "service already bound" then some p.1.Name else none

/-- The messages of the binds that failed with anything but "service already bound". -/
def bindFailures (bs : List (Service × GoError)) : List String :=
  bs.filterMap fun p =>
    match p.2 with
    | none => none
    | some err => if err = "service already bound" then none else some err

/-- The messages of all the binds that did not succeed. -/
def bindErrors (bs : List (Service × GoError)) : List String :=
  bs.filterMap fun p => p.2

/-- The messages of the response writes that failed. -/
def writeErrors (tr : List Event) : List String :=
  tr.filterMap fun ev =>
    match ev with
    | .Write _ err => err
    | _ => none

/-- A handler starts on a cluster state with an empty trace. -/
def Run.start (st : σ) : Run σ := { world := st, trace := [] }

/-- The three calls `Create` and `Delete` make before they touch a service, when all
three succeed. -/
def ServicebindingsController.preamble (org appName : String) (app : Application) : List Event :=
  [Event.GetCluster none, Event.OrgExists org (.ok true),
    Event.AppLookup org appName (.ok (some app))]

/-- The applications that bind a service of the given name, in the order of `apps`,
an application once for each service of that name in its bound list `bound app`. -/
def bindersOf (apps : List Application) (bound : Application → List Service)
    (name : String) : List Application :=
  apps.flatMap fun app => ((bound app).filter (fun b => b.Name = name)).map (fun _ => app)

/-- The calls `ServicesController.Delete` makes before it looks at the bound
applications, when all of them succeed: cluster, organization, service, and the
inverse index (the application list and the services of each application). -/
def ServicesController.preamble (org serviceName : String) (service : Service)
    (apps : List Application) (bound : Application → List Service) : List Event :=
  [Event.GetCluster none, Event.OrgExists org (.ok true),
    Event.ServiceLookup org serviceName (.ok service), Event.AppList org (.ok apps)]
    ++ apps.map (fun a => Event.AppServices a (.ok (bound a)))

/-- The claim that the issues of a bind batch come in the order of the request: whenever
the issue for name `a` stands before the issue for name `b` in `errors`, some occurrence
of `a` stands before some occurrence of `b` in `names`. -/
def IssuesInRequestOrder (names : List String) (errors : APIErrors) : Prop :=
  ∀ (i j : Nat) (a b : String), i < j →
    (errors[i]? = some (ServiceIsNotKnown a) ∨ errors[i]? = some (ServiceAlreadyBound a)) →
    (errors[j]? = some (ServiceIsNotKnown b) ∨ errors[j]? = some (ServiceAlreadyBound b)) →
    ∃ k l : Nat, k < l ∧ names[k]? = some a ∧ names[l]? = some b

/-! ## A concrete cluster -/

/-- Modelled from the spec: a cluster state as spec §3 describes it, for the code of
`internal/application`, `internal/services` and `internal/organizations` that is absent
from the sources.  It holds the organizations, the services, every application with the
services bound to it, and the names of the services and applications whose backing
resources cannot be reached (an infrastructure failure). -/
structure Cluster where
  orgs : List String
  services : List Service
  apps : List (Application × List Service)
  brokenServices : List String
  brokenApps : List String
  deriving DecidableEq, Repr

/-- The services bound to an application. -/
def Cluster.boundTo (c : Cluster) (app : Application) : List Service :=
  match c.apps.find? (fun p => p.1 = app) with
  | some p => p.2
  | none => []

/-- Replace the services bound to an application. -/
def Cluster.setBound (c : Cluster) (app : Application) (bound : List Service) : Cluster :=
  { c with apps := c.apps.map (fun p => if p.1 = app then (p.1, bound) else p) }

/-- Modelled from the spec: `services.Lookup` (spec §4.2), the service of that name in
the organization or the error "service not found". -/
def Cluster.lookupService (c : Cluster) (org name : String) : Except String Service :=
  if name ∈ c.brokenServices then .error "cluster unreachable"
  else
    match c.services.find? (fun s => s.Name = name ∧ s.Org = org) with
    | some s => .ok s
    | none => .error "service not found"

/-- Modelled from the spec: `app.Bind` (spec §3, Service Binding): binding an
already-bound service is an error, otherwise the service joins the bound set. -/
def Cluster.bind (c : Cluster) (app : Application) (service : Service) : GoError × Cluster :=
  if app.Name ∈ c.brokenApps then (some "cluster unreachable", c)
  else if service ∈ c.boundTo app then (some "service already bound", c)
  else (none, c.setBound app (c.boundTo app ++ [service]))

/-- Modelled from the spec: `app.Unbind` (spec §4.3): fails if the service is not
presently attached, otherwise removes it from the bound set. -/
def Cluster.unbind (c : Cluster) (app : Application) (service : Service) : GoError × Cluster :=
  if app.Name ∈ c.brokenApps then (some "cluster unreachable", c)
  else if service ∈ c.boundTo app then
    (none, c.setBound app ((c.boundTo app).filter (fun s => s ≠ service)))
  else (some "service is not bound to the application", c)

/-- Modelled from the spec: the collaborators of the binding handlers over a `Cluster`
(spec §4.1 to §4.3); reads leave the cluster as it is. -/
def Cluster.world : World Cluster where
  GetCluster := fun c => (none, c)
  OrgExists := fun org c => (.ok (decide (org ∈ c.orgs)), c)
  AppLookup := fun org appName c =>
    (.ok ((c.apps.map Prod.fst).find? (fun a => a.Name = appName ∧ a.Organization = org)), c)
  ServiceLookup := fun org name c => (c.lookupService org name, c)
  AppList := fun org c => (.ok ((c.apps.map Prod.fst).filter (fun a => a.Organization = org)), c)
  AppServices := fun app c => (.ok (c.boundTo app), c)
  Bind := fun app service c => c.bind app service
  Unbind := fun app service c => c.unbind app service
  ServiceDelete := fun service c =>
    (none, { c with services := c.services.filter (fun s => s ≠ service) })
  Marshal := fun _ => none
  Write := fun _ c => (none, c)

/-- Service `name` of organization "org". -/
def svc (name : String) : Service := { Name := name, Org := "org" }

/-- Application `name` of organization "org". -/
def app (name : String) : Application := { Name := name, Organization := "org" }

/-- A cluster with organization "org", services "a", "b" and "c", and three
applications: "app" binds nothing, "web" binds "a", "worker" binds "a" and "b". -/
def demoCluster : Cluster where
  orgs := ["org"]
  services := [svc "a", svc "b", svc "c"]
  apps := [(app "app", []), (app "web", [svc "a"]), (app "worker", [svc "a", svc "b"])]
  brokenServices := []
  brokenApps := []

/-- The demo cluster with the backing resources of service "b" and of application
"worker" unreachable. -/
def brokenCluster : Cluster :=
  { demoCluster with brokenServices := ["b"], brokenApps := ["worker"] }

/-! ## A concrete pipeline runner -/

/-- Modelled from the spec: the part of a cluster that `Stage` works on (spec §3, Staging
Run; §4.4), for the Tekton, Kubernetes, `randstr`, `domain` and `auth` code that is absent
from the sources: the pipeline runs, the replica count of each deployed application, and
the identifiers `randstr.Hex16` will hand out. -/
structure StageCluster where
  runs : List PipelineRun
  deployments : List (AppRef × Int)
  uids : List String
  deriving DecidableEq, Repr

/-- The value of a label of a pipeline run, empty when the run does not carry it. -/
def PipelineRun.label (pr : PipelineRun) (key : String) : String :=
  match pr.Labels.find? (fun l => l.1 = key) with
  | some l => l.2
  | none => ""

/-- Modelled from the spec: the collaborators of `Stage` over a `StageCluster`.  Listing
selects the runs whose name and part-of labels make up the selector (spec §4.4: same
organization and application name); creating a run adds it to the cluster; the constants
absent from the sources are given values for the example. -/
def StageCluster.world : StageWorld StageCluster where
  GetCluster := fun c => (none, c)
  NewForConfig := fun c => (none, c)
  Hex16 := fun c =>
    match c.uids with
    | [] => (.error "no identifier left", c)
    | uid :: rest => (.ok uid, { c with uids := rest })
  PipelineRunList := fun selector c =>
    (.ok (c.runs.filter (fun pr =>
      stageSelector { Name := pr.label "app.kubernetes.io/name",
                      Org := pr.label "app.kubernetes.io/part-of" } = selector)), c)
  DeploymentGet := fun org name c =>
    match c.deployments.find? (fun d => d.1 = { Name := name, Org := org }) with
    | some d => (.found d.2, c)
    | none => (.notFound "deployment not found", c)
  PipelineRunCreate := fun pr c => ((some pr, none), { c with runs := c.runs ++ [pr] })
  MainDomain := fun c => (.ok "example.org", c)
  CreateCertificate := fun _ _ _ c => (none, c)
  Marshal := fun _ => none
  Write := fun _ c => (none, c)
  EpinioStageIDLabel := "epinio.suse.org/stage-id"
  LocalRegistry := "127.0.0.1:30500/apps"
  GiteaURL := "http://gitea.example.org"
  ImageURL := fun app registry => registry ++ "/" ++ app.AppRef.Org ++ "-" ++ app.AppRef.Name
  GitURL := fun app server => server ++ "/" ++ app.AppRef.Org ++ "/" ++ app.AppRef.Name
  GoSyntax := fun _ => "<nil>"

/-- A stage request for the application "web" of organization "org", two instances. -/
def demoStageRequest : StageRequest where
  App := { Name := "web", Org := "org" }
  Instances := some 2
  Git := some { Revision := "main", URL := "http://gitea.example.org/org/web" }
  Route := "web.example.org"

/-- An earlier staging run of "web", with or without a completion time. -/
def earlierRun (completion : Option Nat) : PipelineRun where
  Name := "run1"
  Labels := [("app.kubernetes.io/name", "web"), ("app.kubernetes.io/part-of", "org")]
  ServiceAccountName := "staging-triggers-admin"
  PipelineRef := "staging-pipeline"
  Params := []
  Workspaces := []
  Resources := []
  Conditions := []
  CompletionTime := completion

/-- A cluster holding one earlier run of "web" and a run of another application. -/
def stagingCluster (completion : Option Nat) : StageCluster where
  runs := [earlierRun completion,
    { earlierRun none with
      Name := "other"
      Labels := [("app.kubernetes.io/name", "api"), ("app.kubernetes.io/part-of", "org")]
      CompletionTime := some 5 }]
  deployments := []
  uids := ["run2", "run3"]

/-- The stage request for "web" with the explicit instances value `n`. -/
def stageRequestWith (n : Int) : StageRequest :=
  { demoStageRequest with Instances := some n }

/-- The stage request for "web" without an instances value. -/
def stageRequestInheriting : StageRequest :=
  { demoStageRequest with Instances := none }

/-- A cluster whose earlier run of "web" has completed and where "web" is deployed
with four replicas. -/
def deployedCluster : StageCluster :=
  { stagingCluster (some 3) with deployments := [({ Name := "web", Org := "org" }, 4)] }

/-- The value of a parameter of a pipeline run, if the run has it. -/
def PipelineRun.param (pr : PipelineRun) (key : String) : Option String :=
  match pr.Params.find? (fun p => p.1 = key) with
  | some p => some p.2
  | none => none

/-! ## `stage.go`: waiting for a staging run -/

/-- Type `models.StageStatusResponse`. -/
structure StageStatusResponse where
  ErrorMessage : String
  deriving DecidableEq, Repr

/-- One call made by `WaitUntilStaged`, with its arguments and its outcome. -/
inductive WaitEvent where
  | GetCluster (err : GoError)
  | NewForConfig (err : GoError)
  | PipelineRunList (selector : String) (res : Except String (List PipelineRun))
  | Unstage (name org stageId : String) (err : GoError)
  | Write (resp : StageStatusResponse) (err : GoError)
  deriving DecidableEq, Repr

/-- The external collaborators of `WaitUntilStaged`: the cluster and Tekton clients, the
pipeline-run listing, `application.Unstage`, the response writer, the absent constant
`models.EpinioStageIDLabel`, and what `wait.PollImmediate` depends on: the number of
periodic probes that fit into the timeout after the immediate first probe, and the
message of its timeout error. -/
structure WaitWorld (σ : Type) where
  GetCluster : σ → GoError × σ
  NewForConfig : σ → GoError × σ
  PipelineRunList : String → σ → Except String (List PipelineRun) × σ
  Unstage : String → String → String → σ → GoError × σ
  Marshal : StageStatusResponse → GoError
  Write : StageStatusResponse → σ → GoError × σ
  EpinioStageIDLabel : String
  Probes : Nat
  ErrWaitTimeout : String

/-- State of a running `WaitUntilStaged`: the cluster state and the calls made so far. -/
structure WaitRun (σ : Type) where
  world : σ
  trace : List WaitEvent

/-- A handler starts on a cluster state with an empty trace. -/
def WaitRun.start (st : σ) : WaitRun σ := { world := st, trace := [] }

/-- Record a call in the trace and move to the state it left. -/
def WaitRun.step (s : WaitRun σ) (ev : WaitEvent) (next : σ) : WaitRun σ :=
  { world := next, trace := s.trace ++ [ev] }

namespace ApplicationsController

end ApplicationsController

/-- Modelled from the spec: the collaborators of `WaitUntilStaged` over a `StageCluster`
(spec §4.4), with a stage-id label and a timeout of three periodic probes chosen for the
example; `application.Unstage` removes the other runs of the application. -/
def StageCluster.waitWorld : WaitWorld StageCluster where
  GetCluster := fun c => (none, c)
  NewForConfig := fun c => (none, c)
  PipelineRunList := fun selector c =>
    (.ok (c.runs.filter (fun pr =>
      "epinio.suse.org/stage-id=" ++ pr.label "epinio.suse.org/stage-id" = selector)), c)
  Unstage := fun name org stageId c =>
    (none, { c with runs := c.runs.filter (fun pr =>
      ¬ (pr.label "app.kubernetes.io/name" = name ∧ pr.label "app.kubernetes.io/part-of" = org)
        ∨ pr.label "epinio.suse.org/stage-id" = stageId) })
  Marshal := fun _ => none
  Write := fun _ c => (none, c)
  EpinioStageIDLabel := "epinio.suse.org/stage-id"
  Probes := 3
  ErrWaitTimeout := "timed out waiting for the condition"

/-- Type `organizations.Organization`. -/
structure Organization where
  Name : String
  deriving DecidableEq, Repr

/-- Go type `[]Organization`. -/
abbrev Organizations := List Organization

/-- A `corev1.Namespace`, as far as `organizations.go` builds and reads it. -/
structure Namespace where
  Name : String
  Labels : List (String × String)
  deriving DecidableEq, Repr

/-- A Go byte slice `[]byte`.  A Go string is a sequence of bytes, and the conversions
`[]byte(v)` and `string(b)` copy that sequence unchanged; a byte slice is therefore
represented by the string that has the same bytes. -/
structure Bytes where
  content : String
  deriving DecidableEq, Repr

/-- Go conversion `[]byte(v)`. -/
def Bytes.ofString (v : String) : Bytes := { content := v }

/-- A `corev1.Secret`, as far as the sources build and read it; `Data` holds the
key/value pairs of the Go map. -/
structure Secret where
  Name : String
  Namespace : String
  ResourceVersion : String
  OwnerReferences : List String
  Labels : List (String × String)
  Data : List (String × Bytes)
  deriving DecidableEq, Repr

/-- A `corev1.ServiceAccount`, as far as `createServiceAccount` builds it. -/
structure ServiceAccount where
  Name : String
  ImagePullSecrets : List String
  AutomountServiceAccountToken : Bool
  deriving DecidableEq, Repr

/-- Type `services.CustomService`, without its cluster handle. -/
structure CustomService where
  SecretName : String
  OrgName : String
  Service : String
  deriving DecidableEq, Repr

/-- Outcome of getting a secret: the secret, an error for which `apierrors.IsNotFound`
holds, or another error. -/
inductive SecretResult where
  | found (secret : Secret)
  | notFound (err : String)
  | failed (err : String)
  deriving DecidableEq, Repr

/-- The Go `error` of getting a secret. -/
def SecretResult.err : SecretResult → GoError
  | .found _ => none
  | .notFound err => some err
  | .failed err => some err

/-- One call made by the organization and custom-service code, with its arguments and
its outcome. -/
inductive KubeEvent where
  | GiteaNew (err : GoError)
  | GetCluster (err : GoError)
  | NamespaceList (selector : String) (res : Except String (List Namespace))
  | NamespaceCreate (ns : Namespace) (err : GoError)
  | SecretGet (org name : String) (res : SecretResult)
  | SecretCreate (org : String) (secret : Secret) (err : GoError)
  | CreateLabeledSecret (org name : String) (data : List (String × Bytes))
      (labels : List (String × String)) (err : GoError)
  | SecretDelete (org name : String) (err : GoError)
  | ServiceAccountCreate (org : String) (account : ServiceAccount) (err : GoError)
  | GiteaCreateOrg (org : String) (err : GoError)
  | WriteHeader (status : Nat)
  | Write (err : GoError)
  deriving DecidableEq, Repr

/-- The external collaborators of `organizations.go`, `custom_service.go` and the
organizations controller: the Kubernetes API for namespaces, secrets and service
accounts (directly or through the absent `helpers/kubernetes`), the Gitea client, the
response writer, and the constants and the naming function that are absent from the
sources (`kubernetes.EpinioOrgLabelKey`, `kubernetes.EpinioOrgLabelValue`,
`deployments.TektonStagingNamespace`, `serviceResourceName`). -/
structure KubeWorld (σ : Type) where
  GiteaNew : σ → GoError × σ
  GetCluster : σ → GoError × σ
  NamespaceList : String → σ → Except String (List Namespace) × σ
  NamespaceCreate : Namespace → σ → GoError × σ
  SecretGet : String → String → σ → SecretResult × σ
  SecretCreate : String → Secret → σ → GoError × σ
  CreateLabeledSecret : String → String → List (String × Bytes) → List (String × String) →
    σ → GoError × σ
  SecretDelete : String → String → σ → GoError × σ
  ServiceAccountCreate : String → ServiceAccount → σ → GoError × σ
  GiteaCreateOrg : String → σ → GoError × σ
  Write : σ → GoError × σ
  EpinioOrgLabelKey : String
  EpinioOrgLabelValue : String
  TektonStagingNamespace : String
  serviceResourceName : String → String → String

/-- State of running organization or service code: the cluster state and the calls made
so far. -/
structure KubeRun (σ : Type) where
  world : σ
  trace : List KubeEvent

/-- The code starts on a cluster state with an empty trace. -/
def KubeRun.start (st : σ) : KubeRun σ := { world := st, trace := [] }

/-- Record a call in the trace and move to the state it left. -/
def KubeRun.step (s : KubeRun σ) (ev : KubeEvent) (next : σ) : KubeRun σ :=
  { world := next, trace := s.trace ++ [ev] }

/-- Library function `errors.Wrap(err, message)` of `github.com/pkg/errors`, as the
text of the error it returns. -/
def Wrap (err message : String) : String := message ++ ": " ++ err

/-- The label selector of `organizations.List` (`organizations.go:26-28`). -/
def organizations.selector (w : KubeWorld σ) : String :=
  w.EpinioOrgLabelKey ++ "=" ++ w.EpinioOrgLabelValue

/-- Function `organizations.List` (`organizations.go:25-41`). -/
def organizations.List (w : KubeWorld σ) (s : KubeRun σ) :
    (Organizations × GoError) × KubeRun σ :=
  let l := w.NamespaceList (organizations.selector w) s.world
  let s1 := s.step (KubeEvent.NamespaceList (organizations.selector w) l.1) l.2
  match l.1 with
  | .error err => (([], some err), s1)
  | .ok items => ((items.map (fun org => { Name := org.Name }), none), s1)

/-- Function `organizations.Exists` (`organizations.go:43-55`). -/
def organizations.Exists (w : KubeWorld σ) (lookupOrg : String) (s : KubeRun σ) :
    (Bool × GoError) × KubeRun σ :=
  let r := organizations.List w s
  match r.1.2 with
  | some err => ((false, some err), r.2)
  | none => ((r.1.1.any (fun org => org.Name == lookupOrg), none), r.2)

/-- The secret `copySecret` creates from the one it got (`organizations.go:103-106`). -/
def organizations.copyOf (secret : Secret) (targetOrg : String) : Secret :=
  { secret with Namespace := targetOrg, ResourceVersion := "", OwnerReferences := [] }

/-- Function `copySecret` (`organizations.go:94-113`). -/
def organizations.copySecret (w : KubeWorld σ) (secretName originOrg targetOrg : String)
    (s : KubeRun σ) : GoError × KubeRun σ :=
  let g := w.SecretGet originOrg secretName s.world
  let s1 := s.step (KubeEvent.SecretGet originOrg secretName g.1) g.2
  match g.1 with
  | .notFound err => (some err, s1)
  | .failed err => (some err, s1)
  | .found secret =>
    let c := w.SecretCreate targetOrg (organizations.copyOf secret targetOrg) s1.world
    (c.1, s1.step
      (KubeEvent.SecretCreate targetOrg (organizations.copyOf secret targetOrg) c.1) c.2)

/-- The service account `createServiceAccount` creates (`organizations.go:119-127`). -/
def organizations.accountFor (targetOrg : String) : ServiceAccount :=
  { Name := targetOrg, ImagePullSecrets := ["registry-creds"],
    AutomountServiceAccountToken := false }

/-- Function `createServiceAccount` (`organizations.go:115-130`). -/
def organizations.createServiceAccount (w : KubeWorld σ) (targetOrg : String)
    (s : KubeRun σ) : GoError × KubeRun σ :=
  let c := w.ServiceAccountCreate targetOrg (organizations.accountFor targetOrg) s.world
  (c.1, s.step
    (KubeEvent.ServiceAccountCreate targetOrg (organizations.accountFor targetOrg) c.1) c.2)

/-- The namespace `organizations.Create` creates (`organizations.go:60-68`). -/
def organizations.namespaceFor (w : KubeWorld σ) (org : String) : Namespace :=
  { Name := org,
    Labels := [(w.EpinioOrgLabelKey, w.EpinioOrgLabelValue),
      ("quarks.cloudfoundry.org/monitored", "quarks-secret")] }

/-- Function `organizations.Create` (`organizations.go:57-92`). -/
def organizations.Create (w : KubeWorld σ) (org : String) (s : KubeRun σ) :
    GoError × KubeRun σ :=
  let n := w.NamespaceCreate (organizations.namespaceFor w org) s.world
  let s1 := s.step (KubeEvent.NamespaceCreate (organizations.namespaceFor w org) n.1) n.2
  match n.1 with
  | some err => (some err, s1)
  | none =>
    let r := organizations.copySecret w "registry-creds" w.TektonStagingNamespace org s1
    match r.1 with
    | some err => (some (Wrap err "failed to copy the registry credentials secret"), r.2)
    | none =>
      let c := organizations.copySecret w "ca-cert" w.TektonStagingNamespace org r.2
      match c.1 with
      | some err => (some (Wrap err "failed to copy the ca certificate"), c.2)
      | none =>
        let a := organizations.createServiceAccount w org c.2
        match a.1 with
        | some err => (some (Wrap err "failed to create a service account for apps"), a.2)
        | none =>
          let g := w.GiteaCreateOrg org a.2.world
          (g.1, a.2.step (KubeEvent.GiteaCreateOrg org g.1) g.2)

/-- Function `services.CreateCustomService` (`custom_service.go:84-121`); `data` holds
the key/value pairs of the Go map. -/
def services.CreateCustomService (w : KubeWorld σ) (name org : String)
    (data : List (String × String)) (s : KubeRun σ) :
    (Option CustomService × GoError) × KubeRun σ :=
  let secretName := w.serviceResourceName org name
  let g := w.SecretGet org secretName s.world
  let s1 := s.step (KubeEvent.SecretGet org secretName g.1) g.2
  match g.1.err with
  | none => ((none, some "Service of this name already exists."), s1)
  | some _ =>
    let sdata := data.map (fun kv => (kv.1, Bytes.ofString kv.2))
    let labels := [("epinio.suse.org/service-type", "custom"),
      ("epinio.suse.org/service", name),
      ("epinio.suse.org/organization", org),
      ("app.kubernetes.io/name", "epinio")]
    let c := w.CreateLabeledSecret org secretName sdata labels s1.world
    let s2 := s1.step (KubeEvent.CreateLabeledSecret org secretName sdata labels c.1) c.2
    match c.1 with
    | some err => ((none, some err), s2)
    | none =>
      ((some { SecretName := secretName, OrgName := org, Service := name }, none), s2)

/-- Modelled from the spec: `OrgAlreadyKnown(org)` of the absent `errors.go`, the
`Conflict` kind of spec §7 for an organization that exists already (the acceptance suite
looks for "Organization 'workspace' already exists"). -/
def OrgAlreadyKnown (org : String) : APIError :=
  NewAPIError ("Organization '" ++ org ++ "' already exists") "" StatusConflict

/-- Constant `http.StatusCreated`. -/
def StatusCreated : Nat := 201

namespace OrganizationsController

/-- Handler `OrganizationsController.Create` (`api/v1/organizations.go:50-97`); a decoded
body is the JSON object as a map from keys to strings. -/
def Create (w : KubeWorld σ) (body : Body (String → Option String)) (s0 : KubeRun σ) :
    APIErrors × KubeRun σ :=
  let g := w.GiteaNew s0.world
  let s1 := s0.step (KubeEvent.GiteaNew g.1) g.2
  match g.1 with
  | some err => ([InternalError err], s1)
  | none =>
    let c := w.GetCluster s1.world
    let s2 := s1.step (KubeEvent.GetCluster c.1) c.2
    match c.1 with
    | some err => ([InternalError err], s2)
    | none =>
      match body with
      | .readError err => ([InternalError err], s2)
      | .unmarshalError err => ([BadRequest err], s2)
      | .decoded parts =>
        match parts "name" with
        | none => ([BadRequest "Name of organization to create not found"], s2)
        | some org =>
          let e := organizations.Exists w org s2
          match e.1.2 with
          | some err => ([InternalError err], e.2)
          | none =>
            if e.1.1 then
              ([OrgAlreadyKnown org], e.2)
            else
              let k := organizations.Create w org e.2
              match k.1 with
              | some err => ([InternalError err], k.2)
              | none =>
                let h := k.2.step (KubeEvent.WriteHeader StatusCreated) k.2.world
                let r := w.Write h.world
                ([], h.step (KubeEvent.Write r.1) r.2)

end OrganizationsController

/-- The calls of a trace that create something: namespaces, secrets, service accounts
and repository accounts. -/
def creations (tr : List KubeEvent) : List KubeEvent :=
  tr.filter fun ev =>
    match ev with
    | .NamespaceCreate _ _ => true
    | .SecretCreate _ _ _ => true
    | .CreateLabeledSecret _ _ _ _ _ => true
    | .ServiceAccountCreate _ _ _ => true
    | .GiteaCreateOrg _ _ => true
    | _ => false

/-- The calls of a trace that delete something. -/
def deletions (tr : List KubeEvent) : List KubeEvent :=
  tr.filter fun ev =>
    match ev with
    | .SecretDelete _ _ _ => true
    | _ => false

/-- The `gitea.CreateOrg` calls of a trace: organization and outcome. -/
def giteaCalls (tr : List KubeEvent) : List (String × GoError) :=
  tr.filterMap fun ev =>
    match ev with
    | .GiteaCreateOrg org err => some (org, err)
    | _ => none

/-- The errors of the cluster calls of a trace (every call but `gitea.CreateOrg`). -/
def kubeFailures (tr : List KubeEvent) : List String :=
  tr.filterMap fun ev =>
    match ev with
    | .GiteaNew err => err
    | .GetCluster err => err
    | .NamespaceList _ (.error err) => some err
    | .NamespaceCreate _ err => err
    | .SecretGet _ _ res => res.err
    | .SecretCreate _ _ err => err
    | .CreateLabeledSecret _ _ _ _ err => err
    | .SecretDelete _ _ err => err
    | .ServiceAccountCreate _ _ err => err
    | .Write err => err
    | _ => none

/-! ## A concrete Kubernetes cluster -/

/-- Modelled from the spec: the cluster resources behind the organization and service
code (spec §2, Resource Capability Provider; §3), for the Kubernetes API, the Gitea
client and the `helpers/kubernetes` code that are absent from the sources: namespaces
with their labels, secrets, service accounts, the organizations of the repository
service, and whether that service can be reached. -/
structure KubeCluster where
  namespaces : List Namespace
  secrets : List Secret
  accounts : List (String × ServiceAccount)
  giteaOrgs : List String
  giteaReachable : Bool
  deriving DecidableEq, Repr

/-- The secret of a name in a namespace, if the cluster holds one. -/
def KubeCluster.secret (c : KubeCluster) (org name : String) : Option Secret :=
  c.secrets.find? (fun s => s.Namespace = org ∧ s.Name = name)

/-- Modelled from the spec: the collaborators of the organization and service code over
a `KubeCluster` (spec §3 and §4.1): listing selects the namespaces that carry the label
of the selector, creating adds a resource unless one of that name exists, reads leave
the cluster as it is.  The constants absent from the sources are given values for the
example. -/
def KubeCluster.world : KubeWorld KubeCluster where
  GiteaNew := fun c => (none, c)
  GetCluster := fun c => (none, c)
  NamespaceList := fun selector c =>
    (.ok (c.namespaces.filter (fun ns =>
      ns.Labels.any (fun l => l.1 ++ "=" ++ l.2 = selector))), c)
  NamespaceCreate := fun ns c =>
    if c.namespaces.any (fun x => x.Name = ns.Name) then
      (some "namespace already exists", c)
    else (none, { c with namespaces := c.namespaces ++ [ns] })
  SecretGet := fun org name c =>
    match c.secret org name with
    | some s => (.found s, c)
    | none => (.notFound "secret not found", c)
  SecretCreate := fun org secret c =>
    match c.secret org secret.Name with
    | some _ => (some "secret already exists", c)
    | none => (none, { c with secrets := c.secrets ++ [{ secret with Namespace := org }] })
  CreateLabeledSecret := fun org name data labels c =>
    match c.secret org name with
    | some _ => (some "secret already exists", c)
    | none =>
      (none, { c with secrets := c.secrets ++
        [{ Name := name, Namespace := org, ResourceVersion := "1", OwnerReferences := [],
           Labels := labels, Data := data }] })
  SecretDelete := fun org name c =>
    match c.secret org name with
    | some _ =>
      (none, { c with secrets := c.secrets.filter (fun s => ¬ (s.Namespace = org ∧ s.Name = name)) })
    | none => (some "secret not found", c)
  ServiceAccountCreate := fun org account c =>
    (none, { c with accounts := c.accounts ++ [(org, account)] })
  GiteaCreateOrg := fun org c =>
    if c.giteaReachable then (none, { c with giteaOrgs := c.giteaOrgs ++ [org] })
    else (some "gitea unreachable", c)
  Write := fun c => (none, c)
  EpinioOrgLabelKey := "epinio.suse.org/organization"
  EpinioOrgLabelValue := "true"
  TektonStagingNamespace := "tekton-staging"
  serviceResourceName := fun org name => "service.org-" ++ org ++ ".svc-" ++ name

/-- A shared secret of the staging namespace. -/
def stagingSecret (name : String) : Secret where
  Name := name
  Namespace := "tekton-staging"
  ResourceVersion := "7"
  OwnerReferences := ["installer"]
  Labels := []
  Data := [("value", Bytes.ofString "secret")]

/-- A cluster with the organization "workspace", a namespace that is no organization,
the staging namespace with the given shared secrets, and the custom service "db" of
"workspace". -/
def kubeCluster (shared : List String) (giteaReachable : Bool) : KubeCluster where
  namespaces := [
    { Name := "workspace",
      Labels := [("epinio.suse.org/organization", "true"),
        ("quarks.cloudfoundry.org/monitored", "quarks-secret")] },
    { Name := "tekton-staging", Labels := [] }]
  secrets := shared.map stagingSecret ++
    [{ Name := "service.org-workspace.svc-db", Namespace := "workspace",
       ResourceVersion := "1", OwnerReferences := [],
       Labels := [("epinio.suse.org/service", "db")], Data := [] }]
  accounts := []
  giteaOrgs := ["workspace"]
  giteaReachable := giteaReachable

/-- The JSON object `{"name": org}`, decoded. -/
def nameBody (org : String) : Body (String → Option String) :=
  .decoded (fun key => if key = "name" then some org else none)

/-- The two calls of a `copySecret` from the staging namespace that succeeds: get the
shared secret, create its copy in the organization. -/
def copiedSecret (w : KubeWorld σ) (secretName org : String) (secret : Secret) :
    List KubeEvent :=
  [KubeEvent.SecretGet w.TektonStagingNamespace secretName (.found secret),
    KubeEvent.SecretCreate org (organizations.copyOf secret org) none]

/-! ## `options.go` -/

/-- A Go `interface{}` value held by an installation option: a `bool`, a `string`, an
`int`, or a value of another type (`nil` included). -/
inductive GoValue where
  | bool (b : Bool)
  | string (s : String)
  | int (n : Int)
  | other
  deriving DecidableEq, Repr

/-- Constant `BooleanType` (`options.go:9`). -/
def BooleanType : Int := 0

/-- Constant `StringType` (`options.go:10`). -/
def StringType : Int := 1

/-- Constant `IntType` (`options.go:11`). -/
def IntType : Int := 2

/-- Type `kubernetes.InstallationOption` (`options.go:16-22`); `OptionType` is its field
`Type`. -/
structure InstallationOption where
  Name : String
  Value : GoValue
  Description : String
  OptionType : Int
  DeploymentID : String
  deriving DecidableEq, Repr

/-- Type `kubernetes.InstallationOptions`, a slice of options. -/
abbrev InstallationOptions := List InstallationOption

/-- A Go `map[string]InstallationOption`: its entries, one for each key.  Go leaves the
order in which a map is ranged over unspecified; the entries are kept here in the order in
which their keys were first assigned. -/
abbrev OptMap := List (String × InstallationOption)

/-- Map assignment `optMap[key] = opt`: replace the entry of the key, or add one. -/
def OptMap.set : OptMap → String → InstallationOption → OptMap
  | [], key, opt => [(key, opt)]
  | (k, v) :: rest, key, opt =>
    if k = key then (key, opt) :: rest else (k, v) :: OptMap.set rest key opt

/-- Method `ToOptMapKey` (`options.go:35-37`): `fmt.Sprintf("%s-%s", opt.Name,
opt.DeploymentID)`. -/
def InstallationOption.ToOptMapKey (opt : InstallationOption) : String :=
  opt.Name ++ "-" ++ opt.DeploymentID

/-- The loop `for _, opt := range opts { result[opt.ToOptMapKey()] = opt }`
(`options.go:28-30` and `options.go:43-45`). -/
def InstallationOptions.assignAll : List InstallationOption → OptMap → OptMap
  | [], result => result
  | opt :: rest, result => assignAll rest (result.set opt.ToOptMapKey opt)

/-- Method `ToOptMap` (`options.go:26-33`). -/
def InstallationOptions.ToOptMap (opts : InstallationOptions) : OptMap :=
  InstallationOptions.assignAll opts []

/-- Method `Merge` (`options.go:40-52`): the values of the map of `opts` after the options
of `toMerge` have been assigned into it.  The order of the result is the order in which Go
ranges over the map, which is unspecified; what is said about a result of `Merge` is said
of every reordering of this list. -/
def InstallationOptions.Merge (opts toMerge : InstallationOptions) : InstallationOptions :=
  let optMap := InstallationOptions.assignAll toMerge (InstallationOptions.ToOptMap opts)
  optMap.map Prod.snd

/-- First loop of `getOpt` (`options.go:60-64`): the first option of that name and that
deployment. -/
def InstallationOptions.privateOpt (optionName deploymentID : String) :
    List InstallationOption → Option InstallationOption
  | [] => none
  | opt :: rest =>
    if opt.Name = optionName ∧ opt.DeploymentID = deploymentID then some opt
    else privateOpt optionName deploymentID rest

/-- Second loop of `getOpt` (`options.go:67-71`): the first global option of that name. -/
def InstallationOptions.globalOpt (optionName : String) :
    List InstallationOption → Option InstallationOption
  | [] => none
  | opt :: rest =>
    if opt.Name = optionName ∧ opt.DeploymentID = "" then some opt
    else globalOpt optionName rest

/-- Method `getOpt` (`options.go:58-74`). -/
def InstallationOptions.getOpt (opts : InstallationOptions) (optionName deploymentID : String) :
    Except String InstallationOption :=
  match InstallationOptions.privateOpt optionName deploymentID opts with
  | some opt => .ok opt
  | none =>
    match InstallationOptions.globalOpt optionName opts with
    | some opt => .ok opt
    | none => .error (optionName ++ " not set")

/-- What a typed getter ends with: the value, the returned error, or a Go panic with its
message. -/
inductive Got (α : Type) where
  | value (a : α)
  | error (err : String)
  | panicked (message : String)
  deriving DecidableEq, Repr

/-- Method `GetString` (`options.go:76-90`). -/
def InstallationOptions.GetString (opts : InstallationOptions)
    (optionName deploymentID : String) : Got String :=
  match InstallationOptions.getOpt opts optionName deploymentID with
  | .error err => .error err
  | .ok opt =>
    match opt.Value with
    | .string result => .value result
    | _ => .panicked "wrong type assertion"

/-- Method `GetBool` (`options.go:92-105`). -/
def InstallationOptions.GetBool :
    InstallationOptions → String → String → Got Bool
  | [], optionName, _ => .error (optionName ++ " not set")
  | opt :: rest, optionName, deploymentID =>
    if opt.Name = optionName ∧ opt.DeploymentID = deploymentID then
      match opt.Value with
      | .bool result => .value result
      | _ => .panicked "wrong type assertion"
    else GetBool rest optionName deploymentID

/-- Method `GetInt` (`options.go:107-120`). -/
def InstallationOptions.GetInt :
    InstallationOptions → String → String → Got Int
  | [], optionName, _ => .error (optionName ++ " not set")
  | opt :: rest, optionName, deploymentID =>
    if opt.Name = optionName ∧ opt.DeploymentID = deploymentID then
      match opt.Value with
      | .int result => .value result
      | _ => .panicked "wrong type assertion"
    else GetInt rest optionName deploymentID

/-- The option type that goes with a value. -/
def GoValue.optionType : GoValue → Int
  | .bool _ => BooleanType
  | .int _ => IntType
  | _ => StringType

/-- An option of the given name, value and deployment. -/
def installationOption (name : String) (value : GoValue) (deploymentID : String) :
    InstallationOption :=
  { Name := name, Value := value, Description := "", OptionType := value.optionType,
    DeploymentID := deploymentID }

/-! ## `custom_service.go`: looking a service up and reading it -/

/-- Go conversion `string(b)` of a byte slice. -/
def Bytes.toString (b : Bytes) : String := b.content

/-- Function `services.CustomServiceLookup` (`custom_service.go:62-80`). -/
def services.CustomServiceLookup (w : KubeWorld σ) (org service : String) (s : KubeRun σ) :
    (Option CustomService × GoError) × KubeRun σ :=
  let secretName := w.serviceResourceName org service
  let g := w.SecretGet org secretName s.world
  let s1 := s.step (KubeEvent.SecretGet org secretName g.1) g.2
  match g.1 with
  | .notFound _ => ((none, none), s1)
  | .failed err => ((none, some err), s1)
  | .found _ =>
    ((some { SecretName := secretName, OrgName := org, Service := service }, none), s1)

/-- Method `CustomService.Name` (`custom_service.go:123-125`). -/
def CustomService.Name (s : CustomService) : String := s.Service

/-- Method `CustomService.Org` (`custom_service.go:127-129`). -/
def CustomService.Org (s : CustomService) : String := s.OrgName

/-- Method `CustomService.Status` (`custom_service.go:154-156`); it calls nothing. -/
def CustomService.Status (_service : CustomService) (s : KubeRun σ) :
    (String × GoError) × KubeRun σ :=
  (("Provisioned", none), s)

/-- Method `CustomService.WaitForProvision` (`custom_service.go:158-161`); it calls
nothing. -/
def CustomService.WaitForProvision (_service : CustomService) (s : KubeRun σ) :
    GoError × KubeRun σ :=
  (none, s)

/-- Method `CustomService.Details` (`custom_service.go:163-179`); the result holds the
key/value pairs of the Go map. -/
def CustomService.Details (w : KubeWorld σ) (service : CustomService) (s : KubeRun σ) :
    (Option (List (String × String)) × GoError) × KubeRun σ :=
  let g := w.SecretGet service.OrgName service.SecretName s.world
  let s1 := s.step (KubeEvent.SecretGet service.OrgName service.SecretName g.1) g.2
  match g.1 with
  | .notFound _ => ((none, some "service does not exist"), s1)
  | .failed err => ((none, some err), s1)
  | .found serviceSecret =>
    ((some (serviceSecret.Data.map (fun kv => (kv.1, kv.2.toString))), none), s1)

/-! ## `client.go`: the inverse index of the command-line client -/

/-- Type `clients.EpinioClient`, as far as `Push` and `ServicesToApps` read it:
`c.Config.Org` and `c.GiteaClient.Domain`. -/
structure EpinioClient where
  ConfigOrg : String
  GiteaDomain : String
  deriving DecidableEq, Repr

/-- Method `EpinioClient.ServicesToApps` (`client.go:1518-1546`).  Its body lists the
applications of `c.Config.Org` (`client.go:1525`) and does not read its parameter `org`;
its two loops (`client.go:1530-1543`) are the loops of `servicesToApps`
(`services.go:418-431`), statement for statement. -/
def EpinioClient.ServicesToApps (w : World σ) (c : EpinioClient) (_org : String)
    (s : Run σ) : Except String AppsOf × Run σ :=
  match w.appList c.ConfigOrg s with
  | (.error err, s1) => (.error err, s1)
  | (.ok apps, s1) => invertApps w apps AppsOf.empty s1

/-- The entry of a key in the index that an inversion returned; `none` when the key is
absent or no index was returned. -/
def AppsOf.entry (r : Except String AppsOf) (key : String) : Option (List Application) :=
  match r with
  | .ok appsOf => appsOf key
  | .error _ => none

/-- The applications that bind a service of the given name, when the applications and
their bound-service lists are the given pairs: in the order of the pairs, an application
once for each service of that name in its list. -/
def invertedPairs (pairs : List (Application × List Service)) (name : String) :
    List Application :=
  pairs.flatMap fun p => (p.2.filter (fun b => b.Name = name)).map (fun _ => p.1)

/-- The `app.Services()` calls that returned the given bound-service lists. -/
def servicesRead (pairs : List (Application × List Service)) : List Event :=
  pairs.map fun p => Event.AppServices p.1 (.ok p.2)

/-! ## Label selectors -/

/-- The responses a trace of `Stage` wrote. -/
def stageResponses (tr : List StageEvent) : List StageResponse :=
  tr.filterMap fun ev =>
    match ev with
    | .Write resp _ => some resp
    | _ => none

/-- Modelled from the spec: an equality-based label selector of the Kubernetes API
(spec §4.4 selects the runs of an application, and the run of a stage id, by their
labels), for the selector code of Kubernetes that is absent from the sources: the
requirements `key=value` that a resource has to meet. -/
abbrev LabelSelector := List (String × String)

/-- Modelled from the spec: the text of a label selector, its requirements `key=value`
separated by commas. -/
def LabelSelector.render : LabelSelector → String
  | [] => ""
  | [r] => r.1 ++ "=" ++ r.2
  | r :: rest => r.1 ++ "=" ++ r.2 ++ "," ++ LabelSelector.render rest

/-- The value of a label of a pipeline run, if the run carries the label. -/
def PipelineRun.labelValue (pr : PipelineRun) (key : String) : Option String :=
  (pr.Labels.find? (fun l => l.1 = key)).map Prod.snd

/-- Modelled from the spec: a run is matched by a label selector when it carries every
required label with the required value. -/
def PipelineRun.matchedBy (pr : PipelineRun) (selector : LabelSelector) : Prop :=
  ∀ r ∈ selector, pr.labelValue r.1 = some r.2

/-- The requirements of the selector of the admission guard of `Stage`
(`stage.go:164`). -/
def guardSelector (app : AppRef) : LabelSelector :=
  [("app.kubernetes.io/name", app.Name), ("app.kubernetes.io/part-of", app.Org)]

/-- The requirement of the selector of `WaitUntilStaged` (`stage.go:72`), for the value
`label` of `models.EpinioStageIDLabel`. -/
def waitSelector (label stageId : String) : LabelSelector :=
  [(label, stageId)]

/-! ## `client.go`: pushing an application -/

/-- What a call of the Gitea client hands back, as far as the code reads it: the status
code of the response (`none` when the response is `nil`) and the error. -/
structure GiteaReply where
  StatusCode : Option Nat
  err : GoError
  deriving DecidableEq, Repr

/-- A `gitea.Hook`, as far as `createRepoWebhook` reads it: its `Config` map. -/
structure Hook where
  Config : List (String × String)
  deriving DecidableEq, Repr

/-- Go map read `hook.Config[key]`: the empty string when the key is absent. -/
def Hook.config (hook : Hook) (key : String) : String :=
  match hook.Config.find? (fun kv => kv.1 = key) with
  | some kv => kv.2
  | none => ""

/-- Type `gitea.CreateRepoOption`, as far as `createRepo` fills it. -/
structure CreateRepoOption where
  Name : String
  AutoInit : Bool
  Private : Bool
  DefaultBranch : String
  deriving DecidableEq, Repr

/-- Type `gitea.CreateHookOption`, as far as `createRepoWebhook` fills it; `HookType` is
its field `Type`. -/
structure CreateHookOption where
  Active : Bool
  BranchFilter : String
  Config : List (String × String)
  HookType : String
  deriving DecidableEq, Repr

/-- One call made by `Push`, with its arguments and its outcome; `Exit` is the end of the
process by the user interface (`WithEnd`). -/
inductive PushEvent where
  | GetOrg (org : String) (reply : GiteaReply)
  | GetRepo (org name : String) (reply : GiteaReply)
  | CreateOrgRepo (org : String) (opt : CreateRepoOption) (err : GoError)
  | ListRepoHooks (org name : String) (res : Except String (List Hook))
  | CreateRepoHook (org name : String) (opt : CreateHookOption) (err : GoError)
  | PrepareCode (app route org path : String) (res : Except String String)
  | ProductionCertificate (app domain : String) (err : GoError)
  | LocalCertificate (app domain : String) (err : GoError)
  | GitPush (app tmpDir : String) (err : GoError)
  | Logs (app org : String) (err : GoError)
  | WaitForApp (org app : String) (err : GoError)
  | StopLogs
  | RemoveAll (tmpDir : String)
  | Exit (code : Nat) (message : String)
  deriving DecidableEq, Repr

/-- The collaborators of `Push`.  The calls of the Gitea client (`GetOrg`, `GetRepo`,
`CreateOrgRepo`, `ListRepoHooks`, `CreateRepoHook`), `os.RemoveAll`, the function that
stops the log tail, and `deployments.TektonStagingNamespace` are absent from the sources.
The steps `prepareCode`, `createProductionCertificate`, `createLocalCertificate`,
`gitPush`, `logs` and `waitForApp` are methods of `client.go` that work on the file
system, run `git` and wait for pods; `Push` reads only what they return, and they are
taken here by that outcome. -/
structure PushWorld (σ : Type) where
  GetOrg : String → σ → GiteaReply × σ
  GetRepo : String → String → σ → GiteaReply × σ
  CreateOrgRepo : String → CreateRepoOption → σ → GoError × σ
  ListRepoHooks : String → String → σ → Except String (List Hook) × σ
  CreateRepoHook : String → String → CreateHookOption → σ → GoError × σ
  prepareCode : String → String → String → String → σ → Except String String × σ
  createProductionCertificate : String → String → σ → GoError × σ
  createLocalCertificate : String → String → σ → GoError × σ
  gitPush : String → String → σ → GoError × σ
  logs : String → String → σ → GoError × σ
  waitForApp : String → String → σ → GoError × σ
  stopFunc : σ → σ
  RemoveAll : String → σ → σ
  TektonStagingNamespace : String

/-- State of a running `Push`: the state of the world and the calls made so far. -/
structure PushRun (σ : Type) where
  world : σ
  trace : List PushEvent

/-- A push starts with an empty trace. -/
def PushRun.start (st : σ) : PushRun σ := { world := st, trace := [] }

/-- Record a call in the trace and move to the state it left. -/
def PushRun.step (s : PushRun σ) (ev : PushEvent) (next : σ) : PushRun σ :=
  { world := next, trace := s.trace ++ [ev] }

/-- What a method of the client ends with: the returned error, the end of the process by
the user interface (`WithEnd(code)`, of the absent `termui`), or a Go panic (a nil
pointer dereference). -/
inductive PushOutcome where
  | returned (err : GoError)
  | exited (code : Nat)
  | panicked
  deriving DecidableEq, Repr

/-- Variable `HookSecret` (`client.go:45`). -/
def HookSecret : String := "74tZTBHkhjMT5Klj6Ik6PqmM"

/-- Variable `StagingEventListenerURL` (`client.go:49`). -/
def StagingEventListenerURL (w : PushWorld σ) : String :=
  "http://el-staging-listener." ++ w.TektonStagingNamespace ++ ":8080"

/-- Whether the characters `sub` stand at the start of the characters `l`. -/
def startsWith : List Char → List Char → Bool
  | _, [] => true
  | [], _ :: _ => false
  | a :: l, b :: sub => a == b && startsWith l sub

/-- Whether the characters `sub` stand somewhere in the characters `l`. -/
def containsChars : List Char → List Char → Bool
  | [], sub => sub.isEmpty
  | a :: l, sub => startsWith (a :: l) sub || containsChars l sub

/-- Library function `strings.Contains(s, substr)`. -/
def stringsContains (s substr : String) : Bool := containsChars s.data substr.data

/-- Method `ensureGoodOrg` (`client.go:1501-1516`). -/
def EpinioClient.ensureGoodOrg (w : PushWorld σ) (org msg : String) (s : PushRun σ) :
    PushOutcome × PushRun σ :=
  let r := w.GetOrg org s.world
  let s1 := s.step (PushEvent.GetOrg org r.1) r.2
  match r.1.StatusCode, r.1.err with
  | none, some err => (.returned (some (Wrap err "failed to make get org request")), s1)
  | none, none => (.panicked, s1)
  | some code, _ =>
    if code = 404 then
      let errmsg := "Organization does not exist." ++ (if msg ≠ "" then " " ++ msg else "")
      (.exited 1, s1.step (PushEvent.Exit 1 errmsg) s1.world)
    else (.returned none, s1)

/-- Method `createRepo` (`client.go:1140-1165`). -/
def EpinioClient.createRepo (w : PushWorld σ) (c : EpinioClient) (name : String)
    (s : PushRun σ) : PushOutcome × PushRun σ :=
  let r := w.GetRepo c.ConfigOrg name s.world
  let s1 := s.step (PushEvent.GetRepo c.ConfigOrg name r.1) r.2
  match r.1.StatusCode, r.1.err with
  | none, some err => (.returned (some (Wrap err "failed to make get repo request")), s1)
  | none, none => (.panicked, s1)
  | some code, _ =>
    if code = 200 then (.returned none, s1)
    else
      let opt : CreateRepoOption :=
        { Name := name, AutoInit := true, Private := true, DefaultBranch := "main" }
      let k := w.CreateOrgRepo c.ConfigOrg opt s1.world
      let s2 := s1.step (PushEvent.CreateOrgRepo c.ConfigOrg opt k.1) k.2
      match k.1 with
      | some err => (.returned (some (Wrap err "failed to create application")), s2)
      | none => (.returned none, s2)

/-- The hook `createRepoWebhook` asks for (`client.go:1183-1193`). -/
def stagingHook (w : PushWorld σ) : CreateHookOption :=
  { Active := true
    BranchFilter := "*"
    Config := [("secret", HookSecret), ("http_method", "POST"),
      ("url", StagingEventListenerURL w), ("content_type", "json")]
    HookType := "gitea" }

/-- Method `createRepoWebhook` (`client.go:1167-1196`).  The call of `CreateRepoHook`
(`client.go:1183`) is a statement of its own: what it returns is not read. -/
def EpinioClient.createRepoWebhook (w : PushWorld σ) (c : EpinioClient) (name : String)
    (s : PushRun σ) : GoError × PushRun σ :=
  let l := w.ListRepoHooks c.ConfigOrg name s.world
  let s1 := s.step (PushEvent.ListRepoHooks c.ConfigOrg name l.1) l.2
  match l.1 with
  | .error err => (some (Wrap err "failed to list webhooks"), s1)
  | .ok hooks =>
    if hooks.any (fun hook => hook.config "url" == StagingEventListenerURL w) then (none, s1)
    else
      let k := w.CreateRepoHook c.ConfigOrg name (stagingHook w) s1.world
      (none, s1.step (PushEvent.CreateRepoHook c.ConfigOrg name (stagingHook w) k.1) k.2)

/-- Method `appDefaultRoute` (`client.go:1198-1200`). -/
def EpinioClient.appDefaultRoute (c : EpinioClient) (name : String) : String :=
  name ++ "." ++ c.GiteaDomain

/-- End of `Push` (`client.go:862-928`), after the code has been prepared in `tmpDir`:
certificate, git push, log tail, wait for the application; the deferred `stopFunc()` runs
when `Push` returns after the log tail has started. -/
def EpinioClient.pushCode (w : PushWorld σ) (c : EpinioClient) (app tmpDir : String)
    (s : PushRun σ) : PushOutcome × PushRun σ :=
  let cert : GoError × PushRun σ :=
    if ¬ stringsContains c.GiteaDomain "omg.howdoi.website" then
      let k := w.createProductionCertificate app c.GiteaDomain s.world
      (k.1.map (fun err => Wrap err "create production ssl certificate failed"),
        s.step (PushEvent.ProductionCertificate app c.GiteaDomain k.1) k.2)
    else
      let k := w.createLocalCertificate app c.GiteaDomain s.world
      (k.1.map (fun err => Wrap err "create local ssl certificate failed"),
        s.step (PushEvent.LocalCertificate app c.GiteaDomain k.1) k.2)
  match cert.1 with
  | some err => (.returned (some err), cert.2)
  | none =>
    let g := w.gitPush app tmpDir cert.2.world
    let s2 := cert.2.step (PushEvent.GitPush app tmpDir g.1) g.2
    match g.1 with
    | some err => (.returned (some (Wrap err "failed to git push code")), s2)
    | none =>
      let l := w.logs app c.ConfigOrg s2.world
      let s3 := s2.step (PushEvent.Logs app c.ConfigOrg l.1) l.2
      match l.1 with
      | some err => (.returned (some (Wrap err "failed to tail logs")), s3)
      | none =>
        let a := w.waitForApp c.ConfigOrg app s3.world
        let s4 := s3.step (PushEvent.WaitForApp c.ConfigOrg app a.1) a.2
        let s5 := s4.step PushEvent.StopLogs (w.stopFunc s4.world)
        match a.1 with
        | some err => (.returned (some (Wrap err "waiting for app failed")), s5)
        | none => (.returned none, s5)

/-- Method `EpinioClient.Push` (`client.go:838-929`); the deferred `os.RemoveAll(tmpDir)`
runs when `Push` returns after the code has been prepared. -/
def EpinioClient.Push (w : PushWorld σ) (c : EpinioClient) (app path : String)
    (s0 : PushRun σ) : PushOutcome × PushRun σ :=
  match EpinioClient.ensureGoodOrg w c.ConfigOrg "Unable to push." s0 with
  | (.returned none, s1) =>
    match EpinioClient.createRepo w c app s1 with
    | (.returned none, s2) =>
      let h := EpinioClient.createRepoWebhook w c app s2
      match h.1 with
      | some err => (.returned (some (Wrap err "webhook configuration failed")), h.2)
      | none =>
        let route := c.appDefaultRoute app
        let p := w.prepareCode app route c.ConfigOrg path h.2.world
        let s4 := h.2.step (PushEvent.PrepareCode app route c.ConfigOrg path p.1) p.2
        match p.1 with
        | .error err => (.returned (some (Wrap err "failed to prepare code")), s4)
        | .ok tmpDir =>
          let rest := EpinioClient.pushCode w c app tmpDir s4
          (rest.1, rest.2.step (PushEvent.RemoveAll tmpDir) (w.RemoveAll tmpDir rest.2.world))
    | (.returned (some err), s2) => (.returned (some (Wrap err "create repo failed")), s2)
    | (outcome, s2) => (outcome, s2)
  | (outcome, s1) => (outcome, s1)

/-- The webhook calls of a trace. -/
def hookCreations (tr : List PushEvent) : List GoError :=
  tr.filterMap fun ev =>
    match ev with
    | .CreateRepoHook _ _ _ err => some err
    | _ => none

/-! ## A concrete repository service -/

/-- Modelled from the spec: the source-repository service and the cluster behind a push
(spec §2 and §4.5), for the Gitea client and the cluster code that are absent from the
sources: the organizations, the repositories, the webhooks of each repository, the
applications whose code was pushed, and whether the service refuses to create webhooks. -/
structure PushCluster where
  orgs : List String
  repos : List (String × String)
  hooks : List ((String × String) × Hook)
  pushed : List String
  refusesHooks : Bool
  deriving DecidableEq, Repr

/-- Modelled from the spec: the collaborators of `Push` over a `PushCluster`; every step
after the webhook succeeds. -/
def PushCluster.world : PushWorld PushCluster where
  GetOrg := fun org c =>
    if org ∈ c.orgs then ({ StatusCode := some 200, err := none }, c)
    else ({ StatusCode := some 404, err := some "organization not found" }, c)
  GetRepo := fun org name c =>
    if (org, name) ∈ c.repos then ({ StatusCode := some 200, err := none }, c)
    else ({ StatusCode := some 404, err := some "repository not found" }, c)
  CreateOrgRepo := fun org opt c => (none, { c with repos := c.repos ++ [(org, opt.Name)] })
  ListRepoHooks := fun org name c =>
    (.ok ((c.hooks.filter (fun h => h.1 = (org, name))).map Prod.snd), c)
  CreateRepoHook := fun org name opt c =>
    if c.refusesHooks then (some "hook creation refused", c)
    else (none, { c with hooks := c.hooks ++ [((org, name), { Config := opt.Config })] })
  prepareCode := fun app _ _ _ c => (.ok ("/tmp/epinio-app-" ++ app), c)
  createProductionCertificate := fun _ _ c => (none, c)
  createLocalCertificate := fun _ _ c => (none, c)
  gitPush := fun app _ c => (none, { c with pushed := c.pushed ++ [app] })
  logs := fun _ _ c => (none, c)
  waitForApp := fun _ _ c => (none, c)
  stopFunc := fun c => c
  RemoveAll := fun _ c => c
  TektonStagingNamespace := "tekton-staging"

/-- A repository service with the organization "workspace" and no repository, which
refuses to create webhooks or not. -/
def pushCluster (refusesHooks : Bool) : PushCluster where
  orgs := ["workspace"]
  repos := []
  hooks := []
  pushed := []
  refusesHooks := refusesHooks

/-- A client for the organization "workspace" of the domain "example.org". -/
def pushClient : EpinioClient := { ConfigOrg := "workspace", GiteaDomain := "example.org" }

/-- Go map read `optMap[key]` with its presence flag. -/
def OptMap.get (m : OptMap) (key : String) : Option InstallationOption :=
  (m.find? (fun e => e.1 = key)).map Prod.snd

/-- Modelled from the spec: the collaborators of the binding handlers over a `Cluster`
on which `app.Services()` fails for the applications whose backing resources cannot be
reached (spec §7, an infrastructure failure); the other calls are those of
`Cluster.world`. -/
def Cluster.unreadableWorld : World Cluster :=
  { Cluster.world with
    AppServices := fun app c =>
      if app.Name ∈ c.brokenApps then (.error "cluster unreachable", c)
      else (.ok (c.boundTo app), c) }

/-- The error that an inversion returned, if it returned one. -/
def AppsOf.failure (r : Except String AppsOf) : Option String :=
  match r with
  | .ok _ => none
  | .error err => some err

/-- What the cluster answers when the names are looked up one after the other, each
lookup made on the state the lookup before it left, and the state the last one leaves. -/
def lookupAll (w : World σ) (org : String) :
    List String → σ → List (String × Except String Service) × σ
  | [], st => ([], st)
  | name :: rest, st =>
    let r := w.ServiceLookup org name st
    let t := lookupAll w org rest r.2
    ((name, r.1) :: t.1, t.2)

/-- What the cluster answers when the services are bound to the application one after
the other, each `app.Bind` made on the state the one before it left, and the state the
last one leaves. -/
def bindAll (w : World σ) (app : Application) :
    List Service → σ → List (Service × GoError) × σ
  | [], st => ([], st)
  | service :: rest, st =>
    let r := w.Bind app service st
    let t := bindAll w app rest r.2
    ((service, r.1) :: t.1, t.2)

/-- Modelled from the spec: the collaborators of `Stage` over a `StageCluster` whose
deployments cannot be read (spec §7, an infrastructure failure): the lookup of a
deployment fails with an error that is not a not-found; the other calls are those of
`StageCluster.world`. -/
def StageCluster.unreachableWorld : StageWorld StageCluster :=
  { StageCluster.world with
    DeploymentGet := fun _ _ c => (.failed "etcd unavailable", c) }

/-! ## Lemmas on traces -/

theorem lookups_append (a b : List Event) : lookups (a ++ b) = lookups a ++ lookups b := by
  simp [lookups, List.filterMap_append]

theorem binds_append (a b : List Event) : binds (a ++ b) = binds a ++ binds b := by
  simp [binds, List.filterMap_append]

theorem unbinds_append (a b : List Event) : unbinds (a ++ b) = unbinds a ++ unbinds b := by
  simp [unbinds, List.filterMap_append]

theorem serviceDeletes_append (a b : List Event) :
    serviceDeletes (a ++ b) = serviceDeletes a ++ serviceDeletes b := by
  simp [serviceDeletes, List.filterMap_append]

theorem written_append (a b : List Event) : written (a ++ b) = written a ++ written b := by
  simp [written, List.filterMap_append]

theorem lookups_lookupEvents (org : String) (ls : List (String × Except String Service)) :
    lookups (ls.map (fun p => Event.ServiceLookup org p.1 p.2)) = ls := by
  induction ls with
  | nil => rfl
  | cons p ls ih =>
    simp only [lookups] at ih
    simp [lookups, ih]

theorem binds_lookupEvents (org : String) (ls : List (String × Except String Service)) :
    binds (ls.map (fun p => Event.ServiceLookup org p.1 p.2)) = [] := by
  induction ls with
  | nil => rfl
  | cons p ls ih =>
    simp only [binds] at ih
    simp [binds, ih]

theorem binds_bindEvents (app : Application) (bs : List (Service × GoError)) :
    binds (bs.map (fun p => Event.Bind app p.1 p.2)) = bs := by
  induction bs with
  | nil => rfl
  | cons p bs ih =>
    simp only [binds] at ih
    simp [binds, ih]

theorem lookups_bindEvents (app : Application) (bs : List (Service × GoError)) :
    lookups (bs.map (fun p => Event.Bind app p.1 p.2)) = [] := by
  induction bs with
  | nil => rfl
  | cons p bs ih =>
    simp only [lookups] at ih
    simp [lookups, ih]

theorem foundServices_append (a b : List (String × Except String Service)) :
    foundServices (a ++ b) = foundServices a ++ foundServices b := by
  simp [foundServices, List.filterMap_append]

theorem notFoundNames_append (a b : List (String × Except String Service)) :
    notFoundNames (a ++ b) = notFoundNames a ++ notFoundNames b := by
  simp [notFoundNames, List.filterMap_append]

theorem alreadyBoundNames_append (a b : List (Service × GoError)) :
    alreadyBoundNames (a ++ b) = alreadyBoundNames a ++ alreadyBoundNames b := by
  simp [alreadyBoundNames, List.filterMap_append]

namespace ServicebindingsController

theorem resolveLoop_found (w : World σ) (org name : String) (rest : List String)
    (theServices : List Service) (theIssues : APIErrors) (s : Run σ) (service : Service)
    (h : (w.ServiceLookup org name s.world).1 = .ok service) :
    resolveLoop w org (name :: rest) theServices theIssues s
      = resolveLoop w org rest (theServices ++ [service]) theIssues
          (s.step (Event.ServiceLookup org name (.ok service))
            (w.ServiceLookup org name s.world).2) := by
  simp [resolveLoop, World.serviceLookup, h]

theorem resolveLoop_notFound (w : World σ) (org name : String) (rest : List String)
    (theServices : List Service) (theIssues : APIErrors) (s : Run σ)
    (h : (w.ServiceLookup org name s.world).1 = .error "service not found") :
    resolveLoop w org (name :: rest) theServices theIssues s
      = resolveLoop w org rest theServices (theIssues ++ [ServiceIsNotKnown name])
          (s.step (Event.ServiceLookup org name (.error "service not found"))
            (w.ServiceLookup org name s.world).2) := by
  simp [resolveLoop, World.serviceLookup, h]

theorem resolveLoop_failed (w : World σ) (org name : String) (rest : List String)
    (theServices : List Service) (theIssues : APIErrors) (s : Run σ) (err : String)
    (h : (w.ServiceLookup org name s.world).1 = .error err) (hne : err ≠ "service not found") :
    resolveLoop w org (name :: rest) theServices theIssues s
      = (.error (InternalError err :: theIssues),
          s.step (Event.ServiceLookup org name (.error err))
            (w.ServiceLookup org name s.world).2) := by
  simp [resolveLoop, World.serviceLookup, h, hne]

/-- What the resolve loop does, for every behaviour of the lookups: it looks the names up
in order; it either gets through all of them, none failing internally, and hands on the
found services and one issue per not-found name, or it stops at the first lookup that
fails internally and returns that error ahead of the issues collected so far. -/
theorem resolveLoop_spec (w : World σ) (org : String) :
    ∀ (names : List String) (theServices : List Service) (theIssues : APIErrors) (s : Run σ),
    ∃ ls : List (String × Except String Service),
      (resolveLoop w org names theServices theIssues s).2.trace
        = s.trace ++ ls.map (fun p => Event.ServiceLookup org p.1 p.2) ∧
      (((resolveLoop w org names theServices theIssues s).1
          = .ok (theServices ++ foundServices ls,
              theIssues ++ (notFoundNames ls).map ServiceIsNotKnown)
        ∧ ls.map Prod.fst = names ∧ lookupFailures ls = []) ∨
       (∃ (init : List (String × Except String Service)) (n e : String) (post : List String),
          ls = init ++ [(n, .error e)] ∧ names = init.map Prod.fst ++ n :: post
          ∧ e ≠ "service not found" ∧ lookupFailures init = []
          ∧ (resolveLoop w org names theServices theIssues s).1
              = .error (InternalError e ::
                  (theIssues ++ (notFoundNames init).map ServiceIsNotKnown)))) := by
  intro names
  induction names with
  | nil =>
    intro theServices theIssues s
    refine ⟨[], ?_, Or.inl ?_⟩
    · simp [resolveLoop]
    · simp [resolveLoop, foundServices, notFoundNames, lookupFailures]
  | cons name rest ih =>
    intro theServices theIssues s
    cases hres : (w.ServiceLookup org name s.world).1 with
    | error err =>
      by_cases hnf : err = "service not found"
      · subst hnf
        rw [resolveLoop_notFound w org name rest theServices theIssues s hres]
        obtain ⟨ls, htr, hcase⟩ := ih theServices (theIssues ++ [ServiceIsNotKnown name])
          (s.step (Event.ServiceLookup org name (.error "service not found"))
            (w.ServiceLookup org name s.world).2)
        refine ⟨(name, .error "service not found") :: ls, ?_, ?_⟩
        · rw [htr]; simp [Run.step]
        · rcases hcase with ⟨hok, hnames, hfail⟩ | ⟨init, n, e, post, hls, hnames, hne, hfail, herr⟩
          · left
            refine ⟨?_, ?_, ?_⟩
            · rw [hok]; simp [foundServices, notFoundNames]
            · simp [hnames]
            · simp only [lookupFailures] at hfail
              simp [lookupFailures, hfail]
          · right
            refine ⟨(name, .error "service not found") :: init, n, e, post, ?_, ?_, hne, ?_, ?_⟩
            · simp [hls]
            · simp [hnames]
            · simp only [lookupFailures] at hfail
              simp [lookupFailures, hfail]
            · rw [herr]; simp [notFoundNames]
      · rw [resolveLoop_failed w org name rest theServices theIssues s err hres hnf]
        refine ⟨[(name, .error err)], ?_, Or.inr ⟨[], name, err, rest, ?_, ?_, hnf, ?_, ?_⟩⟩
        · simp [Run.step]
        · simp
        · simp
        · simp [lookupFailures]
        · simp [notFoundNames]
    | ok service =>
      rw [resolveLoop_found w org name rest theServices theIssues s service hres]
      obtain ⟨ls, htr, hcase⟩ := ih (theServices ++ [service]) theIssues
        (s.step (Event.ServiceLookup org name (.ok service)) (w.ServiceLookup org name s.world).2)
      refine ⟨(name, .ok service) :: ls, ?_, ?_⟩
      · rw [htr]; simp [Run.step]
      · rcases hcase with ⟨hok, hnames, hfail⟩ | ⟨init, n, e, post, hls, hnames, hne, hfail, herr⟩
        · left
          refine ⟨?_, ?_, ?_⟩
          · rw [hok]; simp [foundServices, notFoundNames]
          · simp [hnames]
          · simp only [lookupFailures] at hfail
            simp [lookupFailures, hfail]
        · right
          refine ⟨(name, .ok service) :: init, n, e, post, ?_, ?_, hne, ?_, ?_⟩
          · simp [hls]
          · simp [hnames]
          · simp only [lookupFailures] at hfail
            simp [lookupFailures, hfail]
          · rw [herr]; simp [notFoundNames]

end ServicebindingsController

namespace ServicebindingsController

theorem bindLoop_bound (w : World σ) (app : Application) (service : Service)
    (rest : List Service) (theIssues : APIErrors) (s : Run σ)
    (h : (w.Bind app service s.world).1 = none) :
    bindLoop w app (service :: rest) theIssues s
      = bindLoop w app rest theIssues
          (s.step (Event.Bind app service none) (w.Bind app service s.world).2) := by
  simp [bindLoop, World.bind, h]

theorem bindLoop_alreadyBound (w : World σ) (app : Application) (service : Service)
    (rest : List Service) (theIssues : APIErrors) (s : Run σ)
    (h : (w.Bind app service s.world).1 = some "service already bound") :
    bindLoop w app (service :: rest) theIssues s
      = bindLoop w app rest (theIssues ++ [ServiceAlreadyBound service.Name])
          (s.step (Event.Bind app service (some "service already bound"))
            (w.Bind app service s.world).2) := by
  simp [bindLoop, World.bind, h]

theorem bindLoop_failed (w : World σ) (app : Application) (service : Service)
    (rest : List Service) (theIssues : APIErrors) (s : Run σ) (err : String)
    (h : (w.Bind app service s.world).1 = some err) (hne : err ≠ "service already bound") :
    bindLoop w app (service :: rest) theIssues s
      = (.error (InternalError err :: theIssues),
          s.step (Event.Bind app service (some err)) (w.Bind app service s.world).2) := by
  simp [bindLoop, World.bind, h, hne]

/-- What the bind loop does, for every behaviour of `app.Bind`: it binds the services in
order; it either gets through all of them, none failing internally, and hands on one issue
per "service already bound" outcome, or it stops at the first bind that fails internally
and returns that error ahead of the issues collected so far. -/
theorem bindLoop_spec (w : World σ) (app : Application) :
    ∀ (services : List Service) (theIssues : APIErrors) (s : Run σ),
    ∃ bs : List (Service × GoError),
      (bindLoop w app services theIssues s).2.trace
        = s.trace ++ bs.map (fun p => Event.Bind app p.1 p.2) ∧
      (((bindLoop w app services theIssues s).1
          = .ok (theIssues ++ (alreadyBoundNames bs).map ServiceAlreadyBound)
        ∧ bs.map Prod.fst = services ∧ bindFailures bs = []) ∨
       (∃ (init : List (Service × GoError)) (sv : Service) (e : String) (post : List Service),
          bs = init ++ [(sv, some e)] ∧ services = init.map Prod.fst ++ sv :: post
          ∧ e ≠ "service already bound" ∧ bindFailures init = []
          ∧ (bindLoop w app services theIssues s).1
              = .error (InternalError e ::
                  (theIssues ++ (alreadyBoundNames init).map ServiceAlreadyBound)))) := by
  intro services
  induction services with
  | nil =>
    intro theIssues s
    refine ⟨[], ?_, Or.inl ?_⟩
    · simp [bindLoop]
    · simp [bindLoop, alreadyBoundNames, bindFailures]
  | cons service rest ih =>
    intro theIssues s
    cases hres : (w.Bind app service s.world).1 with
    | some err =>
      by_cases hab : err = "service already bound"
      · subst hab
        rw [bindLoop_alreadyBound w app service rest theIssues s hres]
        obtain ⟨bs, htr, hcase⟩ := ih (theIssues ++ [ServiceAlreadyBound service.Name])
          (s.step (Event.Bind app service (some "service already bound"))
            (w.Bind app service s.world).2)
        refine ⟨(service, some "service already bound") :: bs, ?_, ?_⟩
        · rw [htr]; simp [Run.step]
        · rcases hcase with ⟨hok, hsv, hfail⟩ | ⟨init, sv, e, post, hbs, hsv, hne, hfail, herr⟩
          · left
            refine ⟨?_, ?_, ?_⟩
            · rw [hok]; simp [alreadyBoundNames]
            · simp [hsv]
            · simp only [bindFailures] at hfail
              simp [bindFailures, hfail]
          · right
            refine ⟨(service, some "service already bound") :: init, sv, e, post,
              ?_, ?_, hne, ?_, ?_⟩
            · simp [hbs]
            · simp [hsv]
            · simp only [bindFailures] at hfail
              simp [bindFailures, hfail]
            · rw [herr]; simp [alreadyBoundNames]
      · rw [bindLoop_failed w app service rest theIssues s err hres hab]
        refine ⟨[(service, some err)], ?_, Or.inr ⟨[], service, err, rest, ?_, ?_, hab, ?_, ?_⟩⟩
        · simp [Run.step]
        · simp
        · simp
        · simp [bindFailures]
        · simp [alreadyBoundNames]
    | none =>
      rw [bindLoop_bound w app service rest theIssues s hres]
      obtain ⟨bs, htr, hcase⟩ := ih theIssues
        (s.step (Event.Bind app service none) (w.Bind app service s.world).2)
      refine ⟨(service, none) :: bs, ?_, ?_⟩
      · rw [htr]; simp [Run.step]
      · rcases hcase with ⟨hok, hsv, hfail⟩ | ⟨init, sv, e, post, hbs, hsv, hne, hfail, herr⟩
        · left
          refine ⟨?_, ?_, ?_⟩
          · rw [hok]; simp [alreadyBoundNames]
          · simp [hsv]
          · simp only [bindFailures] at hfail
            simp [bindFailures, hfail]
        · right
          refine ⟨(service, none) :: init, sv, e, post, ?_, ?_, hne, ?_, ?_⟩
          · simp [hbs]
          · simp [hsv]
          · simp only [bindFailures] at hfail
            simp [bindFailures, hfail]
          · rw [herr]; simp [alreadyBoundNames]

/-- A valid request on a reachable cluster with a known organization and a known
application gets to the two loops of `Create`. -/
theorem Create_reaches_loops (w : World σ) (org appName : String) (req : BindRequest)
    (st0 st1 st2 st3 : σ) (app : Application)
    (hnames : req.Names ≠ []) (hempty : "" ∉ req.Names)
    (hc : w.GetCluster st0 = (none, st1))
    (ho : w.OrgExists org st1 = (.ok true, st2))
    (ha : w.AppLookup org appName st2 = (.ok (some app), st3)) :
    Create w org appName (.decoded req) (Run.start st0)
      = match resolveLoop w org req.Names [] []
            { world := st3, trace := preamble org appName app } with
        | (.error errs, s4) => (errs, s4)
        | (.ok (theServices, theIssues), s4) =>
          match bindLoop w app theServices theIssues s4 with
          | (.error errs, s5) => (errs, s5)
          | (.ok theIssues, s5) =>
            if theIssues.length > 0 then
              (theIssues, s5)
            else
              match w.write Payload.empty s5 with
              | (some err, s6) => ([InternalError err] ++ theIssues, s6)
              | (none, s6) => ([], s6) := by
  have h0 : ¬ req.Names.length = 0 := by
    intro h; exact hnames (List.length_eq_zero.mp h)
  have h1 : (req.Names.any fun serviceName => serviceName == "") = false := by
    rw [Bool.eq_false_iff]
    intro h
    rw [List.any_eq_true] at h
    obtain ⟨x, hx, hx2⟩ := h
    have : x = "" := by simpa using hx2
    exact hempty (this ▸ hx)
  simp only [Create, h0, h1, World.getCluster, World.orgExists, World.appLookup, Run.start,
    Run.step, hc, ho, ha, preamble]
  simp

end ServicebindingsController

namespace ServicebindingsController

/-- What `Create` does once it has got to its loops, for every behaviour of the lookups
and of `app.Bind`: case A, a lookup failed internally; case B, all names were looked up
and a bind failed internally; case C, all names were looked up and all resolved services
were bound or found already bound. -/
theorem Create_spec (w : World σ) (org appName : String) (req : BindRequest)
    (st0 st1 st2 st3 : σ) (app : Application)
    (hnames : req.Names ≠ []) (hempty : "" ∉ req.Names)
    (hc : w.GetCluster st0 = (none, st1))
    (ho : w.OrgExists org st1 = (.ok true, st2))
    (ha : w.AppLookup org appName st2 = (.ok (some app), st3)) :
    ∃ (ls : List (String × Except String Service)) (bs : List (Service × GoError))
      (tail : List Event),
      (Create w org appName (.decoded req) (Run.start st0)).2.trace
        = preamble org appName app ++ ls.map (fun p => Event.ServiceLookup org p.1 p.2)
            ++ bs.map (fun p => Event.Bind app p.1 p.2) ++ tail ∧
      ((∃ (init : List (String × Except String Service)) (n e : String) (post : List String),
          ls = init ++ [(n, .error e)] ∧ req.Names = init.map Prod.fst ++ n :: post
          ∧ e ≠ "service not found" ∧ lookupFailures init = [] ∧ bs = [] ∧ tail = []
          ∧ (Create w org appName (.decoded req) (Run.start st0)).1
              = InternalError e :: (notFoundNames init).map ServiceIsNotKnown) ∨
       (ls.map Prod.fst = req.Names ∧ lookupFailures ls = [] ∧
        ∃ (init : List (Service × GoError)) (sv : Service) (e : String) (post : List Service),
          bs = init ++ [(sv, some e)] ∧ foundServices ls = init.map Prod.fst ++ sv :: post
          ∧ e ≠ "service already bound" ∧ bindFailures init = [] ∧ tail = []
          ∧ (Create w org appName (.decoded req) (Run.start st0)).1
              = InternalError e :: ((notFoundNames ls).map ServiceIsNotKnown
                  ++ (alreadyBoundNames init).map ServiceAlreadyBound)) ∨
       (ls.map Prod.fst = req.Names ∧ lookupFailures ls = [] ∧
        bs.map Prod.fst = foundServices ls ∧ bindFailures bs = [] ∧
        (((notFoundNames ls).map ServiceIsNotKnown
            ++ (alreadyBoundNames bs).map ServiceAlreadyBound ≠ [] ∧ tail = []
          ∧ (Create w org appName (.decoded req) (Run.start st0)).1
              = (notFoundNames ls).map ServiceIsNotKnown
                  ++ (alreadyBoundNames bs).map ServiceAlreadyBound) ∨
         ((notFoundNames ls).map ServiceIsNotKnown
            ++ (alreadyBoundNames bs).map ServiceAlreadyBound = [] ∧
          ∃ r : GoError, tail = [Event.Write Payload.empty r]
          ∧ (Create w org appName (.decoded req) (Run.start st0)).1
              = match r with
                | some err => [InternalError err]
                | none => [])))) := by
  rw [Create_reaches_loops w org appName req st0 st1 st2 st3 app hnames hempty hc ho ha]
  obtain ⟨ls, htr, hcase⟩ := resolveLoop_spec w org req.Names [] []
    { world := st3, trace := preamble org appName app }
  rcases hcase with ⟨hok, hn, hfail⟩ | ⟨init, n, e, post, hls, hn, hne, hfail, herr⟩
  · -- all names looked up
    obtain ⟨bs, htr2, hcase2⟩ := bindLoop_spec w app ([] ++ foundServices ls)
      ([] ++ (notFoundNames ls).map ServiceIsNotKnown)
      (resolveLoop w org req.Names [] [] { world := st3, trace := preamble org appName app }).2
    generalize hR : resolveLoop w org req.Names [] []
      { world := st3, trace := preamble org appName app } = R at hok htr htr2 hcase2 ⊢
    obtain ⟨R1, R2⟩ := R
    simp only at hok htr htr2 hcase2
    subst hok
    simp only [List.nil_append] at htr2 hcase2 ⊢
    rcases hcase2 with ⟨hok2, hsv, hfail2⟩ | ⟨binit, sv, e, post, hbs, hsv, hne, hfail2, herr2⟩
    · generalize hB : bindLoop w app (foundServices ls)
        ((notFoundNames ls).map ServiceIsNotKnown) R2 = B at hok2 htr2 ⊢
      obtain ⟨B1, B2⟩ := B
      simp only at hok2 htr2
      subst hok2
      by_cases hlen : ((notFoundNames ls).map ServiceIsNotKnown
          ++ (alreadyBoundNames bs).map ServiceAlreadyBound).length > 0
      · refine ⟨ls, bs, [], ?_, Or.inr (Or.inr ⟨hn, hfail, hsv, hfail2, Or.inl ⟨?_, rfl, ?_⟩⟩)⟩
        · simp only [hlen, if_true]
          rw [htr2, htr]; simp
        · exact List.ne_nil_of_length_pos hlen
        · simp only [hlen, if_true]
      · have hnil : (notFoundNames ls).map ServiceIsNotKnown
            ++ (alreadyBoundNames bs).map ServiceAlreadyBound = [] := by
          apply List.eq_nil_of_length_eq_zero
          omega
        refine ⟨ls, bs, [Event.Write Payload.empty (w.Write Payload.empty B2.world).1], ?_,
          Or.inr (Or.inr ⟨hn, hfail, hsv, hfail2,
            Or.inr ⟨hnil, (w.Write Payload.empty B2.world).1, rfl, ?_⟩⟩)⟩
        · simp only [hlen, if_false, World.write]
          cases hw : (w.Write Payload.empty B2.world).1 <;>
            simp [Run.step, htr2, htr]
        · simp only [hlen, if_false, World.write]
          cases hw : (w.Write Payload.empty B2.world).1 <;> simp [hnil]
    · generalize hB : bindLoop w app (foundServices ls)
        ((notFoundNames ls).map ServiceIsNotKnown) R2 = B at herr2 htr2 ⊢
      obtain ⟨B1, B2⟩ := B
      simp only at herr2 htr2
      subst herr2
      refine ⟨ls, bs, [], ?_, Or.inr (Or.inl ⟨hn, hfail, binit, sv, e, post, hbs, hsv, hne,
        hfail2, rfl, rfl⟩)⟩
      simp only
      rw [htr2, htr]; simp
  · generalize hR : resolveLoop w org req.Names [] []
      { world := st3, trace := preamble org appName app } = R at herr htr ⊢
    obtain ⟨R1, R2⟩ := R
    simp only at herr htr
    subst herr
    refine ⟨ls, [], [], ?_, Or.inl ⟨init, n, e, post, hls, hn, hne, hfail, rfl, rfl, ?_⟩⟩
    · simp only
      rw [htr]; simp
    · simp

end ServicebindingsController

/-! ## Claims on `ServicebindingsController.Create` -/

theorem isInternal_InternalError (err : String) : (InternalError err).isInternal = true := by
  simp [InternalError, NewAPIError, APIError.isInternal, StatusInternalServerError]

theorem isInternal_of_isBindIssue (e : APIError) (h : e.isBindIssue) : e.isInternal = false := by
  obtain ⟨name, h | h⟩ := h <;> subst h <;>
    simp [ServiceIsNotKnown, ServiceAlreadyBound, NewAPIError, APIError.isInternal,
      StatusNotFound, StatusConflict]

theorem isBindIssue_notFound (names : List String) :
    ∀ e ∈ names.map ServiceIsNotKnown, e.isBindIssue := by
  intro e he
  obtain ⟨n, _, rfl⟩ := List.mem_map.mp he
  exact ⟨n, Or.inl rfl⟩

theorem isBindIssue_alreadyBound (names : List String) :
    ∀ e ∈ names.map ServiceAlreadyBound, e.isBindIssue := by
  intro e he
  obtain ⟨n, _, rfl⟩ := List.mem_map.mp he
  exact ⟨n, Or.inr rfl⟩

theorem isBindIssue_issues (nf ab : List String) :
    ∀ e ∈ nf.map ServiceIsNotKnown ++ ab.map ServiceAlreadyBound, e.isBindIssue := by
  intro e he
  rcases List.mem_append.mp he with h | h
  · exact isBindIssue_notFound nf e h
  · exact isBindIssue_alreadyBound ab e h

namespace ServicebindingsController

/-- Every error list `Create` returns has one of three shapes: a single error; an internal
error followed by per-item issues; per-item issues only. -/
theorem Create_shape (w : World σ) (org appName : String) (body : Body BindRequest) (st0 : σ) :
    (∃ x, (Create w org appName body (Run.start st0)).1 = [x]) ∨
    (∃ e issues, (Create w org appName body (Run.start st0)).1 = InternalError e :: issues
      ∧ ∀ i ∈ issues, i.isBindIssue) ∨
    (∀ i ∈ (Create w org appName body (Run.start st0)).1, i.isBindIssue) := by
  cases body with
  | readError err => left; exact ⟨_, rfl⟩
  | unmarshalError err => left; exact ⟨_, rfl⟩
  | decoded req =>
    by_cases hnames : req.Names = []
    · left; simp [Create, hnames]
    by_cases hempty : "" ∈ req.Names
    · left
      have h0 : ¬ req.Names.length = 0 := fun h => hnames (List.length_eq_zero.mp h)
      have h1 : (req.Names.any fun serviceName => serviceName == "") = true :=
        List.any_eq_true.mpr ⟨"", hempty, by simp⟩
      simp [Create, h0, h1]
    have h0 : ¬ req.Names.length = 0 := fun h => hnames (List.length_eq_zero.mp h)
    have h1 : (req.Names.any fun serviceName => serviceName == "") = false := by
      rw [Bool.eq_false_iff]
      intro h
      obtain ⟨x, hx, hx2⟩ := List.any_eq_true.mp h
      have : x = "" := by simpa using hx2
      exact hempty (this ▸ hx)
    rcases hc : w.GetCluster st0 with ⟨_ | err, st1⟩
    swap
    · left; simp [Create, h0, h1, World.getCluster, Run.start, hc]
    rcases ho : w.OrgExists org st1 with ⟨err | _ | _, st2⟩
    · left
      simp [Create, h0, h1, World.getCluster, World.orgExists, Run.start, Run.step, hc, ho]
    · left
      simp [Create, h0, h1, World.getCluster, World.orgExists, Run.start, Run.step, hc, ho]
    rcases ha : w.AppLookup org appName st2 with ⟨err | _ | app, st3⟩
    · left
      simp [Create, h0, h1, World.getCluster, World.orgExists, World.appLookup,
        Run.start, Run.step, hc, ho, ha]
    · left
      simp [Create, h0, h1, World.getCluster, World.orgExists, World.appLookup,
        Run.start, Run.step, hc, ho, ha]
    obtain ⟨ls, bs, tail, -, hcase⟩ :=
      Create_spec w org appName req st0 st1 st2 st3 app hnames hempty hc ho ha
    rcases hcase with ⟨init, n, e, post, -, -, -, -, -, -, herr⟩ |
      ⟨-, -, init, sv, e, post, -, -, -, -, -, herr⟩ |
      ⟨-, -, -, -, ⟨-, -, herr⟩ | ⟨-, r, -, herr⟩⟩
    · right; left
      exact ⟨e, _, herr, isBindIssue_notFound _⟩
    · right; left
      exact ⟨e, _, herr, isBindIssue_issues _ _⟩
    · right; right
      rw [herr]; exact isBindIssue_issues _ _
    · cases r with
      | none => right; right; rw [herr]; simp
      | some err => left; exact ⟨_, herr⟩

/-- C1. For every bind request (also an undecodable or invalid one) and every behaviour of
the cluster, of the service lookups and of `app.Bind`, the error list that
`ServicebindingsController.Create` returns holds at most one internal error; an internal
error in the list is its element at index 0; every element after index 0 is a per-item
issue (service not known or service already bound); and a list of two or more elements
holds nothing but the internal error and per-item issues. -/
theorem Create_internal_error_first (w : World σ) (org appName : String)
    (body : Body BindRequest) (st0 : σ) :
    ((Create w org appName body (Run.start st0)).1.filter APIError.isInternal).length ≤ 1 ∧
    (∀ e ∈ (Create w org appName body (Run.start st0)).1, e.isInternal = true →
      (Create w org appName body (Run.start st0)).1[0]? = some e) ∧
    (∀ e ∈ (Create w org appName body (Run.start st0)).1.tail, e.isBindIssue) ∧
    (2 ≤ (Create w org appName body (Run.start st0)).1.length →
      ∀ e ∈ (Create w org appName body (Run.start st0)).1,
        e.isInternal = true ∨ e.isBindIssue) := by
  have hfilter : ∀ l : APIErrors, (∀ i ∈ l, i.isBindIssue) → l.filter APIError.isInternal = [] := by
    intro l hl
    rw [List.filter_eq_nil_iff]
    intro a ha
    simp [isInternal_of_isBindIssue a (hl a ha)]
  rcases Create_shape w org appName body st0 with ⟨x, h⟩ | ⟨e, issues, h, hi⟩ | h
  · rw [h]
    refine ⟨?_, ?_, ?_, ?_⟩
    · by_cases hx : x.isInternal = true <;> simp [List.filter, hx]
    · intro e he _
      simp at he
      simp [he]
    · simp
    · simp
  · rw [h]
    refine ⟨?_, ?_, ?_, ?_⟩
    · simp [List.filter, isInternal_InternalError, hfilter issues hi]
    · intro x hx hint
      rcases List.mem_cons.mp hx with rfl | hx
      · simp
      · rw [isInternal_of_isBindIssue x (hi x hx)] at hint
        exact absurd hint (by simp)
    · simpa using hi
    · intro _ x hx
      rcases List.mem_cons.mp hx with rfl | hx
      · exact Or.inl (isInternal_InternalError e)
      · exact Or.inr (hi x hx)
  · refine ⟨?_, ?_, ?_, ?_⟩
    · simp [hfilter _ h]
    · intro x hx hint
      rw [isInternal_of_isBindIssue x (h x hx)] at hint
      exact absurd hint (by simp)
    · intro x hx
      exact h x (List.mem_of_mem_tail hx)
    · intro _ x hx
      exact Or.inr (h x hx)

/-- C2. For every bind request whose names list is empty or holds an empty string,
`ServicebindingsController.Create` returns exactly one `BadRequest` error and makes no
call at all: its trace is empty (no cluster, organization or application is consulted, no
service is looked up, nothing is bound) and the cluster state is untouched. -/
theorem Create_rejects_invalid_names (w : World σ) (org appName : String)
    (req : BindRequest) (st0 : σ) (h : req.Names = [] ∨ "" ∈ req.Names) :
    (∃ msg, (Create w org appName (.decoded req) (Run.start st0)).1 = [BadRequest msg]) ∧
    (Create w org appName (.decoded req) (Run.start st0)).2.trace = [] ∧
    (Create w org appName (.decoded req) (Run.start st0)).2.world = st0 := by
  by_cases hnames : req.Names = []
  · have hrun : Create w org appName (.decoded req) (Run.start st0)
        = ([BadRequest "Cannot bind service without names"], Run.start st0) := by
      simp [Create, hnames]
    rw [hrun]
    exact ⟨⟨_, rfl⟩, rfl, rfl⟩
  · have hempty : "" ∈ req.Names := h.resolve_left hnames
    have h0 : ¬ req.Names.length = 0 := fun h => hnames (List.length_eq_zero.mp h)
    have h1 : (req.Names.any fun serviceName => serviceName == "") = true :=
      List.any_eq_true.mpr ⟨"", hempty, by simp⟩
    have hrun : Create w org appName (.decoded req) (Run.start st0)
        = ([BadRequest "Cannot bind service with empty name"], Run.start st0) := by
      simp [Create, h0, h1]
    rw [hrun]
    exact ⟨⟨_, rfl⟩, rfl, rfl⟩

/-- A request with an empty name among its names is turned away on the demo cluster
before anything is called. -/
theorem Create_rejects_invalid_names_witness :
    ((⟨["a", ""]⟩ : BindRequest).Names = [] ∨ "" ∈ (⟨["a", ""]⟩ : BindRequest).Names) ∧
    ((∃ msg, (Create Cluster.world "org" "app" (.decoded ⟨["a", ""]⟩)
        (Run.start demoCluster)).1 = [BadRequest msg]) ∧
      (Create Cluster.world "org" "app" (.decoded ⟨["a", ""]⟩)
        (Run.start demoCluster)).2.trace = [] ∧
      (Create Cluster.world "org" "app" (.decoded ⟨["a", ""]⟩)
        (Run.start demoCluster)).2.world = demoCluster) :=
  ⟨Or.inr (by decide),
    Create_rejects_invalid_names Cluster.world "org" "app" ⟨["a", ""]⟩ demoCluster
      (Or.inr (by decide))⟩

end ServicebindingsController

theorem notFoundNames_sublist (ls : List (String × Except String Service)) :
    (notFoundNames ls).Sublist (ls.map Prod.fst) := by
  induction ls with
  | nil => simp [notFoundNames]
  | cons p ls ih =>
    simp only [notFoundNames] at ih
    obtain ⟨n, r⟩ := p
    cases r with
    | ok s => simpa [notFoundNames] using ih.cons n
    | error e =>
      by_cases h : e = "service not found"
      · simpa [notFoundNames, h] using ih.cons₂ n
      · simpa [notFoundNames, h] using ih.cons n

theorem alreadyBoundNames_sublist (bs : List (Service × GoError)) :
    (alreadyBoundNames bs).Sublist ((bs.map Prod.fst).map (fun s => s.Name)) := by
  induction bs with
  | nil => simp [alreadyBoundNames]
  | cons p bs ih =>
    simp only [alreadyBoundNames] at ih
    obtain ⟨s, r⟩ := p
    cases r with
    | none => simpa [alreadyBoundNames] using ih.cons s.Name
    | some e =>
      by_cases h : e = "service already bound"
      · simpa [alreadyBoundNames, h] using ih.cons₂ s.Name
      · simpa [alreadyBoundNames, h] using ih.cons s.Name

theorem length_lookups (ls : List (String × Except String Service))
    (h : lookupFailures ls = []) :
    ls.length = (notFoundNames ls).length + (foundServices ls).length := by
  induction ls with
  | nil => simp [notFoundNames, foundServices]
  | cons p ls ih =>
    obtain ⟨n, r⟩ := p
    cases r with
    | ok s =>
      have h2 : lookupFailures ls = [] := by
        simpa [lookupFailures] using h
      have := ih h2
      simp only [notFoundNames, foundServices] at this
      simp [notFoundNames, foundServices, this]
      omega
    | error e =>
      by_cases hnf : e = "service not found"
      · have h2 : lookupFailures ls = [] := by
          simpa [lookupFailures, hnf] using h
        have := ih h2
        simp only [notFoundNames, foundServices] at this
        simp [notFoundNames, foundServices, this, hnf]
        omega
      · simp [lookupFailures, hnf] at h

theorem lookupFailures_nil_mem (ls : List (String × Except String Service))
    (h : lookupFailures ls = []) (n e : String) (hm : (n, Except.error e) ∈ ls) :
    e = "service not found" := by
  simp only [lookupFailures, List.filterMap_eq_nil_iff] at h
  have := h (n, .error e) hm
  by_contra hne
  simp [hne] at this

theorem alreadyBoundNames_of_bindErrors (bs : List (Service × GoError))
    (h : bindErrors bs = []) : alreadyBoundNames bs = [] ∧ bindFailures bs = [] := by
  simp only [bindErrors, List.filterMap_eq_nil_iff] at h
  constructor
  · simp only [alreadyBoundNames, List.filterMap_eq_nil_iff]
    intro p hp
    simp [h p hp]
  · simp only [bindFailures, List.filterMap_eq_nil_iff]
    intro p hp
    simp [h p hp]

namespace ServicebindingsController

/-- The lookups and the binds that can be read off a trace of `Create`. -/
theorem reads_of_trace (org appName : String) (app : Application)
    (ls : List (String × Except String Service)) (bs : List (Service × GoError))
    (tail : List Event) (ht : tail = [] ∨ ∃ r, tail = [Event.Write Payload.empty r]) :
    lookups (preamble org appName app ++ ls.map (fun p => Event.ServiceLookup org p.1 p.2)
        ++ bs.map (fun p => Event.Bind app p.1 p.2) ++ tail) = ls ∧
    binds (preamble org appName app ++ ls.map (fun p => Event.ServiceLookup org p.1 p.2)
        ++ bs.map (fun p => Event.Bind app p.1 p.2) ++ tail) = bs := by
  have h1 : lookups (preamble org appName app) = [] := rfl
  have h2 : binds (preamble org appName app) = [] := rfl
  have h3 : lookups tail = [] := by
    rcases ht with rfl | ⟨r, rfl⟩ <;> rfl
  have h4 : binds tail = [] := by
    rcases ht with rfl | ⟨r, rfl⟩ <;> rfl
  simp [lookups_append, binds_append, lookups_lookupEvents, binds_lookupEvents,
    binds_bindEvents, lookups_bindEvents, h1, h2, h3, h4]

/-- The three outcomes of `Create_spec`, with the lookups and binds read off the trace. -/
theorem Create_cases (w : World σ) (org appName : String) (req : BindRequest)
    (st0 st1 st2 st3 : σ) (app : Application)
    (hnames : req.Names ≠ []) (hempty : "" ∉ req.Names)
    (hc : w.GetCluster st0 = (none, st1))
    (ho : w.OrgExists org st1 = (.ok true, st2))
    (ha : w.AppLookup org appName st2 = (.ok (some app), st3)) :
    (∃ (init : List (String × Except String Service)) (n e : String) (post : List String),
        lookups (Create w org appName (.decoded req) (Run.start st0)).2.trace
          = init ++ [(n, .error e)]
        ∧ req.Names = init.map Prod.fst ++ n :: post
        ∧ e ≠ "service not found" ∧ lookupFailures init = []
        ∧ binds (Create w org appName (.decoded req) (Run.start st0)).2.trace = []
        ∧ (Create w org appName (.decoded req) (Run.start st0)).1
            = InternalError e :: (notFoundNames init).map ServiceIsNotKnown) ∨
    ((lookups (Create w org appName (.decoded req) (Run.start st0)).2.trace).map Prod.fst
        = req.Names
      ∧ lookupFailures (lookups (Create w org appName (.decoded req) (Run.start st0)).2.trace)
        = []
      ∧ ∃ (init : List (Service × GoError)) (sv : Service) (e : String) (post : List Service),
        binds (Create w org appName (.decoded req) (Run.start st0)).2.trace
          = init ++ [(sv, some e)]
        ∧ foundServices (lookups (Create w org appName (.decoded req) (Run.start st0)).2.trace)
          = init.map Prod.fst ++ sv :: post
        ∧ e ≠ "service already bound" ∧ bindFailures init = []
        ∧ (Create w org appName (.decoded req) (Run.start st0)).1
            = InternalError e :: ((notFoundNames
                (lookups (Create w org appName (.decoded req) (Run.start st0)).2.trace)).map
                  ServiceIsNotKnown
                ++ (alreadyBoundNames init).map ServiceAlreadyBound)) ∨
    ((lookups (Create w org appName (.decoded req) (Run.start st0)).2.trace).map Prod.fst
        = req.Names
      ∧ lookupFailures (lookups (Create w org appName (.decoded req) (Run.start st0)).2.trace)
        = []
      ∧ (binds (Create w org appName (.decoded req) (Run.start st0)).2.trace).map Prod.fst
        = foundServices (lookups (Create w org appName (.decoded req) (Run.start st0)).2.trace)
      ∧ bindFailures (binds (Create w org appName (.decoded req) (Run.start st0)).2.trace) = []
      ∧ ((Create w org appName (.decoded req) (Run.start st0)).1
            = (notFoundNames
                (lookups (Create w org appName (.decoded req) (Run.start st0)).2.trace)).map
                  ServiceIsNotKnown
              ++ (alreadyBoundNames
                (binds (Create w org appName (.decoded req) (Run.start st0)).2.trace)).map
                  ServiceAlreadyBound
          ∧ writeErrors (Create w org appName (.decoded req) (Run.start st0)).2.trace = [] ∨
         ∃ err : String,
          (Create w org appName (.decoded req) (Run.start st0)).1 = [InternalError err]
          ∧ writeErrors (Create w org appName (.decoded req) (Run.start st0)).2.trace = [err]
          ∧ (notFoundNames
              (lookups (Create w org appName (.decoded req) (Run.start st0)).2.trace)).map
                ServiceIsNotKnown
            ++ (alreadyBoundNames
              (binds (Create w org appName (.decoded req) (Run.start st0)).2.trace)).map
                ServiceAlreadyBound = [])) := by
  obtain ⟨ls, bs, tail, htr, hcase⟩ :=
    Create_spec w org appName req st0 st1 st2 st3 app hnames hempty hc ho ha
  have hwr : ∀ t : List Event, writeErrors
      (preamble org appName app ++ ls.map (fun p => Event.ServiceLookup org p.1 p.2)
        ++ bs.map (fun p => Event.Bind app p.1 p.2) ++ t) = writeErrors t := by
    intro t
    have e1 : ∀ l : List (String × Except String Service),
        writeErrors (l.map (fun p => Event.ServiceLookup org p.1 p.2)) = [] := by
      intro l
      induction l with
      | nil => rfl
      | cons p l ih =>
        simp only [writeErrors] at ih
        simp [writeErrors, ih]
    have e2 : ∀ l : List (Service × GoError),
        writeErrors (l.map (fun p => Event.Bind app p.1 p.2)) = [] := by
      intro l
      induction l with
      | nil => rfl
      | cons p l ih =>
        simp only [writeErrors] at ih
        simp [writeErrors, ih]
    have e3 : writeErrors (preamble org appName app) = [] := rfl
    have happ : ∀ a b : List Event, writeErrors (a ++ b) = writeErrors a ++ writeErrors b := by
      intro a b
      simp [writeErrors, List.filterMap_append]
    simp [happ, e1, e2, e3]
  rcases hcase with ⟨init, n, e, post, hls, hn, hne, hfail, hbs, htail, herr⟩ |
    ⟨hn, hfail, init, sv, e, post, hbs, hsv, hne, hfail2, htail, herr⟩ |
    ⟨hn, hfail, hsv, hfail2, ⟨hne, htail, herr⟩ | ⟨hnil, r, htail, herr⟩⟩
  · obtain ⟨hl, hb⟩ := reads_of_trace org appName app ls bs tail (Or.inl htail)
    rw [← htr] at hl hb
    left
    exact ⟨init, n, e, post, by rw [hl, hls], hn, hne, hfail, by rw [hb, hbs], herr⟩
  · obtain ⟨hl, hb⟩ := reads_of_trace org appName app ls bs tail (Or.inl htail)
    rw [← htr] at hl hb
    right; left
    rw [hl, hb]
    exact ⟨hn, hfail, init, sv, e, post, hbs, hsv, hne, hfail2, herr⟩
  · obtain ⟨hl, hb⟩ := reads_of_trace org appName app ls bs tail (Or.inl htail)
    rw [← htr] at hl hb
    right; right
    rw [hl, hb]
    refine ⟨hn, hfail, hsv, hfail2, Or.inl ⟨herr, ?_⟩⟩
    rw [htr, hwr, htail]; rfl
  · obtain ⟨hl, hb⟩ := reads_of_trace org appName app ls bs tail (Or.inr ⟨r, htail⟩)
    rw [← htr] at hl hb
    right; right
    rw [hl, hb]
    refine ⟨hn, hfail, hsv, hfail2, ?_⟩
    cases r with
    | none =>
      left
      refine ⟨by rw [herr, hnil], ?_⟩
      rw [htr, hwr, htail]; rfl
    | some err =>
      right
      refine ⟨err, herr, ?_, hnil⟩
      rw [htr, hwr, htail]; rfl

end ServicebindingsController

namespace ServicebindingsController

end ServicebindingsController

namespace ServicebindingsController

/-- C5, refuted as stated. The application "web" of the demo cluster binds "a"; a request
naming "a" and then the unknown "x" returns, with no internal error, the not-found issue
for "x" ahead of the already-bound issue for "a": not the order of the request. -/
theorem Create_issues_out_of_request_order :
    (Create Cluster.world "org" "web" (.decoded ⟨["a", "x"]⟩) (Run.start demoCluster)).1
      = [ServiceIsNotKnown "x", ServiceAlreadyBound "a"] ∧
    (∀ e ∈ (Create Cluster.world "org" "web" (.decoded ⟨["a", "x"]⟩)
      (Run.start demoCluster)).1, e.isInternal = false) ∧
    ¬ IssuesInRequestOrder ["a", "x"]
      (Create Cluster.world "org" "web" (.decoded ⟨["a", "x"]⟩) (Run.start demoCluster)).1 := by
  refine ⟨by decide, by decide, ?_⟩
  intro h
  have hrun : (Create Cluster.world "org" "web" (.decoded ⟨["a", "x"]⟩)
      (Run.start demoCluster)).1 = [ServiceIsNotKnown "x", ServiceAlreadyBound "a"] := by
    decide
  rw [hrun] at h
  obtain ⟨k, l, hkl, hk, hl⟩ := h 0 1 "x" "a" (by decide) (Or.inl rfl) (Or.inr rfl)
  rcases l with _ | _ | l
  · omega
  · simp at hl
  · simp at hl

/-- C5, amended. For every valid bind request that gets to the loops of `Create` and
whose result holds no internal error, the returned issues are the not-found issues, in
request order, followed by the already-bound issues, in the order in which the services
were resolved, which is the request order of the resolved names: the order of the request
holds within each of the two kinds, and all not-found issues come first. -/
theorem Create_issues_ordered_by_kind (w : World σ) (org appName : String)
    (req : BindRequest) (st0 st1 st2 st3 : σ) (app : Application)
    (hnames : req.Names ≠ []) (hempty : "" ∉ req.Names)
    (hc : w.GetCluster st0 = (none, st1))
    (ho : w.OrgExists org st1 = (.ok true, st2))
    (ha : w.AppLookup org appName st2 = (.ok (some app), st3))
    (hno : ∀ e ∈ (Create w org appName (.decoded req) (Run.start st0)).1,
      e.isInternal = false) :
    (Create w org appName (.decoded req) (Run.start st0)).1
      = (notFoundNames
          (lookups (Create w org appName (.decoded req) (Run.start st0)).2.trace)).map
            ServiceIsNotKnown
        ++ (alreadyBoundNames
          (binds (Create w org appName (.decoded req) (Run.start st0)).2.trace)).map
            ServiceAlreadyBound ∧
    (lookups (Create w org appName (.decoded req) (Run.start st0)).2.trace).map Prod.fst
      = req.Names ∧
    (notFoundNames
      (lookups (Create w org appName (.decoded req) (Run.start st0)).2.trace)).Sublist
        req.Names ∧
    (binds (Create w org appName (.decoded req) (Run.start st0)).2.trace).map Prod.fst
      = foundServices (lookups (Create w org appName (.decoded req) (Run.start st0)).2.trace) ∧
    (alreadyBoundNames
      (binds (Create w org appName (.decoded req) (Run.start st0)).2.trace)).Sublist
        ((foundServices
          (lookups (Create w org appName (.decoded req) (Run.start st0)).2.trace)).map
            (fun s => s.Name)) := by
  rcases Create_cases w org appName req st0 st1 st2 st3 app hnames hempty hc ho ha with
    ⟨init, n, e, post, -, -, -, -, -, herr⟩ |
    ⟨-, -, init, sv, e, post, -, -, -, -, herr⟩ |
    ⟨hn, -, hsv, -, hres⟩
  · have := hno (InternalError e) (by rw [herr]; simp)
    rw [isInternal_InternalError] at this
    exact absurd this (by simp)
  · have := hno (InternalError e) (by rw [herr]; simp)
    rw [isInternal_InternalError] at this
    exact absurd this (by simp)
  · have hsub1 := notFoundNames_sublist
      (lookups (Create w org appName (.decoded req) (Run.start st0)).2.trace)
    rw [hn] at hsub1
    have hsub2 := alreadyBoundNames_sublist
      (binds (Create w org appName (.decoded req) (Run.start st0)).2.trace)
    rw [hsv] at hsub2
    rcases hres with ⟨herr, -⟩ | ⟨err, herr, -, -⟩
    · exact ⟨herr, hn, hsub1, hsv, hsub2⟩
    · have := hno (InternalError err) (by rw [herr]; simp)
      rw [isInternal_InternalError] at this
      exact absurd this (by simp)

/-- The request of the counterexample, under the amended claim: the not-found issue for
"x", then the already-bound issue for "a". -/
theorem Create_issues_ordered_by_kind_witness :
    (∀ e ∈ (Create Cluster.world "org" "web" (.decoded ⟨["a", "x"]⟩)
      (Run.start demoCluster)).1, e.isInternal = false) ∧
    ((Create Cluster.world "org" "web" (.decoded ⟨["a", "x"]⟩) (Run.start demoCluster)).1
      = (notFoundNames (lookups (Create Cluster.world "org" "web" (.decoded ⟨["a", "x"]⟩)
          (Run.start demoCluster)).2.trace)).map ServiceIsNotKnown
        ++ (alreadyBoundNames (binds (Create Cluster.world "org" "web"
          (.decoded ⟨["a", "x"]⟩) (Run.start demoCluster)).2.trace)).map
            ServiceAlreadyBound ∧
    (lookups (Create Cluster.world "org" "web" (.decoded ⟨["a", "x"]⟩)
      (Run.start demoCluster)).2.trace).map Prod.fst = (⟨["a", "x"]⟩ : BindRequest).Names ∧
    (notFoundNames (lookups (Create Cluster.world "org" "web" (.decoded ⟨["a", "x"]⟩)
      (Run.start demoCluster)).2.trace)).Sublist (⟨["a", "x"]⟩ : BindRequest).Names ∧
    (binds (Create Cluster.world "org" "web" (.decoded ⟨["a", "x"]⟩)
      (Run.start demoCluster)).2.trace).map Prod.fst
      = foundServices (lookups (Create Cluster.world "org" "web" (.decoded ⟨["a", "x"]⟩)
          (Run.start demoCluster)).2.trace) ∧
    (alreadyBoundNames (binds (Create Cluster.world "org" "web" (.decoded ⟨["a", "x"]⟩)
      (Run.start demoCluster)).2.trace)).Sublist
        ((foundServices (lookups (Create Cluster.world "org" "web" (.decoded ⟨["a", "x"]⟩)
          (Run.start demoCluster)).2.trace)).map (fun s => s.Name))) :=
  ⟨by decide,
    Create_issues_ordered_by_kind Cluster.world "org" "web" ⟨["a", "x"]⟩
      demoCluster demoCluster demoCluster demoCluster (Carrier.app "web")
      (by decide) (by decide) rfl (by decide) (by decide) (by decide)⟩

/-- C6. In `Create`, for a valid request that gets to the resolve loop: when the `k`-th
lookup made fails with an error `e` other than "service not found", it is the lookup of
the `k`-th requested name; the returned list is exactly the internal error for `e`
followed by the `ServiceIsNotKnown` issues collected so far, in collection order, which
are issues for names before `k`, none dropped; the names up to `k` are the only ones
looked up; and nothing is bound. -/
theorem Create_lookup_failure_aborts (w : World σ) (org appName : String)
    (req : BindRequest) (st0 st1 st2 st3 : σ) (app : Application)
    (hnames : req.Names ≠ []) (hempty : "" ∉ req.Names)
    (hc : w.GetCluster st0 = (none, st1))
    (ho : w.OrgExists org st1 = (.ok true, st2))
    (ha : w.AppLookup org appName st2 = (.ok (some app), st3))
    (k : Nat) (n e : String)
    (hk : (lookups (Create w org appName (.decoded req) (Run.start st0)).2.trace)[k]?
      = some (n, .error e))
    (hne : e ≠ "service not found") :
    req.Names[k]? = some n ∧
    (Create w org appName (.decoded req) (Run.start st0)).1
      = InternalError e :: (notFoundNames
          (lookups (Create w org appName (.decoded req) (Run.start st0)).2.trace)).map
            ServiceIsNotKnown ∧
    (notFoundNames
      (lookups (Create w org appName (.decoded req) (Run.start st0)).2.trace)).Sublist
        (req.Names.take k) ∧
    (lookups (Create w org appName (.decoded req) (Run.start st0)).2.trace).map Prod.fst
      = req.Names.take (k + 1) ∧
    binds (Create w org appName (.decoded req) (Run.start st0)).2.trace = [] := by
  have hmem : (n, Except.error e) ∈
      lookups (Create w org appName (.decoded req) (Run.start st0)).2.trace :=
    List.getElem?_mem hk
  rcases Create_cases w org appName req st0 st1 st2 st3 app hnames hempty hc ho ha with
    ⟨init, n1, e1, post, hls, hn, hne1, hfail, hbs, herr⟩ |
    ⟨-, hfail, -⟩ |
    ⟨-, hfail, -⟩
  · rw [hls] at hk
    have hklen : k = init.length := by
      rcases Nat.lt_trichotomy k init.length with hlt | heq | hgt
      · rw [List.getElem?_append_left hlt] at hk
        exact absurd (lookupFailures_nil_mem init hfail n e (List.getElem?_mem hk)) hne
      · exact heq
      · rw [List.getElem?_append_right (by omega)] at hk
        have : k - init.length ≠ 0 := by omega
        obtain ⟨m, hm⟩ := Nat.exists_eq_succ_of_ne_zero this
        rw [hm] at hk
        simp at hk
    subst hklen
    simp at hk
    obtain ⟨rfl, rfl⟩ := hk
    have hnf : notFoundNames (init ++ [(n1, Except.error e1)]) = notFoundNames init := by
      rw [notFoundNames_append]
      simp [notFoundNames, hne]
    rw [hls, hnf]
    refine ⟨?_, herr, ?_, ?_, hbs⟩
    · rw [hn, List.getElem?_append_right (by simp)]
      simp
    · have := notFoundNames_sublist init
      rw [hn]
      simpa using this
    · rw [hn]
      simp [List.take_append_eq_append_take]
  · exact absurd (lookupFailures_nil_mem _ hfail n e hmem) hne
  · exact absurd (lookupFailures_nil_mem _ hfail n e hmem) hne

/-- On the cluster where service "b" is unreachable, a request naming "x", "a", "b" and
"c": the lookup of "b" (index 2) fails, the internal error comes back ahead of the
not-found issue for "x", "c" is not looked up and nothing is bound. -/
theorem Create_lookup_failure_aborts_witness :
    (Create Cluster.world "org" "app" (.decoded ⟨["x", "a", "b", "c"]⟩)
      (Run.start brokenCluster)).1
      = [InternalError "cluster unreachable", ServiceIsNotKnown "x"] ∧
    ((lookups (Create Cluster.world "org" "app" (.decoded ⟨["x", "a", "b", "c"]⟩)
      (Run.start brokenCluster)).2.trace)[2]? = some ("b", .error "cluster unreachable") ∧
    "cluster unreachable" ≠ "service not found") ∧
    ((⟨["x", "a", "b", "c"]⟩ : BindRequest).Names[2]? = some "b" ∧
    (Create Cluster.world "org" "app" (.decoded ⟨["x", "a", "b", "c"]⟩)
      (Run.start brokenCluster)).1
      = InternalError "cluster unreachable" :: (notFoundNames
          (lookups (Create Cluster.world "org" "app" (.decoded ⟨["x", "a", "b", "c"]⟩)
            (Run.start brokenCluster)).2.trace)).map ServiceIsNotKnown ∧
    (notFoundNames (lookups (Create Cluster.world "org" "app"
      (.decoded ⟨["x", "a", "b", "c"]⟩) (Run.start brokenCluster)).2.trace)).Sublist
        ((⟨["x", "a", "b", "c"]⟩ : BindRequest).Names.take 2) ∧
    (lookups (Create Cluster.world "org" "app" (.decoded ⟨["x", "a", "b", "c"]⟩)
      (Run.start brokenCluster)).2.trace).map Prod.fst
      = (⟨["x", "a", "b", "c"]⟩ : BindRequest).Names.take (2 + 1) ∧
    binds (Create Cluster.world "org" "app" (.decoded ⟨["x", "a", "b", "c"]⟩)
      (Run.start brokenCluster)).2.trace = []) :=
  ⟨by decide, ⟨by decide, by decide⟩,
    Create_lookup_failure_aborts Cluster.world "org" "app" ⟨["x", "a", "b", "c"]⟩
      brokenCluster brokenCluster brokenCluster brokenCluster (Carrier.app "app")
      (by decide) (by decide) rfl (by decide) (by decide) 2 "b" "cluster unreachable"
      (by decide) (by decide)⟩

end ServicebindingsController

/-! ## Claims on `ServicebindingsController.Delete` -/

namespace ServicebindingsController

/-- An unbind request on a reachable cluster with a known organization, a known
application and a service that resolves gets to `app.Unbind`. -/
theorem Delete_reaches_unbind (w : World σ) (org appName serviceName : String)
    (st0 st1 st2 st3 st4 : σ) (app : Application) (service : Service)
    (hc : w.GetCluster st0 = (none, st1))
    (ho : w.OrgExists org st1 = (.ok true, st2))
    (ha : w.AppLookup org appName st2 = (.ok (some app), st3))
    (hs : w.ServiceLookup org serviceName st3 = (.ok service, st4)) :
    Delete w org appName serviceName (Run.start st0)
      = match w.unbind app service
            { world := st4,
              trace := preamble org appName app
                ++ [Event.ServiceLookup org serviceName (.ok service)] } with
        | (some err, s5) =>
          if err = "service is not bound to the application" then
            ([ServiceIsNotBound serviceName], s5)
          else
            ([InternalError err], s5)
        | (none, s5) =>
          match w.write Payload.empty s5 with
          | (some err, s6) => ([InternalError err], s6)
          | (none, s6) => ([], s6) := by
  simp [Delete, World.getCluster, World.orgExists, World.appLookup, World.serviceLookup,
    Run.start, Run.step, hc, ho, ha, hs, preamble]

/-- C7. In `ServicebindingsController.Delete`, when the cluster is reachable, the
organization exists, the application exists and the service resolves: an `app.Unbind`
outcome of "service is not bound to the application" yields exactly one
`ServiceIsNotBound` error naming the service; any other `Unbind` error yields exactly one
internal error; the handler returns success only when `Unbind` returned no error;
`Unbind` is called exactly once; after a failed `Unbind` the handler calls nothing more
(nothing is written and the cluster is left as `Unbind` left it); so, for any reading
`bound` of the cluster state that the four lookups and a `Unbind` that reports not-bound
leave alone (spec §4.3: the bound-service set), `bound` is after the handler what it was
before. -/
theorem Delete_unbind_outcomes (w : World σ) (org appName serviceName : String)
    (st0 st1 st2 st3 st4 : σ) (app : Application) (service : Service)
    (hc : w.GetCluster st0 = (none, st1))
    (ho : w.OrgExists org st1 = (.ok true, st2))
    (ha : w.AppLookup org appName st2 = (.ok (some app), st3))
    (hs : w.ServiceLookup org serviceName st3 = (.ok service, st4)) :
    ((w.Unbind app service st4).1 = some "service is not bound to the application" →
      (Delete w org appName serviceName (Run.start st0)).1
        = [ServiceIsNotBound serviceName]) ∧
    (∀ e, (w.Unbind app service st4).1 = some e →
      e ≠ "service is not bound to the application" →
      (Delete w org appName serviceName (Run.start st0)).1 = [InternalError e]) ∧
    ((Delete w org appName serviceName (Run.start st0)).1 = [] →
      (w.Unbind app service st4).1 = none) ∧
    unbinds (Delete w org appName serviceName (Run.start st0)).2.trace
      = [(app, (w.Unbind app service st4).1)] ∧
    (∀ e, (w.Unbind app service st4).1 = some e →
      (Delete w org appName serviceName (Run.start st0)).2.world
          = (w.Unbind app service st4).2 ∧
      written (Delete w org appName serviceName (Run.start st0)).2.trace = []) ∧
    (∀ (β : Type) (bound : σ → β),
      bound st1 = bound st0 → bound st2 = bound st1 → bound st3 = bound st2 →
      bound st4 = bound st3 → bound (w.Unbind app service st4).2 = bound st4 →
      (w.Unbind app service st4).1 = some "service is not bound to the application" →
      bound (Delete w org appName serviceName (Run.start st0)).2.world = bound st0) := by
  rw [Delete_reaches_unbind w org appName serviceName st0 st1 st2 st3 st4 app service
    hc ho ha hs]
  cases hu : (w.Unbind app service st4).1 with
  | some err =>
    by_cases hnb : err = "service is not bound to the application"
    · subst hnb
      refine ⟨?_, ?_, ?_, ?_, ?_, ?_⟩
      · intro _; simp [World.unbind, hu]
      · intro e he hne
        simp only [Option.some.injEq] at he
        exact absurd he.symm hne
      · simp [World.unbind, hu, ServiceIsNotBound, NewAPIError]
      · simp [World.unbind, hu, Run.step, unbinds, preamble]
      · intro e _
        simp [World.unbind, hu, Run.step, written, preamble]
      · intro β bound h1 h2 h3 h4 h5 _
        simp only [World.unbind, hu, Run.step, if_true]
        rw [h5, h4, h3, h2, h1]
    · refine ⟨?_, ?_, ?_, ?_, ?_, ?_⟩
      · intro h
        simp only [Option.some.injEq] at h
        exact absurd h hnb
      · intro e he _
        simp only [Option.some.injEq] at he
        subst he
        simp [World.unbind, hu, hnb]
      · simp [World.unbind, hu, hnb, InternalError, NewAPIError]
      · simp [World.unbind, hu, hnb, Run.step, unbinds, preamble]
      · intro e _
        simp [World.unbind, hu, hnb, Run.step, written, preamble]
      · intro β bound _ _ _ _ _ h
        simp only [Option.some.injEq] at h
        exact absurd h hnb
  | none =>
    refine ⟨?_, ?_, ?_, ?_, ?_, ?_⟩
    · intro h; simp at h
    · intro e he; simp at he
    · intro _; trivial
    · cases hw : (w.Write Payload.empty (w.Unbind app service st4).2).1 <;>
        simp [World.unbind, World.write, hu, hw, Run.step, unbinds, preamble]
    · intro e he; simp at he
    · intro β bound _ _ _ _ _ h; simp at h

/-- Unbinding service "a" from the application "app" of the demo cluster, which does not
bind it: one `ServiceIsNotBound` error, and the cluster, with every bound-service set in
it, is what it was. -/
theorem Delete_unbind_outcomes_witness :
    (Delete Cluster.world "org" "app" "a" (Run.start demoCluster)).1
      = [ServiceIsNotBound "a"] ∧
    (Delete Cluster.world "org" "app" "a" (Run.start demoCluster)).2.world = demoCluster ∧
    (Cluster.world.GetCluster demoCluster = (none, demoCluster) ∧
      Cluster.world.OrgExists "org" demoCluster = (.ok true, demoCluster) ∧
      Cluster.world.AppLookup "org" "app" demoCluster
        = (.ok (some (Carrier.app "app")), demoCluster) ∧
      Cluster.world.ServiceLookup "org" "a" demoCluster = (.ok (svc "a"), demoCluster)) ∧
    (Cluster.world.Unbind (Carrier.app "app") (svc "a") demoCluster).1
      = some "service is not bound to the application" ∧
    (Cluster.world.Unbind (Carrier.app "app") (svc "a") demoCluster).2.boundTo
        (Carrier.app "app") = demoCluster.boundTo (Carrier.app "app") ∧
    (Delete Cluster.world "org" "app" "a" (Run.start demoCluster)).2.world.boundTo
        (Carrier.app "app") = demoCluster.boundTo (Carrier.app "app") :=
  ⟨by decide, by decide, ⟨rfl, by decide, by decide, by decide⟩, by decide, by decide,
    (Delete_unbind_outcomes Cluster.world "org" "app" "a"
      demoCluster demoCluster demoCluster demoCluster demoCluster
      (Carrier.app "app") (svc "a") rfl (by decide) (by decide) (by decide)).2.2.2.2.2
      (List Service) (fun c => c.boundTo (Carrier.app "app")) rfl rfl rfl rfl
      (by decide) (by decide)⟩

end ServicebindingsController

/-! ## The inverse index of `services.go` -/

theorem invertBound_cons (app : Application) (bonded : Service) (rest : List Service)
    (appsOf : AppsOf) :
    invertBound app (bonded :: rest) appsOf
      = invertBound app rest
          (appsOf.set bonded.Name ((appsOf bonded.Name).getD [] ++ [app])) := by
  cases h : appsOf bonded.Name <;> simp [invertBound, h]

/-- The entry of a name after `invertBound`: untouched when the application binds no
service of that name, else the old entry with the application added once per such
service. -/
theorem invertBound_apply (app : Application) (k : String) :
    ∀ (bound : List Service) (appsOf : AppsOf),
    invertBound app bound appsOf k
      = if (bound.filter (fun b => b.Name = k)).map (fun _ => app) = [] then appsOf k
        else some ((appsOf k).getD []
          ++ (bound.filter (fun b => b.Name = k)).map (fun _ => app)) := by
  intro bound
  induction bound with
  | nil => intro appsOf; simp [invertBound]
  | cons b rest ih =>
    intro appsOf
    rw [invertBound_cons, ih]
    by_cases hk : b.Name = k
    · subst hk
      by_cases hrest : (rest.filter (fun x => x.Name = b.Name)).map (fun _ => app) = []
      · have hf : rest.filter (fun x => decide (x.Name = b.Name)) = [] := by
          simpa using hrest
        simp [AppsOf.set, hf]
      · have hf : ¬ rest.filter (fun x => decide (x.Name = b.Name)) = [] := by
          simpa using hrest
        simp [AppsOf.set, hf]
    · have hk2 : ¬ k = b.Name := fun h => hk h.symm
      simp [AppsOf.set, hk, hk2]

/-- The inverse index built from a list of applications whose services can be read
without touching the cluster: the entry of a name holds the applications that bind a
service of that name, in list order. -/
theorem invertApps_apply (w : World σ) (bound : Application → List Service) (st : σ) :
    ∀ (apps : List Application) (appsOf : AppsOf) (tr : List Event),
    (∀ a ∈ apps, w.AppServices a st = (.ok (bound a), st)) →
    ∃ m : AppsOf,
      invertApps w apps appsOf { world := st, trace := tr }
        = (.ok m, { world := st,
                    trace := tr ++ apps.map (fun a => Event.AppServices a (.ok (bound a))) }) ∧
      ∀ k, m k = if bindersOf apps bound k = [] then appsOf k
                 else some ((appsOf k).getD [] ++ bindersOf apps bound k) := by
  intro apps
  induction apps with
  | nil =>
    intro appsOf tr _
    exact ⟨appsOf, by simp [invertApps], by simp [bindersOf]⟩
  | cons a rest ih =>
    intro appsOf tr h
    have ha := h a (List.mem_cons_self a rest)
    obtain ⟨m, hm, hk⟩ := ih (invertBound a (bound a) appsOf)
      (tr ++ [Event.AppServices a (.ok (bound a))])
      (fun x hx => h x (List.mem_cons_of_mem a hx))
    refine ⟨m, ?_, ?_⟩
    · simp only [invertApps, World.appServices, ha, Run.step]
      rw [hm]
      simp
    · intro k
      rw [hk k, invertBound_apply]
      have hb : bindersOf (a :: rest) bound k
          = ((bound a).filter (fun b => b.Name = k)).map (fun _ => a)
            ++ bindersOf rest bound k := by
        simp [bindersOf]
      rw [hb]
      by_cases h1 : ((bound a).filter (fun b => b.Name = k)).map (fun _ => a) = []
      · rw [h1, if_pos rfl]
        simp
      · rw [if_neg h1]
        by_cases h2 : bindersOf rest bound k = []
        · rw [h2, if_pos rfl, List.append_nil, if_neg h1]
        · rw [if_neg h2, if_neg (by simp [h2])]
          simp

/-- The inverse index `servicesToApps` computes when the application list and the
services of each application can be read without touching the cluster. -/
theorem servicesToApps_apply (w : World σ) (org : String) (apps : List Application)
    (bound : Application → List Service) (st3 st4 : σ) (tr : List Event)
    (hl : w.AppList org st3 = (.ok apps, st4))
    (hb : ∀ a ∈ apps, w.AppServices a st4 = (.ok (bound a), st4)) :
    ∃ m : AppsOf,
      servicesToApps w org { world := st3, trace := tr }
        = (.ok m, { world := st4,
                    trace := tr ++ [Event.AppList org (.ok apps)]
                      ++ apps.map (fun a => Event.AppServices a (.ok (bound a))) }) ∧
      ∀ k, m k = if bindersOf apps bound k = [] then none
                 else some (bindersOf apps bound k) := by
  obtain ⟨m, hm, hk⟩ := invertApps_apply w bound st4 apps AppsOf.empty
    (tr ++ [Event.AppList org (.ok apps)]) hb
  refine ⟨m, ?_, ?_⟩
  · simp only [servicesToApps, World.appList, hl, Run.step]
    rw [hm]
  · intro k
    rw [hk k]
    simp [AppsOf.empty]

/-- When no application binds two services of one name, the applications that bind a
service of a name are listed once each. -/
theorem bindersOf_eq_filter (apps : List Application) (bound : Application → List Service)
    (name : String)
    (hnodup : ∀ a ∈ apps, ((bound a).map (fun b => b.Name)).Nodup) :
    bindersOf apps bound name
      = apps.filter (fun a => (bound a).any (fun b => b.Name = name)) := by
  induction apps with
  | nil => simp [bindersOf]
  | cons a rest ih =>
    have hrest := ih (fun x hx => hnodup x (List.mem_cons_of_mem a hx))
    have hb : bindersOf (a :: rest) bound name
        = ((bound a).filter (fun b => b.Name = name)).map (fun _ => a)
          ++ bindersOf rest bound name := by
      simp [bindersOf]
    rw [hb, hrest]
    have ha := hnodup a (List.mem_cons_self a rest)
    have hone : ∀ l : List Service, (l.map (fun b => b.Name)).Nodup →
        (l.filter (fun b => b.Name = name)).map (fun _ => a)
          = if l.any (fun b => b.Name = name) then [a] else [] := by
      intro l
      induction l with
      | nil => simp
      | cons b l ihl =>
        intro hnd
        rw [List.map_cons, List.nodup_cons] at hnd
        have := ihl hnd.2
        by_cases hbn : b.Name = name
        · have hnot : l.filter (fun x => decide (x.Name = name)) = [] := by
            rw [List.filter_eq_nil_iff]
            intro x hx hxn
            apply hnd.1
            rw [List.mem_map]
            exact ⟨x, hx, by rw [hbn]; simpa using hxn⟩
          simp [hbn, hnot]
        · simp only [List.filter_cons, hbn, decide_False, Bool.false_eq_true, if_false,
            List.any_cons, Bool.false_or]
          exact this
    rw [hone (bound a) ha]
    by_cases hany : (bound a).any (fun b => decide (b.Name = name)) = true
    · simp [List.filter_cons, hany]
    · simp [List.filter_cons, hany]

/-! ## Claims on `ServicesController.Delete` -/

namespace ServicesController

/-- What the end of `Delete` does: one `service.Delete` call, and one write of the
response when the deletion and the marshalling succeeded. -/
theorem deleteAndRespond_spec (w : World σ) (service : Service) (names : List String)
    (s : Run σ) :
    ∃ (r : GoError) (tail : List Event),
      (deleteAndRespond w service names s).2.trace
        = s.trace ++ Event.ServiceDelete service r :: tail ∧
      unbinds tail = [] ∧ serviceDeletes tail = [] ∧
      ((∃ e, (deleteAndRespond w service names s).1
          = [NewAPIError e "" StatusInternalServerError] ∧ written tail = [] ∨
        (deleteAndRespond w service names s).1
          = [NewAPIError e "" StatusInternalServerError] ∧ r = none) ∨
       ((deleteAndRespond w service names s).1 = [] ∧ r = none
        ∧ written tail = [Payload.deleteResponse { BoundApps := names }])) := by
  cases hd : (w.ServiceDelete service s.world).1 with
  | some err =>
    refine ⟨some err, [], ?_, rfl, rfl, Or.inl ⟨err, Or.inl ⟨?_, rfl⟩⟩⟩
    · simp [deleteAndRespond, World.serviceDelete, hd, Run.step]
    · simp [deleteAndRespond, World.serviceDelete, hd]
  | none =>
    cases hm : w.Marshal (Payload.deleteResponse { BoundApps := names }) with
    | some err =>
      refine ⟨none, [], ?_, rfl, rfl, Or.inl ⟨err, Or.inr ⟨?_, rfl⟩⟩⟩
      · simp [deleteAndRespond, World.serviceDelete, hd, hm, Run.step]
      · simp [deleteAndRespond, World.serviceDelete, hd, hm]
    | none =>
      cases hw : (w.Write (Payload.deleteResponse { BoundApps := names })
          (w.ServiceDelete service s.world).2).1 with
      | some err =>
        refine ⟨none, [Event.Write (Payload.deleteResponse { BoundApps := names }) (some err)],
          ?_, rfl, rfl, Or.inl ⟨err, Or.inr ⟨?_, rfl⟩⟩⟩
        · simp [deleteAndRespond, World.serviceDelete, World.write, hd, hm, hw, Run.step]
        · simp [deleteAndRespond, World.serviceDelete, World.write, hd, hm, hw, Run.step]
      | none =>
        refine ⟨none, [Event.Write (Payload.deleteResponse { BoundApps := names }) none],
          ?_, rfl, rfl, Or.inr ⟨?_, rfl, rfl⟩⟩
        · simp [deleteAndRespond, World.serviceDelete, World.write, hd, hm, hw, Run.step]
        · simp [deleteAndRespond, World.serviceDelete, World.write, hd, hm, hw, Run.step]

/-- A delete request for an existing service, on a cluster whose applications and their
services can be listed, gets to the block that handles the bound applications, with the
inverse index of the organization. -/
theorem Delete_reaches_bound (w : World σ) (org serviceName : String)
    (deleteRequest : DeleteRequest) (st0 st1 st2 st3 st4 : σ) (service : Service)
    (apps : List Application) (bound : Application → List Service)
    (hc : w.GetCluster st0 = (none, st1))
    (ho : w.OrgExists org st1 = (.ok true, st2))
    (hs : w.ServiceLookup org serviceName st2 = (.ok service, st3))
    (hl : w.AppList org st3 = (.ok apps, st4))
    (hb : ∀ a ∈ apps, w.AppServices a st4 = (.ok (bound a), st4)) :
    ∃ m : AppsOf,
      (∀ k, m k = if bindersOf apps bound k = [] then none
                  else some (bindersOf apps bound k)) ∧
      Delete w org serviceName (.decoded deleteRequest) (Run.start st0)
        = match handleBound w deleteRequest service m []
              { world := st4, trace := preamble org serviceName service apps bound } with
          | (.error errs, s5) => (errs, s5)
          | (.ok boundAppNames, s5) => deleteAndRespond w service boundAppNames s5 := by
  obtain ⟨m, hm, hk⟩ := servicesToApps_apply w org apps bound st3 st4
    [Event.GetCluster none, Event.OrgExists org (.ok true),
      Event.ServiceLookup org serviceName (.ok service)] hl hb
  refine ⟨m, hk, ?_⟩
  simp only [Delete, World.getCluster, World.orgExists, World.serviceLookup, Run.start,
    Run.step, hc, ho, hs, List.nil_append, List.cons_append]
  rw [hm]
  simp [preamble]

end ServicesController

namespace ServicesController

theorem preamble_reads (org serviceName : String) (service : Service)
    (apps : List Application) (bound : Application → List Service) :
    unbinds (preamble org serviceName service apps bound) = [] ∧
    serviceDeletes (preamble org serviceName service apps bound) = [] ∧
    written (preamble org serviceName service apps bound) = [] := by
  have h1 : ∀ l : List Application,
      unbinds (l.map (fun a => Event.AppServices a (.ok (bound a)))) = [] := by
    intro l
    induction l with
    | nil => rfl
    | cons a l ih => simp only [unbinds] at ih; simp [unbinds, ih]
  have h2 : ∀ l : List Application,
      serviceDeletes (l.map (fun a => Event.AppServices a (.ok (bound a)))) = [] := by
    intro l
    induction l with
    | nil => rfl
    | cons a l ih => simp only [serviceDeletes] at ih; simp [serviceDeletes, ih]
  have h3 : ∀ l : List Application,
      written (l.map (fun a => Event.AppServices a (.ok (bound a)))) = [] := by
    intro l
    induction l with
    | nil => rfl
    | cons a l ih => simp only [written] at ih; simp [written, ih]
  refine ⟨?_, ?_, ?_⟩
  · rw [preamble, unbinds_append, h1]; rfl
  · rw [preamble, serviceDeletes_append, h2]; rfl
  · rw [preamble, written_append, h3]; rfl

theorem bindersOf_ne_nil_iff (apps : List Application) (bound : Application → List Service)
    (name : String) :
    bindersOf apps bound name ≠ [] ↔ ∃ a ∈ apps, ∃ b ∈ bound a, b.Name = name := by
  constructor
  · intro h
    obtain ⟨x, hx⟩ := List.exists_mem_of_ne_nil _ h
    simp only [bindersOf, List.mem_flatMap, List.mem_map, List.mem_filter] at hx
    obtain ⟨a, ha, b, ⟨hb, hbn⟩, -⟩ := hx
    exact ⟨a, ha, b, hb, by simpa using hbn⟩
  · rintro ⟨a, ha, b, hb, hbn⟩
    apply List.ne_nil_of_mem (a := a)
    simp only [bindersOf, List.mem_flatMap, List.mem_map, List.mem_filter]
    exact ⟨a, ha, b, ⟨hb, by simpa using hbn⟩, rfl⟩

/-- C8. For every existing service and every list of the organization's applications,
each with a duplicate-free list of bound services: `ServicesController.Delete` with
`unbind=false` fails with the "bound applications exist" error if and only if at least
one application binds the service; in that case the details of the error are the names,
joined by ",", of exactly the applications that bind it, in list order, one name per
application; no application is unbound, `service.Delete` is not called and the cluster is
left as the listing left it. -/
theorem Delete_refuses_bound_service (w : World σ) (org serviceName : String)
    (st0 st1 st2 st3 st4 : σ) (service : Service)
    (apps : List Application) (bound : Application → List Service)
    (hc : w.GetCluster st0 = (none, st1))
    (ho : w.OrgExists org st1 = (.ok true, st2))
    (hs : w.ServiceLookup org serviceName st2 = (.ok service, st3))
    (hl : w.AppList org st3 = (.ok apps, st4))
    (hb : ∀ a ∈ apps, w.AppServices a st4 = (.ok (bound a), st4))
    (hnodup : ∀ a ∈ apps, ((bound a).map (fun b => b.Name)).Nodup) :
    ((∃ details, (Delete w org serviceName (.decoded { Unbind := false }) (Run.start st0)).1
        = [NewAPIError "bound applications exist" details StatusBadRequest])
      ↔ ∃ a ∈ apps, ∃ b ∈ bound a, b.Name = service.Name) ∧
    ((∃ a ∈ apps, ∃ b ∈ bound a, b.Name = service.Name) →
      (Delete w org serviceName (.decoded { Unbind := false }) (Run.start st0)).1
        = [NewAPIError "bound applications exist"
            (String.intercalate ","
              ((apps.filter (fun a => (bound a).any (fun b => b.Name = service.Name))).map
                (fun a => a.Name)))
            StatusBadRequest] ∧
      unbinds (Delete w org serviceName (.decoded { Unbind := false })
        (Run.start st0)).2.trace = [] ∧
      serviceDeletes (Delete w org serviceName (.decoded { Unbind := false })
        (Run.start st0)).2.trace = [] ∧
      (Delete w org serviceName (.decoded { Unbind := false }) (Run.start st0)).2.world
        = st4) := by
  obtain ⟨m, hm, hrun⟩ := Delete_reaches_bound w org serviceName { Unbind := false }
    st0 st1 st2 st3 st4 service apps bound hc ho hs hl hb
  have hfilter := bindersOf_eq_filter apps bound service.Name hnodup
  have hiff := bindersOf_ne_nil_iff apps bound service.Name
  obtain ⟨hp1, hp2, -⟩ := preamble_reads org serviceName service apps bound
  rw [hrun]
  by_cases hB : bindersOf apps bound service.Name = []
  · -- nobody binds the service: the handler goes on to delete it
    have hnone : ¬ ∃ a ∈ apps, ∃ b ∈ bound a, b.Name = service.Name := by
      rw [← hiff]; simp [hB]
    have hmk : m service.Name = none := by rw [hm, if_pos hB]
    constructor
    · constructor
      · rintro ⟨details, hd⟩
        exfalso
        simp only [handleBound, hmk] at hd
        obtain ⟨r, tail, -, -, -, hcase⟩ := deleteAndRespond_spec w service []
          { world := st4, trace := preamble org serviceName service apps bound }
        rcases hcase with ⟨e, ⟨he, -⟩ | ⟨he, -⟩⟩ | ⟨he, -⟩ <;>
          · rw [he] at hd
            simp [NewAPIError, StatusInternalServerError, StatusBadRequest] at hd
      · intro h; exact absurd h hnone
    · intro h; exact absurd h hnone
  · have hsome : ∃ a ∈ apps, ∃ b ∈ bound a, b.Name = service.Name := hiff.mp hB
    have hmk : m service.Name = some (bindersOf apps bound service.Name) := by
      rw [hm, if_neg hB]
    have hres : (match handleBound w { Unbind := false } service m []
          { world := st4, trace := preamble org serviceName service apps bound } with
        | (.error errs, s5) => (errs, s5)
        | (.ok boundAppNames, s5) => deleteAndRespond w service boundAppNames s5)
        = ([NewAPIError "bound applications exist"
            (String.intercalate ","
              ((apps.filter (fun a => (bound a).any (fun b => b.Name = service.Name))).map
                (fun a => a.Name)))
            StatusBadRequest],
          { world := st4, trace := preamble org serviceName service apps bound }) := by
      simp [handleBound, hmk, hfilter]
    rw [hres]
    exact ⟨⟨fun _ => hsome, fun _ => ⟨_, rfl⟩⟩, fun _ => ⟨rfl, hp1, hp2, rfl⟩⟩

/-- Deleting service "a" of the demo cluster, bound by "web" and "worker", without
`unbind`: refused with details "web,worker"; nothing is unbound or deleted. -/
theorem Delete_refuses_bound_service_witness :
    (Delete Cluster.world "org" "a" (.decoded { Unbind := false }) (Run.start demoCluster)).1
      = [NewAPIError "bound applications exist" "web,worker" StatusBadRequest] ∧
    (Delete Cluster.world "org" "a" (.decoded { Unbind := false })
      (Run.start demoCluster)).2.world = demoCluster ∧
    (Cluster.world.GetCluster demoCluster = (none, demoCluster) ∧
      Cluster.world.OrgExists "org" demoCluster = (.ok true, demoCluster) ∧
      Cluster.world.ServiceLookup "org" "a" demoCluster = (.ok (svc "a"), demoCluster) ∧
      Cluster.world.AppList "org" demoCluster
        = (.ok [app "app", app "web", app "worker"], demoCluster) ∧
      (∀ a ∈ [app "app", app "web", app "worker"],
        Cluster.world.AppServices a demoCluster = (.ok (demoCluster.boundTo a), demoCluster)) ∧
      (∀ a ∈ [app "app", app "web", app "worker"],
        ((demoCluster.boundTo a).map (fun b => b.Name)).Nodup)) ∧
    ((∃ details, (Delete Cluster.world "org" "a" (.decoded { Unbind := false })
        (Run.start demoCluster)).1
        = [NewAPIError "bound applications exist" details StatusBadRequest])
      ↔ ∃ a ∈ [app "app", app "web", app "worker"],
          ∃ b ∈ demoCluster.boundTo a, b.Name = (svc "a").Name) :=
  ⟨by decide, by decide,
    ⟨rfl, by decide, by decide, by decide, fun _ _ => rfl, by decide⟩,
    (Delete_refuses_bound_service Cluster.world "org" "a"
      demoCluster demoCluster demoCluster demoCluster demoCluster (svc "a")
      [app "app", app "web", app "worker"] demoCluster.boundTo
      rfl (by decide) (by decide) (by decide) (fun _ _ => rfl) (by decide)).1⟩

end ServicesController

namespace ServicesController

end ServicesController

/-! ## Claims on `ApplicationsController.Stage` -/

theorem createdRuns_append (a b : List StageEvent) :
    createdRuns (a ++ b) = createdRuns a ++ createdRuns b := by
  simp [createdRuns, List.filterMap_append]

theorem requestedCertificates_append (a b : List StageEvent) :
    requestedCertificates (a ++ b) = requestedCertificates a ++ requestedCertificates b := by
  simp [requestedCertificates, List.filterMap_append]

theorem replicaFailures_append (a b : List StageEvent) :
    replicaFailures (a ++ b) = replicaFailures a ++ replicaFailures b := by
  simp [replicaFailures, List.filterMap_append]

theorem jsonResponse_trace (w : StageWorld σ) (response : StageResponse) (s : StageRun σ) :
    createdRuns (jsonResponse w response s).2.trace = createdRuns s.trace ∧
    replicaFailures (jsonResponse w response s).2.trace = replicaFailures s.trace ∧
    requestedCertificates (jsonResponse w response s).2.trace
      = requestedCertificates s.trace := by
  unfold jsonResponse
  split <;>
    simp [StageRun.step, createdRuns, replicaFailures, requestedCertificates,
      List.filterMap_append]

namespace ApplicationsController

/-- No error that `createRun` returns is the rejection of the admission guard. -/
theorem createRun_not_guard (w : StageWorld σ) (uid : String) (app : App) (s5 : StageRun σ) :
    (createRun w uid app s5).1
      ≠ .returned (singleNewError "pipelinerun for image ID still running"
          StatusBadRequest) := by
  unfold createRun
  simp only
  repeat' split
  all_goals simp [singleError, singleInternalError, singleNewError, InternalError, NewAPIError,
      StatusInternalServerError, StatusBadRequest]

/-- No error that the second half of `Stage` returns is the rejection of the admission
guard. -/
theorem stageRun_not_guard (w : StageWorld σ) (req : StageRequest) (uid : String)
    (s4 : StageRun σ) :
    (stageRun w req uid s4).1
      ≠ .returned (singleNewError "pipelinerun for image ID still running"
          StatusBadRequest) := by
  unfold stageRun
  simp only
  split
  · simp [singleError, singleNewError, NewAPIError, StatusInternalServerError,
      StatusBadRequest]
  · exact createRun_not_guard w uid _ _

/-- For an application with a git reference, `createRun` builds the run and calls the
pipeline runner with it, once; it looks up no deployment. -/
theorem createRun_creates (w : StageWorld σ) (uid : String) (app : App) (s5 : StageRun σ)
    (git : GitRef) (hgit : app.Git = some git) :
    ∃ pr : PipelineRun, newPipelineRun w uid app = some pr ∧
      createdRuns (createRun w uid app s5).2.trace = createdRuns s5.trace ++ [pr] ∧
      replicaFailures (createRun w uid app s5).2.trace = replicaFailures s5.trace := by
  have hsome : ∃ pr, newPipelineRun w uid app = some pr := by
    simp [newPipelineRun, hgit]
  obtain ⟨pr, hpr⟩ := hsome
  refine ⟨pr, hpr, ?_, ?_⟩
  · unfold createRun
    simp only [hpr]
    repeat' split
    all_goals
      try rw [(jsonResponse_trace w _ _).1]
      simp [StageRun.step, createdRuns, List.filterMap_append]
  · unfold createRun
    simp only [hpr]
    repeat' split
    all_goals
      try rw [(jsonResponse_trace w _ _).2.1]
      simp [StageRun.step, replicaFailures, List.filterMap_append]

/-- For a request with a git reference, the second half of `Stage` either stops at a
deployment lookup that failed (only when the request gives no instances), or creates
one pipeline run, the one `newPipelineRun` builds for the application. -/
theorem stageRun_creates (w : StageWorld σ) (req : StageRequest) (uid : String)
    (s4 : StageRun σ) (git : GitRef) (hgit : req.Git = some git) :
    (req.Instances = none ∧
      ∃ e, replicaFailures (stageRun w req uid s4).2.trace = replicaFailures s4.trace ++ [e]) ∨
    (replicaFailures (stageRun w req uid s4).2.trace = replicaFailures s4.trace ∧
      ∃ (instances : Int) (pr : PipelineRun),
        newPipelineRun w uid
          { AppRef := req.App, Git := req.Git, Route := req.Route, Instances := instances }
          = some pr ∧
        createdRuns (stageRun w req uid s4).2.trace = createdRuns s4.trace ++ [pr]) := by
  cases hi : req.Instances with
  | some n =>
    right
    obtain ⟨pr, hpr, hcr, hrf⟩ := createRun_creates w uid
      { AppRef := req.App, Git := req.Git, Route := req.Route, Instances := int32 n } s4
      git hgit
    have hrun : stageRun w req uid s4 = createRun w uid
        { AppRef := req.App, Git := req.Git, Route := req.Route, Instances := int32 n } s4 := by
      simp [stageRun, hi]
    rw [hrun]
    exact ⟨hrf, int32 n, pr, hpr, hcr⟩
  | none =>
    cases hd : (w.DeploymentGet req.App.Org req.App.Name s4.world).1 with
    | failed e =>
      left
      refine ⟨rfl, e, ?_⟩
      simp [stageRun, hi, existingReplica, hd, StageRun.step, replicaFailures,
        List.filterMap_append]
    | notFound e =>
      right
      obtain ⟨pr, hpr, hcr, hrf⟩ := createRun_creates w uid
        { AppRef := req.App, Git := req.Git, Route := req.Route,
          Instances := DefaultInstances }
        (s4.step (StageEvent.DeploymentGet req.App.Org req.App.Name (.notFound e))
          (w.DeploymentGet req.App.Org req.App.Name s4.world).2) git hgit
      have hrun : stageRun w req uid s4 = createRun w uid
          { AppRef := req.App, Git := req.Git, Route := req.Route,
            Instances := DefaultInstances }
          (s4.step (StageEvent.DeploymentGet req.App.Org req.App.Name (.notFound e))
            (w.DeploymentGet req.App.Org req.App.Name s4.world).2) := by
        simp [stageRun, hi, existingReplica, hd]
      rw [hrun]
      refine ⟨?_, DefaultInstances, pr, hpr, ?_⟩
      · rw [hrf]; simp [StageRun.step, replicaFailures, List.filterMap_append]
      · rw [hcr]; simp [StageRun.step, createdRuns, List.filterMap_append]
    | found replicas =>
      right
      obtain ⟨pr, hpr, hcr, hrf⟩ := createRun_creates w uid
        { AppRef := req.App, Git := req.Git, Route := req.Route, Instances := replicas }
        (s4.step (StageEvent.DeploymentGet req.App.Org req.App.Name (.found replicas))
          (w.DeploymentGet req.App.Org req.App.Name s4.world).2) git hgit
      have hrun : stageRun w req uid s4 = createRun w uid
          { AppRef := req.App, Git := req.Git, Route := req.Route, Instances := replicas }
          (s4.step (StageEvent.DeploymentGet req.App.Org req.App.Name (.found replicas))
            (w.DeploymentGet req.App.Org req.App.Name s4.world).2) := by
        simp [stageRun, hi, existingReplica, hd]
      rw [hrun]
      refine ⟨?_, replicas, pr, hpr, ?_⟩
      · rw [hrf]; simp [StageRun.step, replicaFailures, List.filterMap_append]
      · rw [hcr]; simp [StageRun.step, createdRuns, List.filterMap_append]

/-- The four calls `Stage` makes before its admission guard, when all succeed. -/
theorem Stage_reaches_guard (w : StageWorld σ) (name : String) (req : StageRequest)
    (st0 st1 st2 st3 st4 : σ) (uid : String) (items : List PipelineRun)
    (hname : name = req.App.Name)
    (hinst : ∀ n, req.Instances = some n → 0 ≤ n)
    (hc : w.GetCluster st0 = (none, st1))
    (ht : w.NewForConfig st1 = (none, st2))
    (hu : w.Hex16 st2 = (.ok uid, st3))
    (hl : w.PipelineRunList (stageSelector req.App) st3 = (.ok items, st4)) :
    Stage w name (.decoded req) (StageRun.start st0)
      = if items.any (fun pr => pr.CompletionTime.isNone) then
          (.returned (singleNewError "pipelinerun for image ID still running"
            StatusBadRequest),
            { world := st4,
              trace := [StageEvent.GetCluster none, StageEvent.NewForConfig none,
                StageEvent.Hex16 (.ok uid),
                StageEvent.PipelineRunList (stageSelector req.App) (.ok items)] })
        else
          stageRun w req uid
            { world := st4,
              trace := [StageEvent.GetCluster none, StageEvent.NewForConfig none,
                StageEvent.Hex16 (.ok uid),
                StageEvent.PipelineRunList (stageSelector req.App) (.ok items)] } := by
  have hneg : req.Instances.any (fun n => decide (n < 0)) = false := by
    cases hi : req.Instances with
    | none => rfl
    | some n =>
      have := hinst n hi
      simp only [Option.any_some, decide_eq_false_iff_not]
      omega
  simp [Stage, hname, hneg, StageRun.start, StageRun.step, hc, ht, hu, hl]

end ApplicationsController

namespace ApplicationsController

end ApplicationsController

/-! ## Claims on the instances of `ApplicationsController.Stage` -/

theorem int32_of_int32 (n : Int) (h0 : -2147483648 ≤ n) (h1 : n ≤ 2147483647) :
    int32 n = n := by
  unfold int32
  omega

namespace ApplicationsController

/-- C11. For every decoded stage request whose explicit instances value is negative,
`Stage` returns exactly one `BadRequest` error and makes no call at all before it: the
trace is empty (no cluster or Tekton client is asked for, no pipeline run is listed or
created, no certificate is requested) and the cluster state is untouched.  When the URL
name matches the body it is the error on the instances; otherwise the earlier check on
the name answers, with a `BadRequest` as well. -/
theorem Stage_rejects_negative_instances (w : StageWorld σ) (name : String)
    (req : StageRequest) (st0 : σ) (n : Int)
    (hi : req.Instances = some n) (hn : n < 0) :
    (∃ title, (Stage w name (.decoded req) (StageRun.start st0)).1
      = .returned [BadRequest title]) ∧
    (name = req.App.Name →
      (Stage w name (.decoded req) (StageRun.start st0)).1
        = .returned [BadRequest
            "instances param should be integer equal or greater than zero"]) ∧
    (Stage w name (.decoded req) (StageRun.start st0)).2.trace = [] ∧
    createdRuns (Stage w name (.decoded req) (StageRun.start st0)).2.trace = [] ∧
    requestedCertificates (Stage w name (.decoded req) (StageRun.start st0)).2.trace = [] ∧
    (Stage w name (.decoded req) (StageRun.start st0)).2.world = st0 := by
  have hneg : req.Instances.any (fun n => decide (n < 0)) = true := by
    rw [hi]; simpa using hn
  by_cases hname : name = req.App.Name
  · have hrun : Stage w name (.decoded req) (StageRun.start st0)
        = (.returned [BadRequest
            "instances param should be integer equal or greater than zero"],
          StageRun.start st0) := by
      simp [Stage, hname, hneg, BadRequest]
    rw [hrun]
    exact ⟨⟨_, rfl⟩, fun _ => rfl, rfl, rfl, rfl, rfl⟩
  · have hrun : Stage w name (.decoded req) (StageRun.start st0)
        = (.returned [BadRequest
            "name parameter from URL does not match name param in body"],
          StageRun.start st0) := by
      simp [Stage, hname, BadRequest, singleNewError]
    rw [hrun]
    exact ⟨⟨_, rfl⟩, fun h => absurd h hname, rfl, rfl, rfl, rfl⟩

/-- The stage request for "web" with the instances value -1 is turned away before
anything is called. -/
theorem Stage_rejects_negative_instances_witness :
    ((stageRequestWith (-1)).Instances = some (-1) ∧ (-1 : Int) < 0) ∧
    (Stage StageCluster.world "web" (.decoded (stageRequestWith (-1)))
        (StageRun.start (stagingCluster (some 3)))).1
      = .returned [BadRequest
          "instances param should be integer equal or greater than zero"] ∧
    (Stage StageCluster.world "web" (.decoded (stageRequestWith (-1)))
        (StageRun.start (stagingCluster (some 3)))).2.trace = [] :=
  ⟨⟨rfl, by decide⟩,
    (Stage_rejects_negative_instances StageCluster.world "web" (stageRequestWith (-1))
      (stagingCluster (some 3)) (-1) rfl (by decide)).2.1 rfl,
    (Stage_rejects_negative_instances StageCluster.world "web" (stageRequestWith (-1))
      (stagingCluster (some 3)) (-1) rfl (by decide)).2.2.1⟩

/-- C12, at the failing input. The instances value 2147483648 is not negative and fits
the `int` of the request, so it passes the validation; `Stage` converts it with
`int32(...)` and creates a pipeline run whose INSTANCES parameter is "-2147483648", not
the decimal rendering "2147483648" of the request value. -/
theorem Stage_instances_overflow :
    ((0 : Int) ≤ 2147483648 ∧ (2147483648 : Int) ≤ 9223372036854775807) ∧
    (Stage StageCluster.world "web" (.decoded (stageRequestWith 2147483648))
        (StageRun.start (stagingCluster (some 3)))).1 = .returned [] ∧
    (createdRuns (Stage StageCluster.world "web" (.decoded (stageRequestWith 2147483648))
        (StageRun.start (stagingCluster (some 3)))).2.trace).map
          (fun pr => pr.param "INSTANCES") = [some "-2147483648"] ∧
    toString (2147483648 : Int) = "2147483648" ∧
    int32 2147483648 = -2147483648 := by
  refine ⟨⟨by decide, by decide⟩, by decide, by decide, by decide, by decide⟩

end ApplicationsController

theorem newPipelineRun_instances (w : StageWorld σ) (uid : String) (app : App)
    (pr : PipelineRun) (h : newPipelineRun w uid app = some pr) :
    pr.param "INSTANCES" = some (toString app.Instances) := by
  unfold newPipelineRun at h
  split at h
  · simp at h
  · simp only [Option.some.injEq] at h
    subst h
    simp [PipelineRun.param, List.find?]

namespace ApplicationsController

/-- When every listed run has a completion time, `Stage` gets past its admission guard,
to the resolution of the instances. -/
theorem Stage_passes_guard (w : StageWorld σ) (name : String) (req : StageRequest)
    (st0 st1 st2 st3 st4 : σ) (uid : String) (items : List PipelineRun)
    (hname : name = req.App.Name)
    (hinst : ∀ n, req.Instances = some n → 0 ≤ n)
    (hc : w.GetCluster st0 = (none, st1))
    (ht : w.NewForConfig st1 = (none, st2))
    (hu : w.Hex16 st2 = (.ok uid, st3))
    (hl : w.PipelineRunList (stageSelector req.App) st3 = (.ok items, st4))
    (hall : ∀ pr ∈ items, pr.CompletionTime ≠ none) :
    Stage w name (.decoded req) (StageRun.start st0)
      = stageRun w req uid
          { world := st4,
            trace := [StageEvent.GetCluster none, StageEvent.NewForConfig none,
              StageEvent.Hex16 (.ok uid),
              StageEvent.PipelineRunList (stageSelector req.App) (.ok items)] } := by
  rw [Stage_reaches_guard w name req st0 st1 st2 st3 st4 uid items hname hinst hc ht hu hl]
  have hany : ¬ items.any (fun pr => pr.CompletionTime.isNone) = true := by
    rw [List.any_eq_true]
    rintro ⟨pr, hpr, h⟩
    exact hall pr hpr (Option.isNone_iff_eq_none.mp h)
  rw [if_neg hany]

/-- C13. For every stage request without an explicit instances value that gets past the
admission guard (well-formed, validated, cluster and Tekton client reachable, uid
generated, every listed run completed): when the deployment of the application exists,
the pipeline run is created with its replica count as instance count; when the
deployment lookup reports not-found, the run is created with `DefaultInstances`, which
is 1; any other lookup error makes `Stage` fail with that error, and no pipeline run is
created and no certificate requested. -/
theorem Stage_inherits_replicas (w : StageWorld σ) (name : String) (req : StageRequest)
    (st0 st1 st2 st3 st4 : σ) (uid : String) (items : List PipelineRun) (git : GitRef)
    (hname : name = req.App.Name)
    (hi : req.Instances = none)
    (hgit : req.Git = some git)
    (hc : w.GetCluster st0 = (none, st1))
    (ht : w.NewForConfig st1 = (none, st2))
    (hu : w.Hex16 st2 = (.ok uid, st3))
    (hl : w.PipelineRunList (stageSelector req.App) st3 = (.ok items, st4))
    (hall : ∀ pr ∈ items, pr.CompletionTime ≠ none) :
    (∀ replicas, (w.DeploymentGet req.App.Org req.App.Name st4).1 = .found replicas →
      ∃ pr, newPipelineRun w uid
          { AppRef := req.App, Git := req.Git, Route := req.Route, Instances := replicas }
          = some pr ∧
        createdRuns (Stage w name (.decoded req) (StageRun.start st0)).2.trace = [pr] ∧
        pr.param "INSTANCES" = some (toString replicas)) ∧
    (∀ e, (w.DeploymentGet req.App.Org req.App.Name st4).1 = .notFound e →
      ∃ pr, newPipelineRun w uid
          { AppRef := req.App, Git := req.Git, Route := req.Route,
            Instances := DefaultInstances } = some pr ∧
        createdRuns (Stage w name (.decoded req) (StageRun.start st0)).2.trace = [pr] ∧
        pr.param "INSTANCES" = some "1") ∧
    (∀ e, (w.DeploymentGet req.App.Org req.App.Name st4).1 = .failed e →
      (Stage w name (.decoded req) (StageRun.start st0)).1
        = .returned (singleError e StatusInternalServerError) ∧
      createdRuns (Stage w name (.decoded req) (StageRun.start st0)).2.trace = [] ∧
      requestedCertificates (Stage w name (.decoded req) (StageRun.start st0)).2.trace
        = []) := by
  have hinst : ∀ n, req.Instances = some n → 0 ≤ n := by
    intro n h; rw [hi] at h; simp at h
  rw [Stage_passes_guard w name req st0 st1 st2 st3 st4 uid items hname hinst hc ht hu hl
    hall]
  refine ⟨?_, ?_, ?_⟩
  · intro replicas hd
    obtain ⟨pr, hpr, hcr, -⟩ := createRun_creates w uid
      { AppRef := req.App, Git := req.Git, Route := req.Route, Instances := replicas }
      (({ world := st4,
          trace := [StageEvent.GetCluster none, StageEvent.NewForConfig none,
            StageEvent.Hex16 (.ok uid),
            StageEvent.PipelineRunList (stageSelector req.App) (.ok items)] } :
          StageRun σ).step
        (StageEvent.DeploymentGet req.App.Org req.App.Name (.found replicas))
        (w.DeploymentGet req.App.Org req.App.Name st4).2) git hgit
    refine ⟨pr, hpr, ?_, newPipelineRun_instances w uid _ pr hpr⟩
    simp only [stageRun, hi, existingReplica, hd]
    rw [hcr]
    simp [StageRun.step, createdRuns, List.filterMap_append]
  · intro e hd
    obtain ⟨pr, hpr, hcr, -⟩ := createRun_creates w uid
      { AppRef := req.App, Git := req.Git, Route := req.Route,
        Instances := DefaultInstances }
      (({ world := st4,
          trace := [StageEvent.GetCluster none, StageEvent.NewForConfig none,
            StageEvent.Hex16 (.ok uid),
            StageEvent.PipelineRunList (stageSelector req.App) (.ok items)] } :
          StageRun σ).step
        (StageEvent.DeploymentGet req.App.Org req.App.Name (.notFound e))
        (w.DeploymentGet req.App.Org req.App.Name st4).2) git hgit
    refine ⟨pr, hpr, ?_, newPipelineRun_instances w uid _ pr hpr⟩
    simp only [stageRun, hi, existingReplica, hd]
    rw [hcr]
    simp [StageRun.step, createdRuns, List.filterMap_append]
  · intro e hd
    simp [stageRun, hi, existingReplica, hd, StageRun.step, createdRuns,
      requestedCertificates, List.filterMap_append]

/-- On the cluster where "web" is deployed with four replicas, the stage request for
"web" without instances creates the run "run2" with INSTANCES "4". -/
theorem Stage_inherits_replicas_witness :
    (createdRuns (Stage StageCluster.world "web" (.decoded stageRequestInheriting)
        (StageRun.start deployedCluster)).2.trace).map
          (fun pr => (pr.Name, pr.param "INSTANCES")) = [("run2", some "4")] ∧
    (StageCluster.world.DeploymentGet stageRequestInheriting.App.Org
        stageRequestInheriting.App.Name { deployedCluster with uids := ["run3"] }).1
      = .found 4 ∧
    (∀ pr ∈ [earlierRun (some 3)], pr.CompletionTime ≠ none) ∧
    (∃ pr, newPipelineRun StageCluster.world "run2"
        { AppRef := stageRequestInheriting.App, Git := stageRequestInheriting.Git,
          Route := stageRequestInheriting.Route, Instances := 4 } = some pr ∧
      createdRuns (Stage StageCluster.world "web" (.decoded stageRequestInheriting)
        (StageRun.start deployedCluster)).2.trace = [pr] ∧
      pr.param "INSTANCES" = some (toString (4 : Int))) :=
  ⟨by decide, by decide, by decide,
    (Stage_inherits_replicas StageCluster.world "web" stageRequestInheriting
      deployedCluster deployedCluster deployedCluster
      { deployedCluster with uids := ["run3"] } { deployedCluster with uids := ["run3"] }
      "run2" [earlierRun (some 3)]
      { Revision := "main", URL := "http://gitea.example.org/org/web" }
      rfl rfl rfl rfl rfl rfl (by decide) (by decide)).1 4 (by decide)⟩

end ApplicationsController

/-! ## Claims on `ApplicationsController.WaitUntilStaged` -/

namespace ApplicationsController

end ApplicationsController

namespace ApplicationsController

end ApplicationsController

namespace ApplicationsController

end ApplicationsController

/-! ## Claims on `organizations.go` and on the organizations controller -/

/-- C16. For every cluster state and every name: when the namespace listing succeeds,
`organizations.List` returns the listed namespaces as organizations, and
`organizations.Exists(name)` returns no error and returns true if and only if `name` is
the `Name` of an organization that `organizations.List` returns in that state; when the
listing fails, `Exists` returns false together with that error. -/
theorem Exists_iff_listed (w : KubeWorld σ) (name : String) (s : KubeRun σ) :
    (∀ items, (w.NamespaceList (organizations.selector w) s.world).1 = .ok items →
      (organizations.List w s).1
        = (items.map (fun ns => ({ Name := ns.Name } : Organization)), none) ∧
      (organizations.Exists w name s).1.2 = none ∧
      ((organizations.Exists w name s).1.1 = true
        ↔ ∃ o ∈ (organizations.List w s).1.1, o.Name = name)) ∧
    (∀ err, (w.NamespaceList (organizations.selector w) s.world).1 = .error err →
      (organizations.List w s).1 = ([], some err) ∧
      (organizations.Exists w name s).1 = (false, some err)) := by
  constructor
  · intro items h
    have hlist : (organizations.List w s).1
        = (items.map (fun ns => ({ Name := ns.Name } : Organization)), none) := by
      simp [organizations.List, h]
    refine ⟨hlist, ?_, ?_⟩
    · simp [organizations.Exists, hlist]
    · simp only [organizations.Exists, hlist]
      simp [List.any_eq_true]
  · intro err h
    have hlist : (organizations.List w s).1 = ([], some err) := by
      simp [organizations.List, h]
    exact ⟨hlist, by simp [organizations.Exists, hlist]⟩

/-- On the example cluster the organization "workspace" exists, and the staging
namespace, which does not carry the organization label, is no organization. -/
theorem Exists_iff_listed_witness :
    (organizations.Exists KubeCluster.world "workspace"
      (KubeRun.start (kubeCluster [] true))).1 = (true, none) ∧
    (organizations.Exists KubeCluster.world "tekton-staging"
      (KubeRun.start (kubeCluster [] true))).1 = (false, none) ∧
    (organizations.List KubeCluster.world (KubeRun.start (kubeCluster [] true))).1
      = ([{ Name := "workspace" }], none) ∧
    ((organizations.Exists KubeCluster.world "workspace"
        (KubeRun.start (kubeCluster [] true))).1.1 = true
      ↔ ∃ o ∈ (organizations.List KubeCluster.world
          (KubeRun.start (kubeCluster [] true))).1.1, o.Name = "workspace") :=
  ⟨by decide, by decide, by decide,
    ((Exists_iff_listed KubeCluster.world "workspace"
      (KubeRun.start (kubeCluster [] true))).1 _ rfl).2.2⟩

theorem creations_append (a b : List KubeEvent) :
    creations (a ++ b) = creations a ++ creations b := by
  simp [creations]

theorem deletions_append (a b : List KubeEvent) :
    deletions (a ++ b) = deletions a ++ deletions b := by
  simp [deletions]

/-- Listing and checking an organization makes one call, the namespace listing. -/
theorem Exists_trace (w : KubeWorld σ) (name : String) (s : KubeRun σ) :
    (organizations.Exists w name s).2
      = s.step (KubeEvent.NamespaceList (organizations.selector w)
          (w.NamespaceList (organizations.selector w) s.world).1)
          (w.NamespaceList (organizations.selector w) s.world).2 := by
  unfold organizations.Exists organizations.List
  simp only
  cases (w.NamespaceList (organizations.selector w) s.world).1 <;> rfl

/-- C17. For every organization name that exists already (the body names it and
`organizations.Exists` returns true for it), with the Gitea client and the cluster
reachable, `OrganizationsController.Create` returns exactly one `OrgAlreadyKnown` error
for that name, and its last call is the listing that `Exists` makes: `organizations.Create`
is not called, so no namespace, secret, service account or repository account is
created, and no response is written. -/
theorem Create_existing_org_conflict (w : KubeWorld σ) (parts : String → Option String)
    (org : String) (st0 st1 st2 : σ)
    (hg : w.GiteaNew st0 = (none, st1)) (hc : w.GetCluster st1 = (none, st2))
    (hname : parts "name" = some org)
    (hex : (organizations.Exists w org
        { world := st2, trace := [KubeEvent.GiteaNew none, KubeEvent.GetCluster none] }).1
      = (true, none)) :
    (OrganizationsController.Create w (.decoded parts) (KubeRun.start st0)).1
      = [OrgAlreadyKnown org] ∧
    (OrganizationsController.Create w (.decoded parts) (KubeRun.start st0)).2.trace
      = [KubeEvent.GiteaNew none, KubeEvent.GetCluster none,
          KubeEvent.NamespaceList (organizations.selector w)
            (w.NamespaceList (organizations.selector w) st2).1] ∧
    creations (OrganizationsController.Create w (.decoded parts)
      (KubeRun.start st0)).2.trace = [] ∧
    (OrganizationsController.Create w (.decoded parts) (KubeRun.start st0)).2.world
      = (w.NamespaceList (organizations.selector w) st2).2 := by
  have hrun : OrganizationsController.Create w (.decoded parts) (KubeRun.start st0)
      = ([OrgAlreadyKnown org],
          (organizations.Exists w org
            { world := st2,
              trace := [KubeEvent.GiteaNew none, KubeEvent.GetCluster none] }).2) := by
    simp only [OrganizationsController.Create, KubeRun.start, KubeRun.step, hg, hc, hname,
      List.nil_append, List.cons_append, hex]
    simp
  rw [hrun, Exists_trace]
  refine ⟨rfl, rfl, ?_, rfl⟩
  simp [KubeRun.step, creations]

/-- Creating the organization "workspace" on the example cluster, where it exists: one
conflict error, and nothing is created. -/
theorem Create_existing_org_conflict_witness :
    (OrganizationsController.Create KubeCluster.world (nameBody "workspace")
      (KubeRun.start (kubeCluster [] true))).1 = [OrgAlreadyKnown "workspace"] ∧
    (OrganizationsController.Create KubeCluster.world (nameBody "workspace")
      (KubeRun.start (kubeCluster [] true))).2.world = kubeCluster [] true ∧
    (organizations.Exists KubeCluster.world "workspace"
        { world := kubeCluster [] true,
          trace := [KubeEvent.GiteaNew none, KubeEvent.GetCluster none] }).1
      = (true, none) ∧
    creations (OrganizationsController.Create KubeCluster.world (nameBody "workspace")
      (KubeRun.start (kubeCluster [] true))).2.trace = [] :=
  ⟨by decide, by decide, by decide,
    (Create_existing_org_conflict KubeCluster.world
      (fun key => if key = "name" then some "workspace" else none) "workspace"
      (kubeCluster [] true) (kubeCluster [] true) (kubeCluster [] true)
      rfl rfl (by decide) (by decide)).2.2.1⟩

/-- C20. For every org, name and data: when the secret with the derived name
`serviceResourceName(org, name)` exists in the organization (getting it succeeds),
`services.CreateCustomService` fails with the error "Service of this name already
exists.", returns no service, and getting the secret is its only call: no secret is
created or overwritten, and the cluster is left as that read left it. -/
theorem CreateCustomService_existing (w : KubeWorld σ) (name org : String)
    (data : List (String × String)) (s : KubeRun σ) (secret : Secret)
    (h : (w.SecretGet org (w.serviceResourceName org name) s.world).1 = .found secret) :
    (services.CreateCustomService w name org data s).1
      = (none, some "Service of this name already exists.") ∧
    (services.CreateCustomService w name org data s).2.trace
      = s.trace ++ [KubeEvent.SecretGet org (w.serviceResourceName org name)
          (.found secret)] ∧
    creations (services.CreateCustomService w name org data s).2.trace
      = creations s.trace ∧
    (services.CreateCustomService w name org data s).2.world
      = (w.SecretGet org (w.serviceResourceName org name) s.world).2 := by
  have hrun : services.CreateCustomService w name org data s
      = ((none, some "Service of this name already exists."),
          s.step (KubeEvent.SecretGet org (w.serviceResourceName org name) (.found secret))
            (w.SecretGet org (w.serviceResourceName org name) s.world).2) := by
    simp [services.CreateCustomService, h, SecretResult.err]
  rw [hrun]
  refine ⟨rfl, rfl, ?_, rfl⟩
  simp [KubeRun.step, creations]

/-- Creating the custom service "db" in "workspace" on the example cluster, where its
secret exists: the error, no service, and the cluster is what it was. -/
theorem CreateCustomService_existing_witness :
    (services.CreateCustomService KubeCluster.world "db" "workspace" [("user", "root")]
      (KubeRun.start (kubeCluster [] true))).1
      = (none, some "Service of this name already exists.") ∧
    (services.CreateCustomService KubeCluster.world "db" "workspace" [("user", "root")]
      (KubeRun.start (kubeCluster [] true))).2.world = kubeCluster [] true ∧
    (∃ secret, (KubeCluster.world.SecretGet "workspace"
        (KubeCluster.world.serviceResourceName "workspace" "db")
        (KubeRun.start (kubeCluster [] true)).world).1 = .found secret) ∧
    creations (services.CreateCustomService KubeCluster.world "db" "workspace"
      [("user", "root")] (KubeRun.start (kubeCluster [] true))).2.trace
      = creations (KubeRun.start (kubeCluster [] true)).trace :=
  ⟨by decide, by decide, ⟨_, rfl⟩,
    (CreateCustomService_existing KubeCluster.world "db" "workspace" [("user", "root")]
      (KubeRun.start (kubeCluster [] true))
      { Name := "service.org-workspace.svc-db", Namespace := "workspace",
        ResourceVersion := "1", OwnerReferences := [],
        Labels := [("epinio.suse.org/service", "db")], Data := [] }
      (by decide)).2.2.1⟩

/-- What `copySecret` does: it gets the secret and stops when that fails, else it creates
the copy and returns the outcome of that creation. -/
theorem copySecret_spec (w : KubeWorld σ) (secretName originOrg targetOrg : String)
    (s : KubeRun σ) :
    (∃ g e, g.err = some e ∧
      (organizations.copySecret w secretName originOrg targetOrg s).1 = some e ∧
      (organizations.copySecret w secretName originOrg targetOrg s).2.trace
        = s.trace ++ [KubeEvent.SecretGet originOrg secretName g]) ∨
    (∃ secret,
      (organizations.copySecret w secretName originOrg targetOrg s).2.trace
        = s.trace ++ [KubeEvent.SecretGet originOrg secretName (.found secret),
            KubeEvent.SecretCreate targetOrg (organizations.copyOf secret targetOrg)
              (organizations.copySecret w secretName originOrg targetOrg s).1]) := by
  unfold organizations.copySecret
  cases hg : (w.SecretGet originOrg secretName s.world).1 with
  | notFound err =>
    left
    exact ⟨.notFound err, err, rfl, by simp [hg], by simp [hg, KubeRun.step]⟩
  | failed err =>
    left
    exact ⟨.failed err, err, rfl, by simp [hg], by simp [hg, KubeRun.step]⟩
  | found secret =>
    right
    exact ⟨secret, by simp [hg, KubeRun.step]⟩

/-- The calls of `organizations.Create` are one of seven sequences: the fixed order
(namespace, registry-creds copy, ca-cert copy, service account, `gitea.CreateOrg`) cut off
after the first call that fails (the get or the create of a copy); the error returned is
the error of that call, wrapped with the message of the step for the three middle steps;
and `gitea.CreateOrg` is the last call and is made only when every cluster call before it
succeeded, its outcome being the result. -/
theorem Create_call_sequences (w : KubeWorld σ) (org : String) (s : KubeRun σ) :
    ∃ delta : List KubeEvent,
      (organizations.Create w org s).2.trace = s.trace ++ delta ∧
      (giteaCalls delta ≠ [] → kubeFailures delta = []) ∧
      ((∃ e,
          delta = [KubeEvent.NamespaceCreate (organizations.namespaceFor w org) (some e)] ∧
          (organizations.Create w org s).1 = some e) ∨
       (∃ g e, g.err = some e ∧
          delta = [KubeEvent.NamespaceCreate (organizations.namespaceFor w org) none,
            KubeEvent.SecretGet w.TektonStagingNamespace "registry-creds" g] ∧
          (organizations.Create w org s).1
            = some (Wrap e "failed to copy the registry credentials secret")) ∨
       (∃ secret e,
          delta = [KubeEvent.NamespaceCreate (organizations.namespaceFor w org) none,
            KubeEvent.SecretGet w.TektonStagingNamespace "registry-creds" (.found secret),
            KubeEvent.SecretCreate org (organizations.copyOf secret org) (some e)] ∧
          (organizations.Create w org s).1
            = some (Wrap e "failed to copy the registry credentials secret")) ∨
       (∃ creds g e, g.err = some e ∧
          delta = KubeEvent.NamespaceCreate (organizations.namespaceFor w org) none
            :: copiedSecret w "registry-creds" org creds
            ++ [KubeEvent.SecretGet w.TektonStagingNamespace "ca-cert" g] ∧
          (organizations.Create w org s).1
            = some (Wrap e "failed to copy the ca certificate")) ∨
       (∃ creds cert e,
          delta = KubeEvent.NamespaceCreate (organizations.namespaceFor w org) none
            :: copiedSecret w "registry-creds" org creds
            ++ [KubeEvent.SecretGet w.TektonStagingNamespace "ca-cert" (.found cert),
              KubeEvent.SecretCreate org (organizations.copyOf cert org) (some e)] ∧
          (organizations.Create w org s).1
            = some (Wrap e "failed to copy the ca certificate")) ∨
       (∃ creds cert e,
          delta = KubeEvent.NamespaceCreate (organizations.namespaceFor w org) none
            :: copiedSecret w "registry-creds" org creds
            ++ copiedSecret w "ca-cert" org cert
            ++ [KubeEvent.ServiceAccountCreate org (organizations.accountFor org)
              (some e)] ∧
          (organizations.Create w org s).1
            = some (Wrap e "failed to create a service account for apps")) ∨
       (∃ creds cert,
          delta = KubeEvent.NamespaceCreate (organizations.namespaceFor w org) none
            :: copiedSecret w "registry-creds" org creds
            ++ copiedSecret w "ca-cert" org cert
            ++ [KubeEvent.ServiceAccountCreate org (organizations.accountFor org) none,
              KubeEvent.GiteaCreateOrg org (organizations.Create w org s).1])) := by
  unfold organizations.Create
  dsimp only
  cases hn : (w.NamespaceCreate (organizations.namespaceFor w org) s.world).1 with
  | some e =>
    dsimp only
    refine ⟨[KubeEvent.NamespaceCreate (organizations.namespaceFor w org) (some e)],
      by simp [KubeRun.step], by simp [giteaCalls], Or.inl ⟨e, rfl, rfl⟩⟩
  | none =>
    dsimp only
    have h1 := copySecret_spec w "registry-creds" w.TektonStagingNamespace org
      (s.step (KubeEvent.NamespaceCreate (organizations.namespaceFor w org) none)
        (w.NamespaceCreate (organizations.namespaceFor w org) s.world).2)
    generalize organizations.copySecret w "registry-creds" w.TektonStagingNamespace org
      (s.step (KubeEvent.NamespaceCreate (organizations.namespaceFor w org) none)
        (w.NamespaceCreate (organizations.namespaceFor w org) s.world).2) = R at h1 ⊢
    obtain ⟨r, s2⟩ := R
    dsimp only at h1 ⊢
    rcases h1 with ⟨g, e, hge, hr, htr⟩ | ⟨creds, htr⟩
    · subst hr
      refine ⟨[KubeEvent.NamespaceCreate (organizations.namespaceFor w org) none,
          KubeEvent.SecretGet w.TektonStagingNamespace "registry-creds" g],
        by simp [htr, KubeRun.step], by simp [giteaCalls],
        Or.inr (Or.inl ⟨g, e, hge, rfl, rfl⟩)⟩
    · cases r with
      | some e =>
        refine ⟨[KubeEvent.NamespaceCreate (organizations.namespaceFor w org) none,
            KubeEvent.SecretGet w.TektonStagingNamespace "registry-creds" (.found creds),
            KubeEvent.SecretCreate org (organizations.copyOf creds org) (some e)],
          by simp [htr, KubeRun.step], by simp [giteaCalls],
          Or.inr (Or.inr (Or.inl ⟨creds, e, rfl, rfl⟩))⟩
      | none =>
        dsimp only
        have h2 := copySecret_spec w "ca-cert" w.TektonStagingNamespace org s2
        generalize organizations.copySecret w "ca-cert" w.TektonStagingNamespace org s2
          = C at h2 ⊢
        obtain ⟨c, s3⟩ := C
        dsimp only at h2 ⊢
        rcases h2 with ⟨g, e, hge, hc, htr2⟩ | ⟨cert, htr2⟩
        · subst hc
          refine ⟨KubeEvent.NamespaceCreate (organizations.namespaceFor w org) none
              :: copiedSecret w "registry-creds" org creds
              ++ [KubeEvent.SecretGet w.TektonStagingNamespace "ca-cert" g],
            by simp [htr2, htr, KubeRun.step, copiedSecret],
            by simp [giteaCalls, copiedSecret],
            Or.inr (Or.inr (Or.inr (Or.inl ⟨creds, g, e, hge, rfl, rfl⟩)))⟩
        · cases c with
          | some e =>
            refine ⟨KubeEvent.NamespaceCreate (organizations.namespaceFor w org) none
                :: copiedSecret w "registry-creds" org creds
                ++ [KubeEvent.SecretGet w.TektonStagingNamespace "ca-cert" (.found cert),
                  KubeEvent.SecretCreate org (organizations.copyOf cert org) (some e)],
              by simp [htr2, htr, KubeRun.step, copiedSecret],
              by simp [giteaCalls, copiedSecret],
              Or.inr (Or.inr (Or.inr (Or.inr (Or.inl ⟨creds, cert, e, rfl, rfl⟩))))⟩
          | none =>
            dsimp only
            unfold organizations.createServiceAccount
            dsimp only
            cases ha : (w.ServiceAccountCreate org (organizations.accountFor org)
                s3.world).1 with
            | some e =>
              refine ⟨KubeEvent.NamespaceCreate (organizations.namespaceFor w org) none
                  :: copiedSecret w "registry-creds" org creds
                  ++ copiedSecret w "ca-cert" org cert
                  ++ [KubeEvent.ServiceAccountCreate org (organizations.accountFor org)
                    (some e)],
                by simp [htr2, htr, KubeRun.step, copiedSecret],
                by simp [giteaCalls, copiedSecret],
                Or.inr (Or.inr (Or.inr (Or.inr (Or.inr (Or.inl
                  ⟨creds, cert, e, rfl, rfl⟩)))))⟩
            | none =>
              refine ⟨KubeEvent.NamespaceCreate (organizations.namespaceFor w org) none
                  :: copiedSecret w "registry-creds" org creds
                  ++ copiedSecret w "ca-cert" org cert
                  ++ [KubeEvent.ServiceAccountCreate org (organizations.accountFor org)
                      none,
                    KubeEvent.GiteaCreateOrg org
                      (w.GiteaCreateOrg org (w.ServiceAccountCreate org
                        (organizations.accountFor org) s3.world).2).1],
                by simp [htr2, htr, KubeRun.step, copiedSecret],
                by simp [kubeFailures, copiedSecret, SecretResult.err],
                Or.inr (Or.inr (Or.inr (Or.inr (Or.inr (Or.inr
                  ⟨creds, cert, rfl⟩)))))⟩

/-- A property of the cluster state that getting and creating secrets keep is kept by
`copySecret`; and `copySecret` deletes nothing. -/
theorem copySecret_keeps (w : KubeWorld σ) (P : σ → Prop)
    (hget : ∀ o n st, P st → P (w.SecretGet o n st).2)
    (hsecret : ∀ o secret st, P st → P (w.SecretCreate o secret st).2)
    (secretName originOrg targetOrg : String) (s : KubeRun σ) (h : P s.world) :
    P (organizations.copySecret w secretName originOrg targetOrg s).2.world ∧
    deletions (organizations.copySecret w secretName originOrg targetOrg s).2.trace
      = deletions s.trace := by
  unfold organizations.copySecret
  dsimp only
  cases hg : (w.SecretGet originOrg secretName s.world).1 with
  | notFound err =>
    exact ⟨hget _ _ _ h, by simp [KubeRun.step, deletions]⟩
  | failed err =>
    exact ⟨hget _ _ _ h, by simp [KubeRun.step, deletions]⟩
  | found secret =>
    exact ⟨hsecret _ _ _ (hget _ _ _ h), by simp [KubeRun.step, deletions]⟩

/-- The deleting calls of a run after one more logged call. -/
theorem deletions_step (s : KubeRun σ) (ev : KubeEvent) (st : σ) :
    deletions (s.step ev st).trace = deletions s.trace ++ deletions [ev] := by
  simp [KubeRun.step, deletions]

/-- After its first step, `organizations.Create` keeps every property of the cluster
state that its later calls keep; and it deletes nothing. -/
theorem Create_keeps (w : KubeWorld σ) (P : σ → Prop)
    (hget : ∀ o n st, P st → P (w.SecretGet o n st).2)
    (hsecret : ∀ o secret st, P st → P (w.SecretCreate o secret st).2)
    (haccount : ∀ o account st, P st → P (w.ServiceAccountCreate o account st).2)
    (hgitea : ∀ o st, P st → P (w.GiteaCreateOrg o st).2)
    (org : String) (s : KubeRun σ)
    (h : P (w.NamespaceCreate (organizations.namespaceFor w org) s.world).2) :
    P (organizations.Create w org s).2.world ∧
    deletions (organizations.Create w org s).2.trace = deletions s.trace := by
  unfold organizations.Create
  dsimp only
  have h0 : deletions (s.step
      (KubeEvent.NamespaceCreate (organizations.namespaceFor w org)
        (w.NamespaceCreate (organizations.namespaceFor w org) s.world).1)
      (w.NamespaceCreate (organizations.namespaceFor w org) s.world).2).trace
      = deletions s.trace := by
    simp [KubeRun.step, deletions]
  split
  · exact ⟨h, h0⟩
  · obtain ⟨h1, d1⟩ := copySecret_keeps w P hget hsecret "registry-creds"
      w.TektonStagingNamespace org
      (s.step (KubeEvent.NamespaceCreate (organizations.namespaceFor w org)
          (w.NamespaceCreate (organizations.namespaceFor w org) s.world).1)
        (w.NamespaceCreate (organizations.namespaceFor w org) s.world).2) h
    split
    · exact ⟨h1, d1.trans h0⟩
    · obtain ⟨h2, d2⟩ := copySecret_keeps w P hget hsecret "ca-cert"
        w.TektonStagingNamespace org _ h1
      split
      · exact ⟨h2, d2.trans (d1.trans h0)⟩
      · unfold organizations.createServiceAccount
        dsimp only
        split
        · refine ⟨haccount _ _ _ h2, ?_⟩
          rw [deletions_step, d2, d1, h0]
          simp [deletions]
        · refine ⟨hgitea _ _ (haccount _ _ _ h2), ?_⟩
          rw [deletions_step, deletions_step, d2, d1, h0]
          simp [deletions]

/-- A name carried by a listed namespace exists as an organization. -/
theorem Exists_of_listed (w : KubeWorld σ) (name : String) (s : KubeRun σ)
    (items : List Namespace)
    (h : (w.NamespaceList (organizations.selector w) s.world).1 = .ok items)
    (hmem : ∃ ns ∈ items, ns.Name = name) :
    (organizations.Exists w name s).1 = (true, none) := by
  have hlist : (organizations.List w s).1
      = (items.map (fun ns => ({ Name := ns.Name } : Organization)), none) := by
    simp [organizations.List, h]
  obtain ⟨ns, hns, hname⟩ := hmem
  simp only [organizations.Exists, hlist]
  simp only [Prod.mk.injEq, and_true, List.any_eq_true]
  exact ⟨{ Name := ns.Name }, List.mem_map.mpr ⟨ns, hns, rfl⟩, by simp [hname]⟩

/-- A successful `organizations.Create` has created the namespace. -/
theorem Create_ok_created (w : KubeWorld σ) (org : String) (s : KubeRun σ)
    (h : (organizations.Create w org s).1 = none) :
    (w.NamespaceCreate (organizations.namespaceFor w org) s.world).1 = none := by
  unfold organizations.Create at h
  dsimp only at h
  split at h
  · simp at h
  · assumption

/-- C19. For every organization name and every cluster state, on a cluster that keeps
its API contract (`Has ns st` says that the state holds the namespace `ns`: a created
namespace is held; a held namespace is listed under each of its labels; getting and
creating secrets, creating service accounts and creating repository accounts take no
namespace away): once the namespace-creation step of `organizations.Create` has
succeeded, `organizations.Exists(name)` returns true after `Create`, whether the
remaining steps succeeded or one of them failed; in particular after a successful
`Create`; and `Create` makes no deleting call. -/
theorem Create_then_Exists (w : KubeWorld σ) (org : String) (s : KubeRun σ)
    (Has : Namespace → σ → Prop)
    (hcreate : ∀ ns st, (w.NamespaceCreate ns st).1 = none →
      Has ns (w.NamespaceCreate ns st).2)
    (hlist : ∀ ns key value st, Has ns st → (key, value) ∈ ns.Labels →
      ∃ items, (w.NamespaceList (key ++ "=" ++ value) st).1 = .ok items ∧ ns ∈ items)
    (hget : ∀ ns o n st, Has ns st → Has ns (w.SecretGet o n st).2)
    (hsecret : ∀ ns o secret st, Has ns st → Has ns (w.SecretCreate o secret st).2)
    (haccount : ∀ ns o account st, Has ns st →
      Has ns (w.ServiceAccountCreate o account st).2)
    (hgitea : ∀ ns o st, Has ns st → Has ns (w.GiteaCreateOrg o st).2) :
    ((w.NamespaceCreate (organizations.namespaceFor w org) s.world).1 = none →
      (organizations.Exists w org (organizations.Create w org s).2).1 = (true, none)) ∧
    ((organizations.Create w org s).1 = none →
      (organizations.Exists w org (organizations.Create w org s).2).1 = (true, none)) ∧
    deletions (organizations.Create w org s).2.trace = deletions s.trace := by
  have hmain : (w.NamespaceCreate (organizations.namespaceFor w org) s.world).1 = none →
      (organizations.Exists w org (organizations.Create w org s).2).1 = (true, none) := by
    intro hns
    have hhas := hcreate _ _ hns
    obtain ⟨hkept, -⟩ := Create_keeps w (Has (organizations.namespaceFor w org))
      (hget _) (hsecret _) (haccount _) (hgitea _) org s hhas
    obtain ⟨items, hitems, hmem⟩ := hlist (organizations.namespaceFor w org)
      w.EpinioOrgLabelKey w.EpinioOrgLabelValue _ hkept
      (by simp [organizations.namespaceFor])
    exact Exists_of_listed w org (organizations.Create w org s).2 items hitems
      ⟨_, hmem, rfl⟩
  refine ⟨hmain, fun hok => hmain (Create_ok_created w org s hok), ?_⟩
  by_cases hns : (w.NamespaceCreate (organizations.namespaceFor w org) s.world).1 = none
  · exact (Create_keeps w (fun _ => True) (fun _ _ _ _ => trivial) (fun _ _ _ _ => trivial)
      (fun _ _ _ _ => trivial) (fun _ _ _ => trivial) org s trivial).2
  · exact (Create_keeps w (fun _ => True) (fun _ _ _ _ => trivial) (fun _ _ _ _ => trivial)
      (fun _ _ _ _ => trivial) (fun _ _ _ => trivial) org s trivial).2

/-- On the example cluster a created namespace is held. -/
theorem KubeCluster_create_holds (ns : Namespace) (c : KubeCluster)
    (h : (KubeCluster.world.NamespaceCreate ns c).1 = none) :
    ns ∈ (KubeCluster.world.NamespaceCreate ns c).2.namespaces := by
  simp only [KubeCluster.world] at h ⊢
  split at h
  · simp at h
  · rename_i hany
    simp [hany]

/-- On the example cluster a held namespace is listed under each of its labels. -/
theorem KubeCluster_lists_held (ns : Namespace) (key value : String) (c : KubeCluster)
    (h : ns ∈ c.namespaces) (hl : (key, value) ∈ ns.Labels) :
    ∃ items, (KubeCluster.world.NamespaceList (key ++ "=" ++ value) c).1 = .ok items ∧
      ns ∈ items := by
  refine ⟨_, rfl, ?_⟩
  rw [List.mem_filter]
  refine ⟨h, ?_⟩
  rw [List.any_eq_true]
  exact ⟨(key, value), hl, by simp⟩

/-- On the example cluster no call of `organizations.Create` after the first takes a
namespace away. -/
theorem KubeCluster_keeps_namespaces (ns : Namespace) (c : KubeCluster)
    (h : ns ∈ c.namespaces) :
    (∀ o n, ns ∈ (KubeCluster.world.SecretGet o n c).2.namespaces) ∧
    (∀ o secret, ns ∈ (KubeCluster.world.SecretCreate o secret c).2.namespaces) ∧
    (∀ o account, ns ∈ (KubeCluster.world.ServiceAccountCreate o account c).2.namespaces) ∧
    (∀ o, ns ∈ (KubeCluster.world.GiteaCreateOrg o c).2.namespaces) := by
  refine ⟨fun o n => ?_, fun o secret => ?_, fun o account => h, fun o => ?_⟩
  · simp only [KubeCluster.world]
    split <;> exact h
  · simp only [KubeCluster.world]
    split <;> exact h
  · simp only [KubeCluster.world]
    split <;> exact h

/-- Creating the organization "neworg" on the example cluster whose staging namespace
lacks the ca-cert secret: `Create` fails at the second copy, and the organization exists
afterwards. -/
theorem Create_then_Exists_witness :
    (organizations.Create KubeCluster.world "neworg"
      (KubeRun.start (kubeCluster ["registry-creds"] true))).1
      = some "failed to copy the ca certificate: secret not found" ∧
    (organizations.Exists KubeCluster.world "neworg"
      (KubeRun.start (kubeCluster ["registry-creds"] true))).1 = (false, none) ∧
    ((KubeCluster.world.NamespaceCreate (organizations.namespaceFor KubeCluster.world "neworg")
        (KubeRun.start (kubeCluster ["registry-creds"] true)).world).1 = none →
      (organizations.Exists KubeCluster.world "neworg"
        (organizations.Create KubeCluster.world "neworg"
          (KubeRun.start (kubeCluster ["registry-creds"] true))).2).1 = (true, none)) ∧
    (KubeCluster.world.NamespaceCreate (organizations.namespaceFor KubeCluster.world "neworg")
        (KubeRun.start (kubeCluster ["registry-creds"] true)).world).1 = none :=
  ⟨by decide, by decide,
    (Create_then_Exists KubeCluster.world "neworg"
      (KubeRun.start (kubeCluster ["registry-creds"] true))
      (fun ns c => ns ∈ c.namespaces)
      KubeCluster_create_holds
      (fun ns key value c h hl => KubeCluster_lists_held ns key value c h hl)
      (fun ns o n c h => (KubeCluster_keeps_namespaces ns c h).1 o n)
      (fun ns o secret c h => (KubeCluster_keeps_namespaces ns c h).2.1 o secret)
      (fun ns o account c h => (KubeCluster_keeps_namespaces ns c h).2.2.1 o account)
      (fun ns o c h => (KubeCluster_keeps_namespaces ns c h).2.2.2 o)).1,
    by decide⟩

/-! ## Claims on `options.go` -/

/-- The first loop of `getOpt` finds nothing exactly when no option has that name and
that deployment; what it finds is the first such option. -/
theorem privateOpt_spec (optionName deploymentID : String) :
    ∀ opts : List InstallationOption,
    (InstallationOptions.privateOpt optionName deploymentID opts = none ↔
      ∀ x ∈ opts, ¬ (x.Name = optionName ∧ x.DeploymentID = deploymentID)) ∧
    (∀ o, InstallationOptions.privateOpt optionName deploymentID opts = some o →
      ∃ pre post, opts = pre ++ o :: post ∧
        (o.Name = optionName ∧ o.DeploymentID = deploymentID) ∧
        ∀ x ∈ pre, ¬ (x.Name = optionName ∧ x.DeploymentID = deploymentID)) := by
  intro opts
  induction opts with
  | nil => simp [InstallationOptions.privateOpt]
  | cons a rest ih =>
    by_cases ha : a.Name = optionName ∧ a.DeploymentID = deploymentID
    · constructor
      · simp [InstallationOptions.privateOpt, ha]
      · intro o ho
        have : a = o := by simpa [InstallationOptions.privateOpt, ha] using ho
        subst this
        exact ⟨[], rest, rfl, ha, by simp⟩
    · have hstep : InstallationOptions.privateOpt optionName deploymentID (a :: rest)
          = InstallationOptions.privateOpt optionName deploymentID rest := by
        simp only [InstallationOptions.privateOpt]
        rw [if_neg ha]
      rw [hstep]
      constructor
      · rw [ih.1]
        constructor
        · intro h x hx
          rcases List.mem_cons.mp hx with rfl | hx
          · exact ha
          · exact h x hx
        · intro h x hx
          exact h x (List.mem_cons_of_mem a hx)
      · intro o ho
        obtain ⟨pre, post, hsplit, hm, hpre⟩ := ih.2 o ho
        refine ⟨a :: pre, post, by rw [hsplit]; rfl, hm, ?_⟩
        intro x hx
        rcases List.mem_cons.mp hx with rfl | hx
        · exact ha
        · exact hpre x hx

/-- The second loop of `getOpt` finds nothing exactly when no global option has that
name; what it finds is the first such option. -/
theorem globalOpt_spec (optionName : String) :
    ∀ opts : List InstallationOption,
    (InstallationOptions.globalOpt optionName opts = none ↔
      ∀ x ∈ opts, ¬ (x.Name = optionName ∧ x.DeploymentID = "")) ∧
    (∀ o, InstallationOptions.globalOpt optionName opts = some o →
      ∃ pre post, opts = pre ++ o :: post ∧
        (o.Name = optionName ∧ o.DeploymentID = "") ∧
        ∀ x ∈ pre, ¬ (x.Name = optionName ∧ x.DeploymentID = "")) := by
  intro opts
  induction opts with
  | nil => simp [InstallationOptions.globalOpt]
  | cons a rest ih =>
    by_cases ha : a.Name = optionName ∧ a.DeploymentID = ""
    · constructor
      · simp [InstallationOptions.globalOpt, ha]
      · intro o ho
        have : a = o := by simpa [InstallationOptions.globalOpt, ha] using ho
        subst this
        exact ⟨[], rest, rfl, ha, by simp⟩
    · have hstep : InstallationOptions.globalOpt optionName (a :: rest)
          = InstallationOptions.globalOpt optionName rest := by
        simp only [InstallationOptions.globalOpt]
        rw [if_neg ha]
      rw [hstep]
      constructor
      · rw [ih.1]
        constructor
        · intro h x hx
          rcases List.mem_cons.mp hx with rfl | hx
          · exact ha
          · exact h x hx
        · intro h x hx
          exact h x (List.mem_cons_of_mem a hx)
      · intro o ho
        obtain ⟨pre, post, hsplit, hm, hpre⟩ := ih.2 o ho
        refine ⟨a :: pre, post, by rw [hsplit]; rfl, hm, ?_⟩
        intro x hx
        rcases List.mem_cons.mp hx with rfl | hx
        · exact ha
        · exact hpre x hx

/-- C23. For every option list, option name and deployment ID, `getOpt` gives priority to
the deployment-specific option: when an option of that name and that deployment exists,
it returns the first such option, whatever stands before it (global options of the same
name included); otherwise, when a global option of that name exists, it returns the
first such option; it fails exactly when neither exists, and then with the error
`<name> not set`.  `GetString` returns an error exactly when `getOpt` does, the same one,
and returns the value of the option `getOpt` found when that value is a string. -/
theorem getOpt_prefers_deployment (opts : InstallationOptions)
    (optionName deploymentID : String) :
    ((∃ o ∈ opts, o.Name = optionName ∧ o.DeploymentID = deploymentID) →
      ∃ pre o post, opts = pre ++ o :: post ∧
        (o.Name = optionName ∧ o.DeploymentID = deploymentID) ∧
        (∀ x ∈ pre, ¬ (x.Name = optionName ∧ x.DeploymentID = deploymentID)) ∧
        InstallationOptions.getOpt opts optionName deploymentID = .ok o) ∧
    ((¬ ∃ o ∈ opts, o.Name = optionName ∧ o.DeploymentID = deploymentID) →
      (∃ o ∈ opts, o.Name = optionName ∧ o.DeploymentID = "") →
      ∃ pre o post, opts = pre ++ o :: post ∧
        (o.Name = optionName ∧ o.DeploymentID = "") ∧
        (∀ x ∈ pre, ¬ (x.Name = optionName ∧ x.DeploymentID = "")) ∧
        InstallationOptions.getOpt opts optionName deploymentID = .ok o) ∧
    ((∃ e, InstallationOptions.getOpt opts optionName deploymentID = .error e) ↔
      (¬ ∃ o ∈ opts, o.Name = optionName ∧ o.DeploymentID = deploymentID) ∧
      (¬ ∃ o ∈ opts, o.Name = optionName ∧ o.DeploymentID = "")) ∧
    (∀ e, InstallationOptions.getOpt opts optionName deploymentID = .error e →
      e = optionName ++ " not set") ∧
    (∀ e, InstallationOptions.GetString opts optionName deploymentID = .error e ↔
      InstallationOptions.getOpt opts optionName deploymentID = .error e) ∧
    (∀ o v, InstallationOptions.getOpt opts optionName deploymentID = .ok o →
      o.Value = .string v →
      InstallationOptions.GetString opts optionName deploymentID = .value v) := by
  obtain ⟨hpnone, hpsome⟩ := privateOpt_spec optionName deploymentID opts
  obtain ⟨hgnone, hgsome⟩ := globalOpt_spec optionName opts
  refine ⟨?_, ?_, ?_, ?_, ?_, ?_⟩
  · intro hex
    cases hp : InstallationOptions.privateOpt optionName deploymentID opts with
    | none =>
      obtain ⟨o, ho, hm⟩ := hex
      exact absurd hm (hpnone.mp hp o ho)
    | some o =>
      obtain ⟨pre, post, hsplit, hm, hpre⟩ := hpsome o hp
      exact ⟨pre, o, post, hsplit, hm, hpre, by simp [InstallationOptions.getOpt, hp]⟩
  · intro hno hex
    have hp : InstallationOptions.privateOpt optionName deploymentID opts = none :=
      hpnone.mpr (fun x hx hm => hno ⟨x, hx, hm⟩)
    cases hg : InstallationOptions.globalOpt optionName opts with
    | none =>
      obtain ⟨o, ho, hm⟩ := hex
      exact absurd hm (hgnone.mp hg o ho)
    | some o =>
      obtain ⟨pre, post, hsplit, hm, hpre⟩ := hgsome o hg
      exact ⟨pre, o, post, hsplit, hm, hpre, by simp [InstallationOptions.getOpt, hp, hg]⟩
  · constructor
    · rintro ⟨e, he⟩
      cases hp : InstallationOptions.privateOpt optionName deploymentID opts with
      | some o => simp [InstallationOptions.getOpt, hp] at he
      | none =>
        cases hg : InstallationOptions.globalOpt optionName opts with
        | some o => simp [InstallationOptions.getOpt, hp, hg] at he
        | none =>
          exact ⟨fun ⟨o, ho, hm⟩ => hpnone.mp hp o ho hm,
            fun ⟨o, ho, hm⟩ => hgnone.mp hg o ho hm⟩
    · rintro ⟨h1, h2⟩
      have hp := hpnone.mpr (fun x hx hm => h1 ⟨x, hx, hm⟩)
      have hg := hgnone.mpr (fun x hx hm => h2 ⟨x, hx, hm⟩)
      exact ⟨optionName ++ " not set", by simp [InstallationOptions.getOpt, hp, hg]⟩
  · intro e he
    cases hp : InstallationOptions.privateOpt optionName deploymentID opts with
    | some o => simp [InstallationOptions.getOpt, hp] at he
    | none =>
      cases hg : InstallationOptions.globalOpt optionName opts with
      | some o => simp [InstallationOptions.getOpt, hp, hg] at he
      | none =>
        have : optionName ++ " not set" = e := by
          simpa [InstallationOptions.getOpt, hp, hg] using he
        exact this.symm
  · intro e
    cases hres : InstallationOptions.getOpt opts optionName deploymentID with
    | error err => simp [InstallationOptions.GetString, hres]
    | ok o =>
      cases hv : o.Value <;> simp [InstallationOptions.GetString, hres, hv]
  · intro o v hres hv
    simp [InstallationOptions.GetString, hres, hv]

/-- With a global option "domain" ahead of the option "domain" of deployment "traefik":
for "traefik" the deployment's option is found, for "gitea" the global one, and the
name "email" is not set. -/
theorem getOpt_prefers_deployment_witness :
    InstallationOptions.getOpt
      [installationOption "domain" (.string "global.example") "",
        installationOption "domain" (.string "private.example") "traefik"]
      "domain" "traefik"
      = .ok (installationOption "domain" (.string "private.example") "traefik") ∧
    InstallationOptions.GetString
      [installationOption "domain" (.string "global.example") "",
        installationOption "domain" (.string "private.example") "traefik"]
      "domain" "gitea" = .value "global.example" ∧
    InstallationOptions.getOpt
      [installationOption "domain" (.string "global.example") "",
        installationOption "domain" (.string "private.example") "traefik"]
      "email" "traefik" = .error "email not set" ∧
    (∃ pre o post,
      [installationOption "domain" (.string "global.example") "",
        installationOption "domain" (.string "private.example") "traefik"]
        = pre ++ o :: post ∧
      (o.Name = "domain" ∧ o.DeploymentID = "traefik") ∧
      (∀ x ∈ pre, ¬ (x.Name = "domain" ∧ x.DeploymentID = "traefik")) ∧
      InstallationOptions.getOpt
        [installationOption "domain" (.string "global.example") "",
          installationOption "domain" (.string "private.example") "traefik"]
        "domain" "traefik" = .ok o) :=
  ⟨by decide, by decide, by decide,
    (getOpt_prefers_deployment
      [installationOption "domain" (.string "global.example") "",
        installationOption "domain" (.string "private.example") "traefik"]
      "domain" "traefik").1
      ⟨installationOption "domain" (.string "private.example") "traefik",
        by decide, by decide⟩⟩

/-- C29. `GetBool` and `GetInt` do not resolve an option the way `getOpt` and
`GetString` do.  With the global boolean option "debug" as the only option, `getOpt`
finds it for the deployment "traefik", but `GetBool` for "traefik" returns the error
"debug not set"; with the global integer option "replicas", `getOpt` finds it but
`GetInt` returns "replicas not set"; `GetString` does return the value of a global
string option. -/
theorem GetBool_GetInt_skip_global_option :
    InstallationOptions.getOpt [installationOption "debug" (.bool true) ""]
      "debug" "traefik" = .ok (installationOption "debug" (.bool true) "") ∧
    InstallationOptions.GetBool [installationOption "debug" (.bool true) ""]
      "debug" "traefik" = .error "debug not set" ∧
    InstallationOptions.getOpt [installationOption "replicas" (.int 3) ""]
      "replicas" "traefik" = .ok (installationOption "replicas" (.int 3) "") ∧
    InstallationOptions.GetInt [installationOption "replicas" (.int 3) ""]
      "replicas" "traefik" = .error "replicas not set" ∧
    InstallationOptions.GetString [installationOption "domain" (.string "example.org") ""]
      "domain" "traefik" = .value "example.org" ∧
    InstallationOptions.GetBool [installationOption "debug" (.bool true) ""]
      "debug" "" = .value true ∧
    InstallationOptions.GetInt [installationOption "replicas" (.int 3) ""]
      "replicas" "" = .value 3 := by
  refine ⟨?_, ?_, ?_, ?_, ?_, ?_, ?_⟩ <;> decide

/-- C22. `Merge` does not keep one option for each distinct (Name, DeploymentID) pair.
The option "a-b" of deployment "c" and the option "a" of deployment "b-c" are distinct
pairs with the one map key "a-b-c": merging the second into a list that holds the first
gives, in whatever order the map is ranged over, a result with the second option only,
and the pair of the first option is lost. -/
theorem Merge_key_collision :
    ((installationOption "a-b" (.string "first") "c").Name,
        (installationOption "a-b" (.string "first") "c").DeploymentID)
      ≠ ((installationOption "a" (.string "second") "b-c").Name,
        (installationOption "a" (.string "second") "b-c").DeploymentID) ∧
    (installationOption "a-b" (.string "first") "c").ToOptMapKey
      = (installationOption "a" (.string "second") "b-c").ToOptMapKey ∧
    InstallationOptions.Merge [installationOption "a-b" (.string "first") "c"]
        [installationOption "a" (.string "second") "b-c"]
      = [installationOption "a" (.string "second") "b-c"] ∧
    ∀ result : InstallationOptions,
      result.Perm (InstallationOptions.Merge [installationOption "a-b" (.string "first") "c"]
        [installationOption "a" (.string "second") "b-c"]) →
      result.length = 1 ∧ ¬ ∃ o ∈ result, o.Name = "a-b" ∧ o.DeploymentID = "c" := by
  have hmerge : InstallationOptions.Merge [installationOption "a-b" (.string "first") "c"]
        [installationOption "a" (.string "second") "b-c"]
      = [installationOption "a" (.string "second") "b-c"] := by decide
  refine ⟨by decide, by decide, hmerge, ?_⟩
  intro result hperm
  rw [hmerge] at hperm
  have hres : result = [installationOption "a" (.string "second") "b-c"] :=
    List.perm_singleton.mp hperm
  subst hres
  exact ⟨rfl, by decide⟩

/-! ## Claims on `custom_service.go` -/

/-- A successful `CreateCustomService`: the service it returns, and the call that
created the secret (`custom_service.go:101-111`), which succeeded and left the state that
`CreateCustomService` leaves. -/
theorem CreateCustomService_ok (w : KubeWorld σ) (name org : String)
    (data : List (String × String)) (s : KubeRun σ) (created : CustomService)
    (hok : (services.CreateCustomService w name org data s).1 = (some created, none)) :
    created = { SecretName := w.serviceResourceName org name, OrgName := org,
                Service := name } ∧
    ∃ labels,
      (w.CreateLabeledSecret org (w.serviceResourceName org name)
        (data.map (fun kv => (kv.1, Bytes.ofString kv.2))) labels
        (w.SecretGet org (w.serviceResourceName org name) s.world).2).1 = none ∧
      (services.CreateCustomService w name org data s).2.world
        = (w.CreateLabeledSecret org (w.serviceResourceName org name)
            (data.map (fun kv => (kv.1, Bytes.ofString kv.2))) labels
            (w.SecretGet org (w.serviceResourceName org name) s.world).2).2 := by
  cases hg : (w.SecretGet org (w.serviceResourceName org name) s.world).1.err with
  | none => simp [services.CreateCustomService, hg] at hok
  | some e =>
    cases hc : (w.CreateLabeledSecret org (w.serviceResourceName org name)
        (data.map (fun kv => (kv.1, Bytes.ofString kv.2)))
        [("epinio.suse.org/service-type", "custom"), ("epinio.suse.org/service", name),
          ("epinio.suse.org/organization", org), ("app.kubernetes.io/name", "epinio")]
        (w.SecretGet org (w.serviceResourceName org name) s.world).2).1 with
    | some err => simp [services.CreateCustomService, hg, KubeRun.step, hc] at hok
    | none =>
      simp only [services.CreateCustomService, hg, KubeRun.step, hc, Prod.mk.injEq,
        Option.some.injEq, and_true] at hok
      refine ⟨hok.symm, _, hc, ?_⟩
      simp [services.CreateCustomService, hg, KubeRun.step, hc]

/-- What `CustomServiceLookup` returns when the secret of the service is found. -/
theorem CustomServiceLookup_found (w : KubeWorld σ) (org service : String) (s : KubeRun σ)
    (secret : Secret)
    (h : (w.SecretGet org (w.serviceResourceName org service) s.world).1 = .found secret) :
    services.CustomServiceLookup w org service s
      = ((some { SecretName := w.serviceResourceName org service, OrgName := org,
                 Service := service }, none),
          s.step (KubeEvent.SecretGet org (w.serviceResourceName org service) (.found secret))
            (w.SecretGet org (w.serviceResourceName org service) s.world).2) := by
  simp [services.CustomServiceLookup, h]

/-- C21. For every org and service name: `CustomServiceLookup` reports not-found (nil
service, nil error) when getting the secret of the derived name reports not-found; and on
a cluster where a secret whose creation succeeded can be got afterwards, after a
successful `CreateCustomService(name, org, data)` the call `CustomServiceLookup(org, name)`
returns, without error, the service that was created: a service of that name, that org
and the derived secret name, whose `Status` is "Provisioned" and whose
`WaitForProvision` returns nil, both without a call to the cluster. -/
theorem CustomServiceLookup_after_create (w : KubeWorld σ) (name org : String)
    (data : List (String × String)) (s : KubeRun σ)
    (hstore : ∀ o n d labels st, (w.CreateLabeledSecret o n d labels st).1 = none →
      ∃ secret, (w.SecretGet o n (w.CreateLabeledSecret o n d labels st).2).1
        = .found secret) :
    (∀ (s0 : KubeRun σ) (err : String),
      (w.SecretGet org (w.serviceResourceName org name) s0.world).1 = .notFound err →
      (services.CustomServiceLookup w org name s0).1 = (none, none)) ∧
    (∀ created, (services.CreateCustomService w name org data s).1 = (some created, none) →
      (services.CustomServiceLookup w org name
        (services.CreateCustomService w name org data s).2).1 = (some created, none) ∧
      created.Name = name ∧ created.Org = org ∧
      created.SecretName = w.serviceResourceName org name ∧
      ∀ r : KubeRun σ, created.Status r = (("Provisioned", none), r) ∧
        created.WaitForProvision r = (none, r)) := by
  constructor
  · intro s0 err h
    simp [services.CustomServiceLookup, h]
  · intro created hok
    obtain ⟨hcreated, labels, hnone, hworld⟩ := CreateCustomService_ok w name org data s
      created hok
    obtain ⟨secret, hfound⟩ := hstore _ _ _ _ _ hnone
    rw [← hworld] at hfound
    rw [CustomServiceLookup_found w org name _ secret hfound]
    subst hcreated
    exact ⟨rfl, rfl, rfl, rfl, fun r => ⟨rfl, rfl⟩⟩

/-- On the example cluster a secret whose creation succeeded is held afterwards, with
the data it was created with. -/
theorem KubeCluster_stores (o n : String) (d : List (String × Bytes))
    (labels : List (String × String)) (c : KubeCluster)
    (h : (KubeCluster.world.CreateLabeledSecret o n d labels c).1 = none) :
    ∃ secret, (KubeCluster.world.CreateLabeledSecret o n d labels c).2.secret o n
        = some secret ∧ secret.Data = d := by
  simp only [KubeCluster.world] at h ⊢
  split at h
  · simp at h
  · rename_i hnone
    simp only [KubeCluster.secret] at hnone ⊢
    rw [List.find?_append, hnone]
    simp

/-- Getting a secret of the example cluster: the secret the cluster holds, and the
cluster is left as it is. -/
theorem KubeCluster_get (o n : String) (c : KubeCluster) (secret : Secret)
    (h : c.secret o n = some secret) :
    KubeCluster.world.SecretGet o n c = (.found secret, c) := by
  simp [KubeCluster.world, h]

/-- Creating the custom service "cache" in "workspace" on the example cluster and
looking it up; the service "queue" that nobody created is not found. -/
theorem CustomServiceLookup_after_create_witness :
    (services.CreateCustomService KubeCluster.world "cache" "workspace" [("user", "root")]
      (KubeRun.start (kubeCluster [] true))).1
      = (some { SecretName := "service.org-workspace.svc-cache", OrgName := "workspace",
                Service := "cache" }, none) ∧
    (services.CustomServiceLookup KubeCluster.world "workspace" "queue"
      (KubeRun.start (kubeCluster [] true))).1 = (none, none) ∧
    (services.CustomServiceLookup KubeCluster.world "workspace" "cache"
      (KubeRun.start (kubeCluster [] true))).1 = (none, none) ∧
    (services.CustomServiceLookup KubeCluster.world "workspace" "cache"
      (services.CreateCustomService KubeCluster.world "cache" "workspace" [("user", "root")]
        (KubeRun.start (kubeCluster [] true))).2).1
      = (some { SecretName := "service.org-workspace.svc-cache", OrgName := "workspace",
                Service := "cache" }, none) :=
  ⟨by decide, by decide, by decide,
    ((CustomServiceLookup_after_create KubeCluster.world "cache" "workspace"
      [("user", "root")] (KubeRun.start (kubeCluster [] true))
      (fun o n d labels c h => by
        obtain ⟨secret, hs, -⟩ := KubeCluster_stores o n d labels c h
        exact ⟨secret, by rw [KubeCluster_get o n _ secret hs]⟩)).2
      { SecretName := "service.org-workspace.svc-cache", OrgName := "workspace",
        Service := "cache" } (by decide)).1⟩

/-- Converting a string to bytes and back gives the string; so converting the values of
a map to bytes and back gives the map. -/
theorem bytes_round_trip (data : List (String × String)) :
    (∀ v : String, (Bytes.ofString v).toString = v) ∧
    (data.map (fun kv => (kv.1, Bytes.ofString kv.2))).map (fun kv => (kv.1, kv.2.toString))
      = data := by
  refine ⟨fun v => rfl, ?_⟩
  induction data with
  | nil => rfl
  | cons kv rest ih =>
    simp only [List.map_cons, ih]
    rfl

/-- What `Details` returns when the secret of the service is found. -/
theorem Details_found (w : KubeWorld σ) (service : CustomService) (s : KubeRun σ)
    (secret : Secret)
    (h : (w.SecretGet service.OrgName service.SecretName s.world).1 = .found secret) :
    (service.Details w s).1
      = (some (secret.Data.map (fun kv => (kv.1, kv.2.toString))), none) := by
  simp [CustomService.Details, h]

/-- C30. Creating a custom service and reading its details is a round trip.  On a cluster
that keeps what was stored (`Stored o n d st` says that the state holds the secret `n` of
`o` with the data `d`: a secret whose creation succeeded is stored with its data; a
stored secret is got with that data, and getting it keeps it stored): for every key/value
map `data`, after a successful `CreateCustomService(name, org, data)` the `Details()` of
the returned service are `data`, without error, and so are the `Details()` of the service
that `CustomServiceLookup(org, name)` then finds: the same keys, each with the same
string value. -/
theorem Details_round_trip (w : KubeWorld σ) (name org : String)
    (data : List (String × String)) (s : KubeRun σ)
    (Stored : String → String → List (String × Bytes) → σ → Prop)
    (hcreate : ∀ o n d labels st, (w.CreateLabeledSecret o n d labels st).1 = none →
      Stored o n d (w.CreateLabeledSecret o n d labels st).2)
    (hget : ∀ o n d st, Stored o n d st →
      (∃ secret, (w.SecretGet o n st).1 = .found secret ∧ secret.Data = d) ∧
      Stored o n d (w.SecretGet o n st).2)
    (created : CustomService)
    (hok : (services.CreateCustomService w name org data s).1 = (some created, none)) :
    (created.Details w (services.CreateCustomService w name org data s).2).1
      = (some data, none) ∧
    ∃ found : CustomService,
      (services.CustomServiceLookup w org name
        (services.CreateCustomService w name org data s).2).1 = (some found, none) ∧
      (found.Details w (services.CustomServiceLookup w org name
        (services.CreateCustomService w name org data s).2).2).1 = (some data, none) := by
  obtain ⟨hcreated, labels, hnone, hworld⟩ := CreateCustomService_ok w name org data s
    created hok
  have hstored := hcreate _ _ _ _ _ hnone
  rw [← hworld] at hstored
  obtain ⟨⟨secret, hfound, hdata⟩, hkept⟩ := hget _ _ _ _ hstored
  subst hcreated
  constructor
  · rw [Details_found w _ _ secret hfound, hdata, (bytes_round_trip data).2]
  · refine ⟨_, by rw [CustomServiceLookup_found w org name _ secret hfound], ?_⟩
    rw [CustomServiceLookup_found w org name _ secret hfound]
    obtain ⟨⟨secret2, hfound2, hdata2⟩, -⟩ := hget _ _ _ _ hkept
    rw [Details_found w _ _ secret2 hfound2, hdata2, (bytes_round_trip data).2]

/-- Creating the custom service "cache" with two values on the example cluster and
reading its details back. -/
theorem Details_round_trip_witness :
    (services.CreateCustomService KubeCluster.world "cache" "workspace"
      [("user", "root"), ("password", "s3cr3t")]
      (KubeRun.start (kubeCluster [] true))).1
      = (some { SecretName := "service.org-workspace.svc-cache", OrgName := "workspace",
                Service := "cache" }, none) ∧
    (CustomService.Details KubeCluster.world
      { SecretName := "service.org-workspace.svc-cache", OrgName := "workspace",
        Service := "cache" }
      (services.CreateCustomService KubeCluster.world "cache" "workspace"
        [("user", "root"), ("password", "s3cr3t")]
        (KubeRun.start (kubeCluster [] true))).2).1
      = (some [("user", "root"), ("password", "s3cr3t")], none) :=
  ⟨by decide,
    (Details_round_trip KubeCluster.world "cache" "workspace"
      [("user", "root"), ("password", "s3cr3t")] (KubeRun.start (kubeCluster [] true))
      (fun o n d c => ∃ secret, c.secret o n = some secret ∧ secret.Data = d)
      (fun o n d labels c h => KubeCluster_stores o n d labels c h)
      (fun o n d c h => by
        obtain ⟨secret, hs, hd⟩ := h
        rw [KubeCluster_get o n c secret hs]
        exact ⟨⟨secret, rfl, hd⟩, secret, hs, hd⟩)
      { SecretName := "service.org-workspace.svc-cache", OrgName := "workspace",
        Service := "cache" } (by decide)).1⟩

/-! ## Claims on the inverse index -/

theorem invertedPairs_cons (a : Application) (bound : List Service)
    (pairs : List (Application × List Service)) (k : String) :
    invertedPairs ((a, bound) :: pairs) k
      = (bound.filter (fun b => b.Name = k)).map (fun _ => a) ++ invertedPairs pairs k := by
  simp [invertedPairs]

/-- No application is entered under a name exactly when no listed application binds a
service of that name. -/
theorem invertedPairs_eq_nil (pairs : List (Application × List Service)) (k : String) :
    invertedPairs pairs k = [] ↔ ¬ ∃ p ∈ pairs, ∃ b ∈ p.2, b.Name = k := by
  induction pairs with
  | nil => simp [invertedPairs]
  | cons p rest ih =>
    obtain ⟨a, bound⟩ := p
    rw [invertedPairs_cons, List.append_eq_nil, ih]
    simp only [List.map_eq_nil_iff, List.filter_eq_nil_iff, decide_eq_true_eq,
      List.mem_cons, exists_eq_or_imp, not_or, not_exists, not_and]

/-- What the outer loop of the inversion does, for every behaviour of `app.Services()`:
it either reads the services of every application, in order, and returns the map with
each application added under the names of its services, or it stops at the first read
that fails and returns that error. -/
theorem invertApps_spec (w : World σ) :
    ∀ (apps : List Application) (appsOf : AppsOf) (s : Run σ),
    (∃ m pairs, (invertApps w apps appsOf s).1 = .ok m ∧ pairs.map Prod.fst = apps ∧
      (invertApps w apps appsOf s).2.trace = s.trace ++ servicesRead pairs ∧
      ∀ k, m k = if invertedPairs pairs k = [] then appsOf k
                 else some ((appsOf k).getD [] ++ invertedPairs pairs k)) ∨
    (∃ err pairs a post, apps = pairs.map Prod.fst ++ a :: post ∧
      (invertApps w apps appsOf s).1 = .error err ∧
      (invertApps w apps appsOf s).2.trace
        = s.trace ++ servicesRead pairs ++ [Event.AppServices a (.error err)]) := by
  intro apps
  induction apps with
  | nil =>
    intro appsOf s
    left
    exact ⟨appsOf, [], by simp [invertApps], rfl, by simp [invertApps, servicesRead],
      by simp [invertedPairs]⟩
  | cons a rest ih =>
    intro appsOf s
    cases hres : (w.AppServices a s.world).1 with
    | error err =>
      right
      refine ⟨err, [], a, rest, rfl, ?_, ?_⟩
      · simp [invertApps, World.appServices, hres]
      · simp [invertApps, World.appServices, hres, Run.step, servicesRead]
    | ok bound =>
      have hstep : invertApps w (a :: rest) appsOf s
          = invertApps w rest (invertBound a bound appsOf)
              (s.step (Event.AppServices a (.ok bound)) (w.AppServices a s.world).2) := by
        simp [invertApps, World.appServices, hres]
      rw [hstep]
      rcases ih (invertBound a bound appsOf)
          (s.step (Event.AppServices a (.ok bound)) (w.AppServices a s.world).2) with
        ⟨m, pairs, hm, hfst, htr, hk⟩ | ⟨err, pairs, b, post, hsplit, herr, htr⟩
      · left
        refine ⟨m, (a, bound) :: pairs, hm, by simp [hfst], ?_, ?_⟩
        · rw [htr]
          simp [Run.step, servicesRead]
        · intro k
          rw [hk k, invertBound_apply, invertedPairs_cons]
          by_cases h1 : (bound.filter (fun b => b.Name = k)).map (fun _ => a) = []
          · rw [h1, if_pos rfl]
            simp
          · rw [if_neg h1]
            by_cases h2 : invertedPairs pairs k = []
            · rw [h2, if_pos rfl, List.append_nil, if_neg h1]
            · rw [if_neg h2, if_neg (by simp [h2])]
              simp
      · right
        refine ⟨err, (a, bound) :: pairs, b, post, by simp [hsplit], herr, ?_⟩
        rw [htr]
        simp [Run.step, servicesRead]

/-- The calls of `servicesToApps`, for every behaviour of the cluster.  Either
`application.List` fails, or some `app.Services()` fails, and then no map is returned but
that error, and no later application is read; or the services of every listed
application were read, in list order, and the map returned is the inverse of the lists
that were read. -/
theorem servicesToApps_calls (w : World σ) (org : String) (s : Run σ) :
    (∃ err, (servicesToApps w org s).1 = .error err ∧
      (servicesToApps w org s).2.trace = s.trace ++ [Event.AppList org (.error err)]) ∨
    (∃ err apps pairs a post, apps = pairs.map Prod.fst ++ a :: post ∧
      (servicesToApps w org s).1 = .error err ∧
      (servicesToApps w org s).2.trace
        = s.trace ++ [Event.AppList org (.ok apps)] ++ servicesRead pairs
          ++ [Event.AppServices a (.error err)]) ∨
    (∃ m pairs, (servicesToApps w org s).1 = .ok m ∧
      (servicesToApps w org s).2.trace
        = s.trace ++ [Event.AppList org (.ok (pairs.map Prod.fst))] ++ servicesRead pairs ∧
      (∀ k, m k = if invertedPairs pairs k = [] then none
                  else some (invertedPairs pairs k)) ∧
      (∀ k, (∃ l, m k = some l) ↔ ∃ p ∈ pairs, ∃ b ∈ p.2, b.Name = k) ∧
      (∀ k l, m k = some l → l ≠ [])) := by
  cases hres : (w.AppList org s.world).1 with
  | error err =>
    left
    exact ⟨err, by simp [servicesToApps, World.appList, hres],
      by simp [servicesToApps, World.appList, hres, Run.step]⟩
  | ok apps =>
    right
    have hstep : servicesToApps w org s
        = invertApps w apps AppsOf.empty
            (s.step (Event.AppList org (.ok apps)) (w.AppList org s.world).2) := by
      simp [servicesToApps, World.appList, hres]
    rw [hstep]
    rcases invertApps_spec w apps AppsOf.empty
        (s.step (Event.AppList org (.ok apps)) (w.AppList org s.world).2) with
      ⟨m, pairs, hm, hfst, htr, hk⟩ | ⟨err, pairs, a, post, hsplit, herr, htr⟩
    · right
      have hentry : ∀ k, m k = if invertedPairs pairs k = [] then none
          else some (invertedPairs pairs k) := by
        intro k
        rw [hk k]
        simp [AppsOf.empty]
      refine ⟨m, pairs, hm, ?_, hentry, ?_, ?_⟩
      · rw [htr, hfst]
        simp [Run.step]
      · intro k
        rw [hentry k, ← not_iff_not, ← invertedPairs_eq_nil]
        by_cases h : invertedPairs pairs k = [] <;> simp [h]
      · intro k l hl
        rw [hentry k] at hl
        by_cases h : invertedPairs pairs k = []
        · simp [h] at hl
        · rw [if_neg h] at hl
          simp only [Option.some.injEq] at hl
          rw [← hl]
          exact h
    · left
      refine ⟨err, apps, pairs, a, post, hsplit, herr, ?_⟩
      rw [htr]
      simp [Run.step]

/-- C28. `EpinioClient.ServicesToApps(org)` does not return the index of the
organization `org`: it returns the index that `servicesToApps` computes for the
organization of the client configuration, whatever `org` is.  On the example cluster,
with a client configured for "org", `ServicesToApps("other")` lists the applications of
"org" and returns their index (service "a" is bound by "web" and "worker"), while the
server-side `servicesToApps(cluster, "other")` lists the applications of "other" and
returns the empty index. -/
theorem ServicesToApps_ignores_org :
    (∀ (w : World Cluster) (c : EpinioClient) (org : String) (s : Run Cluster),
      EpinioClient.ServicesToApps w c org s = servicesToApps w c.ConfigOrg s) ∧
    AppsOf.entry (EpinioClient.ServicesToApps Cluster.world
        { ConfigOrg := "org", GiteaDomain := "example.org" } "other"
        (Run.start demoCluster)).1 "a"
      = some [app "web", app "worker"] ∧
    AppsOf.entry (servicesToApps Cluster.world "other" (Run.start demoCluster)).1 "a"
      = none ∧
    (EpinioClient.ServicesToApps Cluster.world
        { ConfigOrg := "org", GiteaDomain := "example.org" } "other"
        (Run.start demoCluster)).2.trace
      = [Event.AppList "org" (.ok [app "app", app "web", app "worker"]),
          Event.AppServices (app "app") (.ok []),
          Event.AppServices (app "web") (.ok [svc "a"]),
          Event.AppServices (app "worker") (.ok [svc "a", svc "b"])] ∧
    (servicesToApps Cluster.world "other" (Run.start demoCluster)).2.trace
      = [Event.AppList "other" (.ok [])] := by
  refine ⟨fun w c org s => rfl, ?_, ?_, ?_, ?_⟩ <;> decide

/-! ## The two phases of `ServicebindingsController.Create` -/

namespace ServicebindingsController

/-- A property of the cluster state that looking a service up keeps is kept by the
resolve loop. -/
theorem resolveLoop_keeps (w : World σ) (org : String) (P : σ → Prop)
    (hP : ∀ n st, P st → P (w.ServiceLookup org n st).2) :
    ∀ (names : List String) (theServices : List Service) (theIssues : APIErrors) (s : Run σ),
    P s.world → P (resolveLoop w org names theServices theIssues s).2.world := by
  intro names
  induction names with
  | nil =>
    intro theServices theIssues s h
    simpa [resolveLoop] using h
  | cons name rest ih =>
    intro theServices theIssues s h
    cases hres : (w.ServiceLookup org name s.world).1 with
    | ok service =>
      rw [resolveLoop_found w org name rest theServices theIssues s service hres]
      exact ih _ _ _ (hP name s.world h)
    | error err =>
      by_cases hne : err = "service not found"
      · subst hne
        rw [resolveLoop_notFound w org name rest theServices theIssues s hres]
        exact ih _ _ _ (hP name s.world h)
      · rw [resolveLoop_failed w org name rest theServices theIssues s err hres hne]
        exact hP name s.world h

/-- When the resolve loop ends with an error, `Create` ends there: it returns that error
list and the run is the run of the resolve loop. -/
theorem Create_aborted (w : World σ) (org appName : String) (req : BindRequest)
    (st0 st1 st2 st3 : σ) (app : Application)
    (hnames : req.Names ≠ []) (hempty : "" ∉ req.Names)
    (hc : w.GetCluster st0 = (none, st1))
    (ho : w.OrgExists org st1 = (.ok true, st2))
    (ha : w.AppLookup org appName st2 = (.ok (some app), st3))
    (errs : APIErrors)
    (herr : (resolveLoop w org req.Names [] []
      { world := st3, trace := preamble org appName app }).1 = .error errs) :
    Create w org appName (.decoded req) (Run.start st0)
      = (errs, (resolveLoop w org req.Names [] []
          { world := st3, trace := preamble org appName app }).2) := by
  rw [Create_reaches_loops w org appName req st0 st1 st2 st3 app hnames hempty hc ho ha]
  generalize resolveLoop w org req.Names [] []
    { world := st3, trace := preamble org appName app } = R at herr ⊢
  obtain ⟨R1, R2⟩ := R
  simp only at herr
  subst herr
  rfl

/-- When the resolve loop gets through all names, no lookup of the trace of `Create`
failed internally. -/
theorem Create_resolved (w : World σ) (org appName : String) (req : BindRequest)
    (st0 st1 st2 st3 : σ) (app : Application)
    (hnames : req.Names ≠ []) (hempty : "" ∉ req.Names)
    (hc : w.GetCluster st0 = (none, st1))
    (ho : w.OrgExists org st1 = (.ok true, st2))
    (ha : w.AppLookup org appName st2 = (.ok (some app), st3))
    (resolved : List Service × APIErrors)
    (hok : (resolveLoop w org req.Names [] []
      { world := st3, trace := preamble org appName app }).1 = .ok resolved) :
    lookupFailures (lookups (Create w org appName (.decoded req) (Run.start st0)).2.trace)
      = [] := by
  rcases Create_cases w org appName req st0 st1 st2 st3 app hnames hempty hc ho ha with
    ⟨init, n, e, post, hls, hn, hne, hfail, hbs, hres⟩ | ⟨-, hfail, -⟩ | ⟨-, hfail, -⟩
  · exfalso
    obtain ⟨ls, htr, hcase⟩ := resolveLoop_spec w org req.Names [] []
      { world := st3, trace := preamble org appName app }
    rcases hcase with ⟨-, hn2, hfail2⟩ | ⟨init2, n2, e2, post2, -, -, -, -, herr2⟩
    · -- all names were looked up without an internal failure: the trace of `Create`
      -- starts with these lookups, so its failed lookup is one of them
      rw [Create_reaches_loops w org appName req st0 st1 st2 st3 app hnames hempty hc ho ha]
        at hls
      generalize hR : resolveLoop w org req.Names [] []
        { world := st3, trace := preamble org appName app } = R at hok htr hls
      obtain ⟨R1, R2⟩ := R
      simp only at hok htr
      subst hok
      obtain ⟨theServices, theIssues⟩ := resolved
      obtain ⟨bs, htr2, -⟩ := bindLoop_spec w app theServices theIssues R2
      have hpre : ∀ t : List Event, (∃ t2, t = R2.trace ++ t2) →
          ∃ more, lookups t = ls ++ more := by
        rintro t ⟨t2, rfl⟩
        refine ⟨lookups t2, ?_⟩
        rw [lookups_append, htr, lookups_append, lookups_lookupEvents]
        rfl
      have hstarts : ∃ more, init ++ [(n, Except.error e)] = ls ++ more := by
        rw [← hls]
        apply hpre
        simp only
        generalize hB : bindLoop w app theServices theIssues R2 = B at htr2
        obtain ⟨B1, B2⟩ := B
        simp only at htr2
        cases B1 with
        | error errs => exact ⟨_, htr2⟩
        | ok issues =>
          simp only
          split
          · exact ⟨_, htr2⟩
          · simp only [World.write]
            split <;> rename_i hw <;>
              · have hw2 := congrArg (fun p => p.2.trace) hw
                simp only [Run.step] at hw2
                rw [← hw2, htr2]
                exact ⟨_, List.append_assoc _ _ _⟩
      obtain ⟨more, hmore⟩ := hstarts
      have hlen : ls.length = (init.map Prod.fst ++ n :: post).length := by
        rw [← hn, ← hn2, List.length_map]
      have hlen2 := congrArg List.length hmore
      simp only [List.length_append, List.length_cons, List.length_nil, List.length_map]
        at hlen hlen2
      have hmem : (n, Except.error e) ∈ ls := by
        have hget := congrArg (fun l => l[init.length]?) hmore
        simp only at hget
        rw [List.getElem?_append_right (le_refl _), Nat.sub_self,
          List.getElem?_append_left (by omega)] at hget
        exact List.getElem?_mem hget.symm
      exact hne (lookupFailures_nil_mem ls hfail2 n e hmem)
    · rw [herr2] at hok
      simp at hok
  · exact hfail
  · exact hfail

/-- C27. In `Create`, for a valid request that gets to the resolve loop, the resolution
phase completes before any bind: the trace splits into a first part without a bind and a
second part without a lookup; and when the lookup of a requested name fails with an
internal error, `app.Bind` has been called on no service at all, whatever was resolved
before, and what the cluster holds as bound services (`Bound`, any reading of the
cluster state that the calls other than `app.Bind` leave as it is) is the same after the
request as before it. -/
theorem Create_resolves_before_binding (w : World σ) (org appName : String)
    (req : BindRequest) (st0 st1 st2 st3 : σ) (app : Application)
    (hnames : req.Names ≠ []) (hempty : "" ∉ req.Names)
    (hc : w.GetCluster st0 = (none, st1))
    (ho : w.OrgExists org st1 = (.ok true, st2))
    (ha : w.AppLookup org appName st2 = (.ok (some app), st3))
    {β : Type} (Bound : σ → β)
    (hcluster : ∀ st, Bound (w.GetCluster st).2 = Bound st)
    (horg : ∀ o st, Bound (w.OrgExists o st).2 = Bound st)
    (happ : ∀ o a st, Bound (w.AppLookup o a st).2 = Bound st)
    (hlookup : ∀ o n st, Bound (w.ServiceLookup o n st).2 = Bound st) :
    (∃ pre post, (Create w org appName (.decoded req) (Run.start st0)).2.trace = pre ++ post ∧
      binds pre = [] ∧ lookups post = []) ∧
    (∀ n e, (n, Except.error e) ∈
        lookups (Create w org appName (.decoded req) (Run.start st0)).2.trace →
      e ≠ "service not found" →
      binds (Create w org appName (.decoded req) (Run.start st0)).2.trace = [] ∧
      Bound (Create w org appName (.decoded req) (Run.start st0)).2.world = Bound st0) := by
  constructor
  · obtain ⟨ls, bs, tail, htr, hcase⟩ :=
      Create_spec w org appName req st0 st1 st2 st3 app hnames hempty hc ho ha
    have htail : lookups tail = [] := by
      rcases hcase with ⟨_, _, _, _, _, _, _, _, _, ht, _⟩ |
        ⟨_, _, _, _, _, _, _, _, _, _, ht, _⟩ | ⟨_, _, _, _, hlast⟩
      · rw [ht]; rfl
      · rw [ht]; rfl
      · rcases hlast with ⟨_, ht, _⟩ | ⟨_, r, ht, _⟩
        · rw [ht]; rfl
        · rw [ht]; rfl
    refine ⟨preamble org appName app ++ ls.map (fun p => Event.ServiceLookup org p.1 p.2),
      bs.map (fun p => Event.Bind app p.1 p.2) ++ tail, ?_, ?_, ?_⟩
    · rw [htr]
      simp only [List.append_assoc]
    · rw [binds_append, binds_lookupEvents]
      rfl
    · rw [lookups_append, lookups_bindEvents, htail]
      rfl
  · intro n e hmem hne
    have hst3 : Bound st3 = Bound st0 := by
      have h1 := hcluster st0
      have h2 := horg org st1
      have h3 := happ org appName st2
      rw [hc] at h1
      rw [ho] at h2
      rw [ha] at h3
      simp only at h1 h2 h3
      rw [h3, h2, h1]
    cases hres : (resolveLoop w org req.Names [] []
        { world := st3, trace := preamble org appName app }).1 with
    | ok resolved =>
      exact absurd (lookupFailures_nil_mem _
        (Create_resolved w org appName req st0 st1 st2 st3 app hnames hempty hc ho ha
          resolved hres) n e hmem) hne
    | error errs =>
      rw [Create_aborted w org appName req st0 st1 st2 st3 app hnames hempty hc ho ha errs
        hres]
      obtain ⟨ls, htr, -⟩ := resolveLoop_spec w org req.Names [] []
        { world := st3, trace := preamble org appName app }
      constructor
      · simp only
        rw [htr, binds_append, binds_lookupEvents]
        rfl
      · exact resolveLoop_keeps w org (fun st => Bound st = Bound st0)
          (fun n st h => (hlookup org n st).trans h) req.Names [] []
          { world := st3, trace := preamble org appName app } hst3

/-- On the cluster where service "b" is unreachable, binding "a" and "b" to "app": "a" is
resolved, the lookup of "b" fails, nothing is bound, "a" included, and the cluster is as
it was. -/
theorem Create_resolves_before_binding_witness :
    lookups (Create Cluster.world "org" "app" (.decoded ⟨["a", "b"]⟩)
        (Run.start brokenCluster)).2.trace
      = [("a", .ok (svc "a")), ("b", .error "cluster unreachable")] ∧
    (Create Cluster.world "org" "app" (.decoded ⟨["a", "b"]⟩)
        (Run.start brokenCluster)).2.world = brokenCluster ∧
    (binds (Create Cluster.world "org" "app" (.decoded ⟨["a", "b"]⟩)
        (Run.start brokenCluster)).2.trace = [] ∧
      (Create Cluster.world "org" "app" (.decoded ⟨["a", "b"]⟩)
        (Run.start brokenCluster)).2.world.apps = brokenCluster.apps) :=
  ⟨by decide, by decide,
    (Create_resolves_before_binding Cluster.world "org" "app" ⟨["a", "b"]⟩
      brokenCluster brokenCluster brokenCluster brokenCluster (Carrier.app "app")
      (by decide) (by decide) rfl (by decide) (by decide)
      (fun c => c.apps) (fun _ => rfl) (fun _ _ => rfl) (fun _ _ _ => rfl)
      (fun _ _ _ => rfl)).2 "b" "cluster unreachable" (by decide) (by decide)⟩

end ServicebindingsController

/-! ## Claims on the identity of a staging run -/

theorem stageResponses_append (a b : List StageEvent) :
    stageResponses (a ++ b) = stageResponses a ++ stageResponses b := by
  simp [stageResponses, List.filterMap_append]

/-- The text of the selector of the admission guard is the text `Stage` lists with. -/
theorem guardSelector_render (app : AppRef) :
    LabelSelector.render (guardSelector app) = stageSelector app := by
  have h1 : "app.kubernetes.io/name" ++ "=" = "app.kubernetes.io/name=" := by decide
  have h2 : "," ++ ("app.kubernetes.io/part-of" ++ "=") = ",app.kubernetes.io/part-of=" := by
    decide
  simp only [LabelSelector.render, guardSelector, stageSelector]
  rw [h1, ← h2]
  simp only [String.append_assoc]

/-- The text of the selector of `WaitUntilStaged` is the text its poll lists with. -/
theorem waitSelector_render (label stageId : String) :
    LabelSelector.render (waitSelector label stageId) = label ++ "=" ++ stageId := rfl

theorem createdRuns_step (s : StageRun σ) (ev : StageEvent) (st : σ) :
    createdRuns (s.step ev st).trace = createdRuns s.trace ++ createdRuns [ev] := by
  simp [StageRun.step, createdRuns_append]

theorem stageResponses_step (s : StageRun σ) (ev : StageEvent) (st : σ) :
    stageResponses (s.step ev st).trace = stageResponses s.trace ++ stageResponses [ev] := by
  simp [StageRun.step, stageResponses_append]

/-- Writing a response creates no run and writes at most that response. -/
theorem jsonResponse_responses (w : StageWorld σ) (response : StageResponse)
    (s : StageRun σ) :
    stageResponses (jsonResponse w response s).2.trace = stageResponses s.trace ∨
    stageResponses (jsonResponse w response s).2.trace
      = stageResponses s.trace ++ [response] := by
  unfold jsonResponse
  split
  · left; rfl
  · right
    rw [stageResponses_step]
    rfl

namespace ApplicationsController

/-- The runs `createRun` creates are the run `newPipelineRun` builds for the uid, and
the responses it writes carry the uid. -/
theorem createRun_emits (w : StageWorld σ) (uid : String) (app : App) (s5 : StageRun σ)
    (h0 : createdRuns s5.trace = []) (h1 : stageResponses s5.trace = []) :
    (∀ pr ∈ createdRuns (createRun w uid app s5).2.trace,
      newPipelineRun w uid app = some pr) ∧
    (∀ resp ∈ stageResponses (createRun w uid app s5).2.trace, resp.Stage = uid) := by
  unfold createRun
  cases hnp : newPipelineRun w uid app with
  | none => simp [h0, h1]
  | some pr0 =>
    simp only
    repeat' split
    all_goals
      constructor
      · intro pr hpr
        try rw [(jsonResponse_trace w _ _).1] at hpr
        simp only [createdRuns_step, h0] at hpr
        simp [createdRuns] at hpr
        rw [hpr]
      · intro resp hresp
        first
          | (rcases jsonResponse_responses w { Stage := uid } _ with hj | hj
             all_goals
               rw [hj] at hresp
               simp only [stageResponses_step, h1] at hresp
               simp [stageResponses] at hresp
               try (rw [hresp]))
          | (simp only [stageResponses_step, h1] at hresp
             simp [stageResponses] at hresp)

/-- The runs the second half of `Stage` creates are runs `newPipelineRun` builds for the
uid and the application of the request, and the responses it writes carry the uid. -/
theorem stageRun_emits (w : StageWorld σ) (req : StageRequest) (uid : String)
    (s4 : StageRun σ)
    (h0 : createdRuns s4.trace = []) (h1 : stageResponses s4.trace = []) :
    (∀ pr ∈ createdRuns (stageRun w req uid s4).2.trace,
      ∃ instances, newPipelineRun w uid
        { AppRef := req.App, Git := req.Git, Route := req.Route, Instances := instances }
        = some pr) ∧
    (∀ resp ∈ stageResponses (stageRun w req uid s4).2.trace, resp.Stage = uid) := by
  unfold stageRun
  cases hi : req.Instances with
  | some n =>
    simp only
    obtain ⟨hr, hs⟩ := createRun_emits w uid
      { AppRef := req.App, Git := req.Git, Route := req.Route, Instances := int32 n } s4 h0 h1
    exact ⟨fun pr hpr => ⟨_, hr pr hpr⟩, hs⟩
  | none =>
    simp only
    have hd0 : createdRuns (existingReplica w req.App s4).2.trace = [] := by
      unfold existingReplica
      simp only
      split <;> (rw [createdRuns_step, h0]; rfl)
    have hd1 : stageResponses (existingReplica w req.App s4).2.trace = [] := by
      unfold existingReplica
      simp only
      split <;> (rw [stageResponses_step, h1]; rfl)
    generalize existingReplica w req.App s4 = R at hd0 hd1
    obtain ⟨R1, R2⟩ := R
    cases R1 with
    | error err => simp only at hd0 hd1 ⊢; simp [hd0, hd1]
    | ok instances =>
      simp only at hd0 hd1 ⊢
      obtain ⟨hr, hs⟩ := createRun_emits w uid
        { AppRef := req.App, Git := req.Git, Route := req.Route, Instances := instances }
        R2 hd0 hd1
      exact ⟨fun pr hpr => ⟨_, hr pr hpr⟩, hs⟩

/-- Every run that `Stage` creates is a run `newPipelineRun` builds for the application
of the request, under a uid that every response `Stage` writes carries. -/
theorem Stage_emits (w : StageWorld σ) (name : String) (body : Body StageRequest)
    (st0 : σ) :
    ∀ pr ∈ createdRuns (Stage w name body (StageRun.start st0)).2.trace,
      ∃ req uid instances, body = .decoded req ∧
        newPipelineRun w uid
          { AppRef := req.App, Git := req.Git, Route := req.Route, Instances := instances }
          = some pr ∧
        ∀ resp ∈ stageResponses (Stage w name body (StageRun.start st0)).2.trace,
          resp.Stage = uid := by
  intro pr hpr
  cases body with
  | readError err => simp [Stage, StageRun.start, createdRuns] at hpr
  | unmarshalError err => simp [Stage, StageRun.start, createdRuns] at hpr
  | decoded req =>
    by_cases hname : name = req.App.Name
    swap
    · simp [Stage, hname, StageRun.start, createdRuns] at hpr
    by_cases hneg : req.Instances.any (fun n => decide (n < 0)) = true
    · simp [Stage, hname, hneg, StageRun.start, createdRuns] at hpr
    cases hc : (w.GetCluster st0).1 with
    | some err =>
      simp [Stage, hname, hneg, hc, StageRun.start, StageRun.step, createdRuns] at hpr
    | none =>
      cases ht : (w.NewForConfig (w.GetCluster st0).2).1 with
      | some err =>
        simp [Stage, hname, hneg, hc, ht, StageRun.start, StageRun.step, createdRuns] at hpr
      | none =>
        cases hu : (w.Hex16 (w.NewForConfig (w.GetCluster st0).2).2).1 with
        | error err =>
          simp [Stage, hname, hneg, hc, ht, hu, StageRun.start, StageRun.step, createdRuns]
            at hpr
        | ok uid =>
          cases hl : (w.PipelineRunList (stageSelector req.App)
              (w.Hex16 (w.NewForConfig (w.GetCluster st0).2).2).2).1 with
          | error err =>
            simp [Stage, hname, hneg, hc, ht, hu, hl, StageRun.start, StageRun.step,
              createdRuns] at hpr
          | ok items =>
            by_cases hany : items.any (fun pr => pr.CompletionTime.isNone) = true
            · simp [Stage, hname, hneg, hc, ht, hu, hl, hany, StageRun.start, StageRun.step,
                createdRuns] at hpr
            · have hrun : Stage w name (.decoded req) (StageRun.start st0)
                  = stageRun w req uid
                      { world := (w.PipelineRunList (stageSelector req.App)
                          (w.Hex16 (w.NewForConfig (w.GetCluster st0).2).2).2).2,
                        trace := [StageEvent.GetCluster none, StageEvent.NewForConfig none,
                          StageEvent.Hex16 (.ok uid),
                          StageEvent.PipelineRunList (stageSelector req.App) (.ok items)] } := by
                simp [Stage, hname, hneg, hc, ht, hu, hl, hany, StageRun.start, StageRun.step]
              rw [hrun] at hpr ⊢
              obtain ⟨hr, hs⟩ := stageRun_emits w req uid
                { world := (w.PipelineRunList (stageSelector req.App)
                    (w.Hex16 (w.NewForConfig (w.GetCluster st0).2).2).2).2,
                  trace := [StageEvent.GetCluster none, StageEvent.NewForConfig none,
                    StageEvent.Hex16 (.ok uid),
                    StageEvent.PipelineRunList (stageSelector req.App) (.ok items)] }
                rfl rfl
              obtain ⟨instances, hi⟩ := hr pr hpr
              exact ⟨req, uid, instances, rfl, hi, hs⟩

/-- The name, labels and stage-id parameter of a run `newPipelineRun` built. -/
theorem newPipelineRun_labels (w : StageWorld σ) (uid : String) (app : App)
    (pr : PipelineRun) (h : newPipelineRun w uid app = some pr)
    (hkey : w.EpinioStageIDLabel ≠ "app.kubernetes.io/name" ∧
      w.EpinioStageIDLabel ≠ "app.kubernetes.io/part-of") :
    pr.Name = uid ∧ pr.labelValue w.EpinioStageIDLabel = some uid ∧
    pr.param "STAGE_ID" = some uid ∧
    pr.labelValue "app.kubernetes.io/name" = some app.AppRef.Name ∧
    pr.labelValue "app.kubernetes.io/part-of" = some app.AppRef.Org ∧
    pr.matchedBy (guardSelector app.AppRef) ∧
    pr.matchedBy (waitSelector w.EpinioStageIDLabel uid) := by
  have hk1 : ¬ "app.kubernetes.io/name" = w.EpinioStageIDLabel := fun e => hkey.1 e.symm
  have hk2 : ¬ "app.kubernetes.io/part-of" = w.EpinioStageIDLabel := fun e => hkey.2 e.symm
  unfold newPipelineRun at h
  cases hg : app.Git with
  | none => simp [hg] at h
  | some git =>
    simp only [hg, Option.some.injEq] at h
    subst h
    have hid : PipelineRun.labelValue
        { Name := uid
          Labels := [
            ("app.kubernetes.io/name", app.AppRef.Name),
            ("app.kubernetes.io/part-of", app.AppRef.Org),
            (w.EpinioStageIDLabel, uid),
            ("app.kubernetes.io/managed-by", "epinio"),
            ("app.kubernetes.io/component", "staging")]
          ServiceAccountName := "staging-triggers-admin"
          PipelineRef := "staging-pipeline"
          Params := [
            ("APP_NAME", app.AppRef.Name),
            ("ORG", app.AppRef.Org),
            ("ROUTE", app.Route),
            ("INSTANCES", toString app.Instances),
            ("APP_IMAGE", w.ImageURL app RegistryURL),
            ("DEPLOYMENT_IMAGE", w.ImageURL app w.LocalRegistry),
            ("STAGE_ID", uid)]
          Workspaces := [("source", "1Gi")]
          Resources := [("source-repo",
            [("revision", git.Revision), ("url", w.GitURL app w.GiteaURL)])]
          Conditions := []
          CompletionTime := none } w.EpinioStageIDLabel = some uid := by
      simp [PipelineRun.labelValue, List.find?, hk1, hk2]
    refine ⟨rfl, hid, ?_, ?_, ?_, ?_, ?_⟩
    · simp [PipelineRun.param, List.find?]
    · simp [PipelineRun.labelValue, List.find?]
    · simp [PipelineRun.labelValue, List.find?]
    · intro r hr
      simp only [guardSelector, List.mem_cons, List.mem_singleton, List.not_mem_nil,
        or_false] at hr
      rcases hr with rfl | rfl
      · simp [PipelineRun.labelValue, List.find?]
      · simp [PipelineRun.labelValue, List.find?]
    · intro r hr
      simp only [waitSelector, List.mem_singleton] at hr
      subst hr
      exact hid

/-- C26. For every uid and every application with a git reference, the pipeline run that
`newPipelineRun` builds carries the uid as its name, as its stage-id label
(`models.EpinioStageIDLabel`, a label key other than the two application labels) and as
its STAGE_ID parameter, and carries the name and the organization of the application in
the labels app.kubernetes.io/name and app.kubernetes.io/part-of.  Hence every run that
`Stage` creates is matched by the selector of the admission guard for the application of
the request, whose text is the text `Stage` lists with, and by the selector of
`WaitUntilStaged` for the stage id of every response `Stage` writes. -/
theorem newPipelineRun_carries_identity (w : StageWorld σ) (uid : String) (app : App)
    (git : GitRef) (hgit : app.Git = some git)
    (hkey : w.EpinioStageIDLabel ≠ "app.kubernetes.io/name" ∧
      w.EpinioStageIDLabel ≠ "app.kubernetes.io/part-of") :
    (∃ pr, newPipelineRun w uid app = some pr ∧
      pr.Name = uid ∧ pr.labelValue w.EpinioStageIDLabel = some uid ∧
      pr.param "STAGE_ID" = some uid ∧
      pr.labelValue "app.kubernetes.io/name" = some app.AppRef.Name ∧
      pr.labelValue "app.kubernetes.io/part-of" = some app.AppRef.Org ∧
      pr.matchedBy (guardSelector app.AppRef) ∧
      pr.matchedBy (waitSelector w.EpinioStageIDLabel uid)) ∧
    (LabelSelector.render (guardSelector app.AppRef) = stageSelector app.AppRef ∧
      LabelSelector.render (waitSelector w.EpinioStageIDLabel uid)
        = w.EpinioStageIDLabel ++ "=" ++ uid) ∧
    (∀ (name : String) (body : Body StageRequest) (st0 : σ),
      ∀ pr ∈ createdRuns (Stage w name body (StageRun.start st0)).2.trace,
        ∃ req, body = .decoded req ∧ pr.matchedBy (guardSelector req.App) ∧
          ∀ resp ∈ stageResponses (Stage w name body (StageRun.start st0)).2.trace,
            pr.Name = resp.Stage ∧
            pr.matchedBy (waitSelector w.EpinioStageIDLabel resp.Stage)) := by
  refine ⟨?_, ⟨guardSelector_render app.AppRef, rfl⟩, ?_⟩
  · have hsome : ∃ pr, newPipelineRun w uid app = some pr := by
      simp [newPipelineRun, hgit]
    obtain ⟨pr, hpr⟩ := hsome
    exact ⟨pr, hpr, newPipelineRun_labels w uid app pr hpr hkey⟩
  · intro name body st0 pr hpr
    obtain ⟨req, uid2, instances, hbody, hnew, hresp⟩ := Stage_emits w name body st0 pr hpr
    obtain ⟨hn, -, -, -, -, hguard, hwait⟩ := newPipelineRun_labels w uid2 _ pr hnew hkey
    refine ⟨req, hbody, hguard, ?_⟩
    intro resp hr
    rw [hresp resp hr]
    exact ⟨hn, hwait⟩

/-- Staging "web" on the example cluster: the run created is the run of uid "run2"; the
listing of the admission guard for "web" returns it, and so does the listing of
`WaitUntilStaged` for the stage id "run2" that `Stage` answered with. -/
theorem newPipelineRun_carries_identity_witness :
    stageResponses (Stage StageCluster.world "web" (.decoded demoStageRequest)
      (StageRun.start (stagingCluster (some 3)))).2.trace = [{ Stage := "run2" }] ∧
    (createdRuns (Stage StageCluster.world "web" (.decoded demoStageRequest)
      (StageRun.start (stagingCluster (some 3)))).2.trace).map (fun pr => pr.Name)
      = ["run2"] ∧
    ((StageCluster.world.PipelineRunList (stageSelector { Name := "web", Org := "org" })
      (Stage StageCluster.world "web" (.decoded demoStageRequest)
        (StageRun.start (stagingCluster (some 3)))).2.world).1.toOption.getD []).map
          (fun pr => pr.Name) = ["run1", "run2"] ∧
    ((StageCluster.waitWorld.PipelineRunList ("epinio.suse.org/stage-id" ++ "=" ++ "run2")
      (Stage StageCluster.world "web" (.decoded demoStageRequest)
        (StageRun.start (stagingCluster (some 3)))).2.world).1.toOption.getD []).map
          (fun pr => pr.Name) = ["run2"] ∧
    (∃ pr, newPipelineRun StageCluster.world "run2"
        { AppRef := { Name := "web", Org := "org" },
          Git := some { Revision := "main", URL := "http://gitea.example.org/org/web" },
          Route := "web.example.org", Instances := 2 } = some pr ∧
      pr.Name = "run2" ∧
      pr.labelValue StageCluster.world.EpinioStageIDLabel = some "run2" ∧
      pr.param "STAGE_ID" = some "run2" ∧
      pr.labelValue "app.kubernetes.io/name" = some "web" ∧
      pr.labelValue "app.kubernetes.io/part-of" = some "org" ∧
      pr.matchedBy (guardSelector { Name := "web", Org := "org" }) ∧
      pr.matchedBy (waitSelector StageCluster.world.EpinioStageIDLabel "run2")) :=
  ⟨by decide, by decide, by decide, by decide,
    (newPipelineRun_carries_identity StageCluster.world "run2"
      { AppRef := { Name := "web", Org := "org" },
        Git := some { Revision := "main", URL := "http://gitea.example.org/org/web" },
        Route := "web.example.org", Instances := 2 }
      { Revision := "main", URL := "http://gitea.example.org/org/web" } rfl
      ⟨by decide, by decide⟩).1⟩

end ApplicationsController

/-! ## Claims on `EpinioClient.Push` -/

/-- Once the webhooks of the repository could be listed, `createRepoWebhook` returns no
error, whatever `CreateRepoHook` returned. -/
theorem createRepoWebhook_discards (w : PushWorld σ) (c : EpinioClient) (name : String)
    (s : PushRun σ) (hooks : List Hook)
    (h : (w.ListRepoHooks c.ConfigOrg name s.world).1 = .ok hooks) :
    (EpinioClient.createRepoWebhook w c name s).1 = none := by
  unfold EpinioClient.createRepoWebhook
  simp only [h]
  split <;> rfl

/-- C24. A failure to create the repository webhook does not make `Push` fail.  On a
repository service that refuses to create webhooks, the push of "web" calls
`CreateRepoHook`, which fails; `createRepoWebhook` returns no error, every later step
runs (code preparation, certificate, git push, log tail, wait for the application), and
`Push` returns nil: the code is pushed to a repository without the webhook. -/
theorem Push_ignores_webhook_failure :
    (EpinioClient.Push PushCluster.world pushClient "web" "/src/web"
      (PushRun.start (pushCluster true))).1 = .returned none ∧
    hookCreations (EpinioClient.Push PushCluster.world pushClient "web" "/src/web"
      (PushRun.start (pushCluster true))).2.trace = [some "hook creation refused"] ∧
    (EpinioClient.Push PushCluster.world pushClient "web" "/src/web"
      (PushRun.start (pushCluster true))).2.trace
      = [PushEvent.GetOrg "workspace" { StatusCode := some 200, err := none },
          PushEvent.GetRepo "workspace" "web"
            { StatusCode := some 404, err := some "repository not found" },
          PushEvent.CreateOrgRepo "workspace"
            { Name := "web", AutoInit := true, Private := true, DefaultBranch := "main" } none,
          PushEvent.ListRepoHooks "workspace" "web" (.ok []),
          PushEvent.CreateRepoHook "workspace" "web" (stagingHook PushCluster.world)
            (some "hook creation refused"),
          PushEvent.PrepareCode "web" "web.example.org" "workspace" "/src/web"
            (.ok "/tmp/epinio-app-web"),
          PushEvent.ProductionCertificate "web" "example.org" none,
          PushEvent.GitPush "web" "/tmp/epinio-app-web" none,
          PushEvent.Logs "web" "workspace" none,
          PushEvent.WaitForApp "workspace" "web" none,
          PushEvent.StopLogs,
          PushEvent.RemoveAll "/tmp/epinio-app-web"] ∧
    (EpinioClient.Push PushCluster.world pushClient "web" "/src/web"
      (PushRun.start (pushCluster true))).2.world.hooks = [] ∧
    (EpinioClient.Push PushCluster.world pushClient "web" "/src/web"
      (PushRun.start (pushCluster true))).2.world.pushed = ["web"] := by
  refine ⟨?_, ?_, ?_, ?_, ?_⟩ <;> decide

/-! ## What `Merge`, `GetBool` and `GetInt` compute -/

theorem OptMap_get_set (m : OptMap) (key : String) (opt : InstallationOption) (k : String) :
    (m.set key opt).get k = if k = key then some opt else m.get k := by
  induction m with
  | nil =>
    by_cases h : k = key
    · simp [OptMap.set, OptMap.get, h]
    · have h2 : ¬ key = k := fun e => h e.symm
      simp [OptMap.set, OptMap.get, h, h2]
  | cons e rest ih =>
    obtain ⟨k0, v0⟩ := e
    by_cases h0 : k0 = key
    · subst h0
      by_cases h : k = k0
      · simp [OptMap.set, OptMap.get, h]
      · have h2 : ¬ k0 = k := fun e => h e.symm
        simp [OptMap.set, OptMap.get, h, h2]
    · have hset : OptMap.set ((k0, v0) :: rest) key opt = (k0, v0) :: OptMap.set rest key opt := by
        simp [OptMap.set, h0]
      rw [hset]
      by_cases h : k0 = k
      · subst h
        have h3 : ¬ k0 = key := h0
        simp [OptMap.get, h3]
      · have hget : ∀ l : OptMap, OptMap.get ((k0, v0) :: l) k = OptMap.get l k := by
          intro l
          simp [OptMap.get, List.find?, h]
        rw [hget, hget, ih]

theorem OptMap_keys_set (m : OptMap) (key : String) (opt : InstallationOption) :
    (m.set key opt).map Prod.fst
      = if key ∈ m.map Prod.fst then m.map Prod.fst else m.map Prod.fst ++ [key] := by
  induction m with
  | nil => simp [OptMap.set]
  | cons e rest ih =>
    obtain ⟨k0, v0⟩ := e
    by_cases h0 : k0 = key
    · subst h0
      simp [OptMap.set]
    · have h1 : ¬ key = k0 := fun e => h0 e.symm
      simp only [OptMap.set, h0, if_false, List.map_cons, ih, List.mem_cons, h1, false_or]
      split <;> simp

/-- A map in which every entry stands under the key of its option, with no key twice. -/
theorem OptMap_set_keeps (m : OptMap) (opt : InstallationOption)
    (hkey : ∀ e ∈ m, e.2.ToOptMapKey = e.1) (hnodup : (m.map Prod.fst).Nodup) :
    (∀ e ∈ m.set opt.ToOptMapKey opt, e.2.ToOptMapKey = e.1) ∧
    ((m.set opt.ToOptMapKey opt).map Prod.fst).Nodup := by
  constructor
  · clear hnodup
    induction m with
    | nil =>
      intro e he
      simp only [OptMap.set, List.mem_singleton] at he
      subst he
      rfl
    | cons e0 rest ih =>
      obtain ⟨k0, v0⟩ := e0
      intro e he
      by_cases h0 : k0 = opt.ToOptMapKey
      · simp only [OptMap.set, h0, if_true, List.mem_cons] at he
        rcases he with rfl | he
        · rfl
        · exact hkey e (List.mem_cons_of_mem _ he)
      · simp only [OptMap.set, h0, if_false, List.mem_cons] at he
        rcases he with rfl | he
        · exact hkey _ (List.mem_cons_self _ _)
        · exact ih (fun x hx => hkey x (List.mem_cons_of_mem _ hx)) e he
  · rw [OptMap_keys_set]
    split
    · exact hnodup
    · rename_i hnot
      rw [List.nodup_append]
      refine ⟨hnodup, List.nodup_singleton _, ?_⟩
      intro a ha hb
      rw [List.mem_singleton] at hb
      subst hb
      exact hnot ha

/-- The loop of assignments keeps the shape of the map, and leaves under each key the
last option of the list with that key, or else what the map held. -/
theorem assignAll_spec :
    ∀ (opts : List InstallationOption) (m : OptMap),
    (∀ e ∈ m, e.2.ToOptMapKey = e.1) → (m.map Prod.fst).Nodup →
    (∀ e ∈ InstallationOptions.assignAll opts m, e.2.ToOptMapKey = e.1) ∧
    ((InstallationOptions.assignAll opts m).map Prod.fst).Nodup ∧
    ∀ k, (InstallationOptions.assignAll opts m).get k
      = match opts.reverse.find? (fun o => o.ToOptMapKey = k) with
        | some o => some o
        | none => m.get k := by
  intro opts
  induction opts with
  | nil =>
    intro m hkey hnodup
    exact ⟨hkey, hnodup, fun k => by simp [InstallationOptions.assignAll]⟩
  | cons o rest ih =>
    intro m hkey hnodup
    obtain ⟨hk2, hn2⟩ := OptMap_set_keeps m o hkey hnodup
    obtain ⟨hk3, hn3, hget⟩ := ih (m.set o.ToOptMapKey o) hk2 hn2
    refine ⟨hk3, hn3, ?_⟩
    intro k
    have hstep : InstallationOptions.assignAll (o :: rest) m
        = InstallationOptions.assignAll rest (m.set o.ToOptMapKey o) := rfl
    rw [hstep, hget k, List.reverse_cons, List.find?_append, OptMap_get_set]
    cases hrest : rest.reverse.find? (fun x => x.ToOptMapKey = k) with
    | some x => simp
    | none =>
      by_cases hk : o.ToOptMapKey = k
      · simp [hk]
      · have hk2 : ¬ k = o.ToOptMapKey := fun e => hk e.symm
        simp [hk, hk2]

/-- The values of a well-shaped map that stand under a key: the entry of the key, once. -/
theorem OptMap_values_of_key (k : String) :
    ∀ m : OptMap, (∀ e ∈ m, e.2.ToOptMapKey = e.1) → (m.map Prod.fst).Nodup →
    (m.map Prod.snd).filter (fun o => o.ToOptMapKey = k) = (m.get k).toList := by
  intro m
  induction m with
  | nil => intro _ _; rfl
  | cons e rest ih =>
    obtain ⟨k0, v0⟩ := e
    intro hkey hnodup
    have hv0 : v0.ToOptMapKey = k0 := hkey (k0, v0) (List.mem_cons_self _ _)
    have hrestkey : ∀ x ∈ rest, x.2.ToOptMapKey = x.1 :=
      fun x hx => hkey x (List.mem_cons_of_mem _ hx)
    rw [List.map_cons, List.nodup_cons] at hnodup
    have hrest := ih hrestkey hnodup.2
    by_cases h : k0 = k
    · subst h
      have hnone : OptMap.get rest k0 = none := by
        simp only [OptMap.get, Option.map_eq_none', List.find?_eq_none]
        intro x hx hxk
        apply hnodup.1
        rw [List.mem_map]
        exact ⟨x, hx, by simpa using hxk⟩
      rw [hnone] at hrest
      simp only [List.map_cons, List.filter_cons, hv0, decide_True, if_true, hrest]
      simp [OptMap.get]
    · have hv : ¬ v0.ToOptMapKey = k := by rw [hv0]; exact h
      simp only [List.map_cons, List.filter_cons, hv, decide_False, Bool.false_eq_true,
        if_false, hrest]
      simp [OptMap.get, List.find?, h]

/-- What `Merge` returns, key by key: for every map key, the result holds the last
option of `opts` followed by `toMerge` with that key, once, and no other option with that
key.  Options of distinct (Name, DeploymentID) pairs with one key are therefore merged
into one. -/
theorem Merge_one_per_key (opts toMerge : InstallationOptions) (k : String) :
    (InstallationOptions.Merge opts toMerge).filter (fun o => o.ToOptMapKey = k)
      = ((opts ++ toMerge).reverse.find? (fun o => o.ToOptMapKey = k)).toList := by
  obtain ⟨hk1, hn1, hg1⟩ := assignAll_spec opts [] (by simp) (by simp)
  obtain ⟨hk2, hn2, hg2⟩ := assignAll_spec toMerge (InstallationOptions.assignAll opts [])
    hk1 hn1
  have hm : InstallationOptions.Merge opts toMerge
      = (InstallationOptions.assignAll toMerge (InstallationOptions.assignAll opts [])).map
          Prod.snd := rfl
  rw [hm, OptMap_values_of_key k _ hk2 hn2, hg2 k, hg1 k, List.reverse_append,
    List.find?_append]
  cases toMerge.reverse.find? (fun o => o.ToOptMapKey = k) with
  | some o => rfl
  | none =>
    cases opts.reverse.find? (fun o => o.ToOptMapKey = k) with
    | some o => rfl
    | none => rfl

/-- `GetBool` fails exactly when no option has that name and that deployment, global
options notwithstanding; its error is then `<name> not set`. -/
theorem GetBool_error_iff (optionName deploymentID : String) :
    ∀ (opts : InstallationOptions) (e : String),
    InstallationOptions.GetBool opts optionName deploymentID = .error e ↔
      (∀ o ∈ opts, ¬ (o.Name = optionName ∧ o.DeploymentID = deploymentID)) ∧
      e = optionName ++ " not set" := by
  intro opts
  induction opts with
  | nil =>
    intro e
    simp only [InstallationOptions.GetBool, Got.error.injEq, List.not_mem_nil,
      false_implies, implies_true, true_and]
    exact eq_comm
  | cons a rest ih =>
    intro e
    by_cases ha : a.Name = optionName ∧ a.DeploymentID = deploymentID
    · have hno : InstallationOptions.GetBool (a :: rest) optionName deploymentID ≠ .error e := by
        simp only [InstallationOptions.GetBool, ha, and_self, if_true]
        cases a.Value <;> simp
      constructor
      · intro h; exact absurd h hno
      · intro h; exact absurd ha (h.1 a (List.mem_cons_self _ _))
    · have hstep : InstallationOptions.GetBool (a :: rest) optionName deploymentID
          = InstallationOptions.GetBool rest optionName deploymentID := by
        simp only [InstallationOptions.GetBool]
        rw [if_neg ha]
      rw [hstep, ih e]
      constructor
      · rintro ⟨h, he⟩
        refine ⟨?_, he⟩
        intro o ho
        rcases List.mem_cons.mp ho with rfl | ho
        · exact ha
        · exact h o ho
      · rintro ⟨h, he⟩
        exact ⟨fun o ho => h o (List.mem_cons_of_mem _ ho), he⟩

/-- `GetInt` fails exactly when no option has that name and that deployment, global
options notwithstanding; its error is then `<name> not set`. -/
theorem GetInt_error_iff (optionName deploymentID : String) :
    ∀ (opts : InstallationOptions) (e : String),
    InstallationOptions.GetInt opts optionName deploymentID = .error e ↔
      (∀ o ∈ opts, ¬ (o.Name = optionName ∧ o.DeploymentID = deploymentID)) ∧
      e = optionName ++ " not set" := by
  intro opts
  induction opts with
  | nil =>
    intro e
    simp only [InstallationOptions.GetInt, Got.error.injEq, List.not_mem_nil,
      false_implies, implies_true, true_and]
    exact eq_comm
  | cons a rest ih =>
    intro e
    by_cases ha : a.Name = optionName ∧ a.DeploymentID = deploymentID
    · have hno : InstallationOptions.GetInt (a :: rest) optionName deploymentID ≠ .error e := by
        simp only [InstallationOptions.GetInt, ha, and_self, if_true]
        cases a.Value <;> simp
      constructor
      · intro h; exact absurd h hno
      · intro h; exact absurd ha (h.1 a (List.mem_cons_self _ _))
    · have hstep : InstallationOptions.GetInt (a :: rest) optionName deploymentID
          = InstallationOptions.GetInt rest optionName deploymentID := by
        simp only [InstallationOptions.GetInt]
        rw [if_neg ha]
      rw [hstep, ih e]
      constructor
      · rintro ⟨h, he⟩
        refine ⟨?_, he⟩
        intro o ho
        rcases List.mem_cons.mp ho with rfl | ho
        · exact ha
        · exact h o ho
      · rintro ⟨h, he⟩
        exact ⟨fun o ho => h o (List.mem_cons_of_mem _ ho), he⟩

/-! ## The steps of `organizations.Create`, call by call -/

/-- C18. `organizations.Create` runs its steps in the fixed order: create the labelled
namespace, copy the registry-creds secret (get it from the staging namespace, create the
copy), copy the ca-cert secret, create the service account, call `gitea.CreateOrg`; each
call is made on the state the call before it left.  For every cluster, whatever its calls
answer: the first call that fails ends the sequence, `Create` returns the error of that
call (as it is for the namespace creation, wrapped with the message of the step for the
copies and the service account), the calls made are the calls up to that one and no
later one, and the cluster is left in the state that call left; `gitea.CreateOrg` is
called only when every cluster call succeeded, and then its outcome is the result. -/
theorem Create_runs_steps_in_order (w : KubeWorld σ) (org : String) (s : KubeRun σ) :
    (∀ e st1,
      w.NamespaceCreate (organizations.namespaceFor w org) s.world = (some e, st1) →
      organizations.Create w org s
        = (some e,
            { world := st1,
              trace := s.trace
                ++ [KubeEvent.NamespaceCreate (organizations.namespaceFor w org) (some e)] })) ∧
    (∀ st1 g e st2,
      w.NamespaceCreate (organizations.namespaceFor w org) s.world = (none, st1) →
      w.SecretGet w.TektonStagingNamespace "registry-creds" st1 = (g, st2) →
      g.err = some e →
      organizations.Create w org s
        = (some (Wrap e "failed to copy the registry credentials secret"),
            { world := st2,
              trace := s.trace
                ++ [KubeEvent.NamespaceCreate (organizations.namespaceFor w org) none,
                  KubeEvent.SecretGet w.TektonStagingNamespace "registry-creds" g] })) ∧
    (∀ st1 creds st2 e st3,
      w.NamespaceCreate (organizations.namespaceFor w org) s.world = (none, st1) →
      w.SecretGet w.TektonStagingNamespace "registry-creds" st1 = (.found creds, st2) →
      w.SecretCreate org (organizations.copyOf creds org) st2 = (some e, st3) →
      organizations.Create w org s
        = (some (Wrap e "failed to copy the registry credentials secret"),
            { world := st3,
              trace := s.trace
                ++ [KubeEvent.NamespaceCreate (organizations.namespaceFor w org) none,
                  KubeEvent.SecretGet w.TektonStagingNamespace "registry-creds"
                    (.found creds),
                  KubeEvent.SecretCreate org (organizations.copyOf creds org) (some e)] })) ∧
    (∀ st1 creds st2 st3 g e st4,
      w.NamespaceCreate (organizations.namespaceFor w org) s.world = (none, st1) →
      w.SecretGet w.TektonStagingNamespace "registry-creds" st1 = (.found creds, st2) →
      w.SecretCreate org (organizations.copyOf creds org) st2 = (none, st3) →
      w.SecretGet w.TektonStagingNamespace "ca-cert" st3 = (g, st4) →
      g.err = some e →
      organizations.Create w org s
        = (some (Wrap e "failed to copy the ca certificate"),
            { world := st4,
              trace := s.trace
                ++ (KubeEvent.NamespaceCreate (organizations.namespaceFor w org) none
                  :: copiedSecret w "registry-creds" org creds
                  ++ [KubeEvent.SecretGet w.TektonStagingNamespace "ca-cert" g]) })) ∧
    (∀ st1 creds st2 st3 cert st4 e st5,
      w.NamespaceCreate (organizations.namespaceFor w org) s.world = (none, st1) →
      w.SecretGet w.TektonStagingNamespace "registry-creds" st1 = (.found creds, st2) →
      w.SecretCreate org (organizations.copyOf creds org) st2 = (none, st3) →
      w.SecretGet w.TektonStagingNamespace "ca-cert" st3 = (.found cert, st4) →
      w.SecretCreate org (organizations.copyOf cert org) st4 = (some e, st5) →
      organizations.Create w org s
        = (some (Wrap e "failed to copy the ca certificate"),
            { world := st5,
              trace := s.trace
                ++ (KubeEvent.NamespaceCreate (organizations.namespaceFor w org) none
                  :: copiedSecret w "registry-creds" org creds
                  ++ [KubeEvent.SecretGet w.TektonStagingNamespace "ca-cert" (.found cert),
                    KubeEvent.SecretCreate org (organizations.copyOf cert org)
                      (some e)]) })) ∧
    (∀ st1 creds st2 st3 cert st4 st5 e st6,
      w.NamespaceCreate (organizations.namespaceFor w org) s.world = (none, st1) →
      w.SecretGet w.TektonStagingNamespace "registry-creds" st1 = (.found creds, st2) →
      w.SecretCreate org (organizations.copyOf creds org) st2 = (none, st3) →
      w.SecretGet w.TektonStagingNamespace "ca-cert" st3 = (.found cert, st4) →
      w.SecretCreate org (organizations.copyOf cert org) st4 = (none, st5) →
      w.ServiceAccountCreate org (organizations.accountFor org) st5 = (some e, st6) →
      organizations.Create w org s
        = (some (Wrap e "failed to create a service account for apps"),
            { world := st6,
              trace := s.trace
                ++ (KubeEvent.NamespaceCreate (organizations.namespaceFor w org) none
                  :: copiedSecret w "registry-creds" org creds
                  ++ copiedSecret w "ca-cert" org cert
                  ++ [KubeEvent.ServiceAccountCreate org (organizations.accountFor org)
                    (some e)]) })) ∧
    (∀ st1 creds st2 st3 cert st4 st5 st6 result st7,
      w.NamespaceCreate (organizations.namespaceFor w org) s.world = (none, st1) →
      w.SecretGet w.TektonStagingNamespace "registry-creds" st1 = (.found creds, st2) →
      w.SecretCreate org (organizations.copyOf creds org) st2 = (none, st3) →
      w.SecretGet w.TektonStagingNamespace "ca-cert" st3 = (.found cert, st4) →
      w.SecretCreate org (organizations.copyOf cert org) st4 = (none, st5) →
      w.ServiceAccountCreate org (organizations.accountFor org) st5 = (none, st6) →
      w.GiteaCreateOrg org st6 = (result, st7) →
      organizations.Create w org s
        = (result,
            { world := st7,
              trace := s.trace
                ++ (KubeEvent.NamespaceCreate (organizations.namespaceFor w org) none
                  :: copiedSecret w "registry-creds" org creds
                  ++ copiedSecret w "ca-cert" org cert
                  ++ [KubeEvent.ServiceAccountCreate org (organizations.accountFor org) none,
                    KubeEvent.GiteaCreateOrg org result]) })) ∧
    (giteaCalls (organizations.Create w org s).2.trace ≠ giteaCalls s.trace →
      ∃ creds cert result,
        (organizations.Create w org s).2.trace
          = s.trace
            ++ (KubeEvent.NamespaceCreate (organizations.namespaceFor w org) none
              :: copiedSecret w "registry-creds" org creds
              ++ copiedSecret w "ca-cert" org cert
              ++ [KubeEvent.ServiceAccountCreate org (organizations.accountFor org) none,
                KubeEvent.GiteaCreateOrg org result])) := by
  refine ⟨?_, ?_, ?_, ?_, ?_, ?_, ?_, ?_⟩
  · intro e st1 h1
    simp [organizations.Create, KubeRun.step, h1]
  · intro st1 g e st2 h1 h2 he
    cases g with
    | found secret => simp [SecretResult.err] at he
    | notFound err =>
      simp only [SecretResult.err, Option.some.injEq] at he
      subst he
      simp [organizations.Create, organizations.copySecret, KubeRun.step, h1, h2]
    | failed err =>
      simp only [SecretResult.err, Option.some.injEq] at he
      subst he
      simp [organizations.Create, organizations.copySecret, KubeRun.step, h1, h2]
  · intro st1 creds st2 e st3 h1 h2 h3
    simp [organizations.Create, organizations.copySecret, KubeRun.step, h1, h2, h3]
  · intro st1 creds st2 st3 g e st4 h1 h2 h3 h4 he
    cases g with
    | found secret => simp [SecretResult.err] at he
    | notFound err =>
      simp only [SecretResult.err, Option.some.injEq] at he
      subst he
      simp [organizations.Create, organizations.copySecret, KubeRun.step, h1, h2, h3, h4,
        copiedSecret]
    | failed err =>
      simp only [SecretResult.err, Option.some.injEq] at he
      subst he
      simp [organizations.Create, organizations.copySecret, KubeRun.step, h1, h2, h3, h4,
        copiedSecret]
  · intro st1 creds st2 st3 cert st4 e st5 h1 h2 h3 h4 h5
    simp [organizations.Create, organizations.copySecret, KubeRun.step, h1, h2, h3, h4, h5,
      copiedSecret]
  · intro st1 creds st2 st3 cert st4 st5 e st6 h1 h2 h3 h4 h5 h6
    simp [organizations.Create, organizations.copySecret, organizations.createServiceAccount,
      KubeRun.step, h1, h2, h3, h4, h5, h6, copiedSecret]
  · intro st1 creds st2 st3 cert st4 st5 st6 result st7 h1 h2 h3 h4 h5 h6 h7
    simp [organizations.Create, organizations.copySecret, organizations.createServiceAccount,
      KubeRun.step, h1, h2, h3, h4, h5, h6, h7, copiedSecret]
  · intro hg
    obtain ⟨delta, htr, -, hcase⟩ := Create_call_sequences w org s
    have happ : giteaCalls (s.trace ++ delta) = giteaCalls s.trace ++ giteaCalls delta := by
      simp [giteaCalls, List.filterMap_append]
    rw [htr, happ] at hg
    rcases hcase with ⟨e, hd, -⟩ | ⟨g, e, -, hd, -⟩ | ⟨secret, e, hd, -⟩ |
      ⟨creds, g, e, -, hd, -⟩ | ⟨creds, cert, e, hd, -⟩ | ⟨creds, cert, e, hd, -⟩ |
      ⟨creds, cert, hd⟩
    · exfalso; apply hg; rw [hd]; simp [giteaCalls]
    · exfalso; apply hg; rw [hd]; simp [giteaCalls]
    · exfalso; apply hg; rw [hd]; simp [giteaCalls]
    · exfalso; apply hg; rw [hd]; simp [giteaCalls, copiedSecret]
    · exfalso; apply hg; rw [hd]; simp [giteaCalls, copiedSecret]
    · exfalso; apply hg; rw [hd]; simp [giteaCalls, copiedSecret]
    · exact ⟨creds, cert, _, by rw [htr, hd]⟩

/-- Creating the organization "neworg" on the example cluster.  When the staging namespace
lacks the ca-cert secret, the fourth call fails: `Create` returns its error wrapped, the
namespace and the copy of registry-creds stay created, and neither the service account
nor the repository account is made.  When both secrets are there, all seven calls are
made and the service account and the repository account exist afterwards. -/
theorem Create_runs_steps_in_order_witness :
    (organizations.Create KubeCluster.world "neworg"
      (KubeRun.start (kubeCluster ["registry-creds"] true))).1
      = some "failed to copy the ca certificate: secret not found" ∧
    ((organizations.Create KubeCluster.world "neworg"
      (KubeRun.start (kubeCluster ["registry-creds"] true))).2.world.namespaces.map
        (fun ns => ns.Name) = ["workspace", "tekton-staging", "neworg"] ∧
      ((organizations.Create KubeCluster.world "neworg"
        (KubeRun.start (kubeCluster ["registry-creds"] true))).2.world.secrets.filter
          (fun secret => secret.Namespace = "neworg")).map (fun secret => secret.Name)
        = ["registry-creds"] ∧
      (organizations.Create KubeCluster.world "neworg"
        (KubeRun.start (kubeCluster ["registry-creds"] true))).2.world.accounts = [] ∧
      (organizations.Create KubeCluster.world "neworg"
        (KubeRun.start (kubeCluster ["registry-creds"] true))).2.world.giteaOrgs
        = ["workspace"]) ∧
    ((organizations.Create KubeCluster.world "neworg"
      (KubeRun.start (kubeCluster ["registry-creds", "ca-cert"] true))).1 = none ∧
      ((organizations.Create KubeCluster.world "neworg"
        (KubeRun.start (kubeCluster ["registry-creds", "ca-cert"] true))).2.world.secrets.filter
          (fun secret => secret.Namespace = "neworg")).map (fun secret => secret.Name)
        = ["registry-creds", "ca-cert"] ∧
      (organizations.Create KubeCluster.world "neworg"
        (KubeRun.start (kubeCluster ["registry-creds", "ca-cert"] true))).2.world.accounts
        = [("neworg", organizations.accountFor "neworg")] ∧
      (organizations.Create KubeCluster.world "neworg"
        (KubeRun.start (kubeCluster ["registry-creds", "ca-cert"] true))).2.world.giteaOrgs
        = ["workspace", "neworg"] ∧
      (organizations.Create KubeCluster.world "neworg"
        (KubeRun.start (kubeCluster ["registry-creds", "ca-cert"] false))).1
        = some "gitea unreachable") ∧
    organizations.Create KubeCluster.world "neworg"
        (KubeRun.start (kubeCluster ["registry-creds"] true))
      = (some (Wrap "secret not found" "failed to copy the ca certificate"),
          { world := (KubeCluster.world.SecretCreate "neworg"
              (organizations.copyOf (stagingSecret "registry-creds") "neworg")
              (KubeCluster.world.NamespaceCreate
                (organizations.namespaceFor KubeCluster.world "neworg")
                (kubeCluster ["registry-creds"] true)).2).2,
            trace := (KubeRun.start (kubeCluster ["registry-creds"] true)).trace
              ++ (KubeEvent.NamespaceCreate
                  (organizations.namespaceFor KubeCluster.world "neworg") none
                :: copiedSecret KubeCluster.world "registry-creds" "neworg"
                    (stagingSecret "registry-creds")
                ++ [KubeEvent.SecretGet KubeCluster.world.TektonStagingNamespace "ca-cert"
                    (.notFound "secret not found")]) }) :=
  ⟨by decide, ⟨by decide, by decide, by decide, by decide⟩,
    ⟨by decide, by decide, by decide, by decide, by decide⟩,
    (Create_runs_steps_in_order KubeCluster.world "neworg"
      (KubeRun.start (kubeCluster ["registry-creds"] true))).2.2.2.1
      (KubeCluster.world.NamespaceCreate
        (organizations.namespaceFor KubeCluster.world "neworg")
        (kubeCluster ["registry-creds"] true)).2
      (stagingSecret "registry-creds")
      (KubeCluster.world.NamespaceCreate
        (organizations.namespaceFor KubeCluster.world "neworg")
        (kubeCluster ["registry-creds"] true)).2
      (KubeCluster.world.SecretCreate "neworg"
        (organizations.copyOf (stagingSecret "registry-creds") "neworg")
        (KubeCluster.world.NamespaceCreate
          (organizations.namespaceFor KubeCluster.world "neworg")
          (kubeCluster ["registry-creds"] true)).2).2
      (.notFound "secret not found") "secret not found"
      (KubeCluster.world.SecretCreate "neworg"
        (organizations.copyOf (stagingSecret "registry-creds") "neworg")
        (KubeCluster.world.NamespaceCreate
          (organizations.namespaceFor KubeCluster.world "neworg")
          (kubeCluster ["registry-creds"] true)).2).2
      (by decide) (by decide) (by decide) (by decide) rfl⟩

/-! ## The inverse index, read from the cluster -/

/-- The outer loop of the inversion stops at the first application whose services cannot
be read: the applications before it were read, none after it. -/
theorem invertApps_failing (w : World σ) (bound : Application → List Service)
    (a : Application) (post : List Application) (err : String) (st st2 : σ)
    (ha : w.AppServices a st = (.error err, st2)) :
    ∀ (pre : List Application) (appsOf : AppsOf) (tr : List Event),
    (∀ x ∈ pre, w.AppServices x st = (.ok (bound x), st)) →
    invertApps w (pre ++ a :: post) appsOf { world := st, trace := tr }
      = (.error err,
          { world := st2,
            trace := tr ++ pre.map (fun x => Event.AppServices x (.ok (bound x)))
              ++ [Event.AppServices a (.error err)] }) := by
  intro pre
  induction pre with
  | nil =>
    intro appsOf tr _
    simp [invertApps, World.appServices, ha, Run.step]
  | cons x rest ih =>
    intro appsOf tr h
    have hx := h x (List.mem_cons_self x rest)
    have hrest := ih (invertBound x (bound x) appsOf)
      (tr ++ [Event.AppServices x (.ok (bound x))])
      (fun y hy => h y (List.mem_cons_of_mem x hy))
    have hstep : invertApps w (x :: (rest ++ a :: post)) appsOf { world := st, trace := tr }
        = invertApps w (rest ++ a :: post) (invertBound x (bound x) appsOf)
            { world := st, trace := tr ++ [Event.AppServices x (.ok (bound x))] } := by
      simp [invertApps, World.appServices, hx, Run.step]
    rw [List.cons_append, hstep, hrest]
    simp

/-- C25. `servicesToApps` computes the exact inverse of the bound-service lists of the
applications.  On every cluster where `application.List` returns the applications `apps`
of the organization and `app.Services()` returns the bound-service list `bound a` of each
of them (reads, which leave the cluster as it is): `servicesToApps` lists the
applications, reads the services of each in list order, and returns a map in which the
entry of a name `k` is the sequence of the applications whose bound-service list holds a
service named `k`, in application-list order, an application once for each such service
in its list; a key is present if and only if some application binds a service of that
name, so no entry is empty.  When `application.List` fails, or when `app.Services()`
fails for an application, `servicesToApps` returns that error and no map, and reads no
later application. -/
theorem servicesToApps_inverts (w : World σ) (org : String) (s : Run σ)
    (bound : Application → List Service) :
    (∀ apps st1, w.AppList org s.world = (.ok apps, st1) →
      (∀ a ∈ apps, w.AppServices a st1 = (.ok (bound a), st1)) →
      ∃ m : AppsOf,
        servicesToApps w org s
          = (.ok m,
              { world := st1,
                trace := s.trace ++ [Event.AppList org (.ok apps)]
                  ++ apps.map (fun a => Event.AppServices a (.ok (bound a))) }) ∧
        (∀ k, m k = if bindersOf apps bound k = [] then none
                    else some (bindersOf apps bound k)) ∧
        (∀ k, (∃ l, m k = some l) ↔ ∃ a ∈ apps, ∃ b ∈ bound a, b.Name = k) ∧
        (∀ k l, m k = some l → l ≠ [])) ∧
    (∀ err st1, w.AppList org s.world = (.error err, st1) →
      servicesToApps w org s
        = (.error err,
            { world := st1, trace := s.trace ++ [Event.AppList org (.error err)] })) ∧
    (∀ apps st1 pre a post err st2, w.AppList org s.world = (.ok apps, st1) →
      apps = pre ++ a :: post →
      (∀ x ∈ pre, w.AppServices x st1 = (.ok (bound x), st1)) →
      w.AppServices a st1 = (.error err, st2) →
      servicesToApps w org s
        = (.error err,
            { world := st2,
              trace := s.trace ++ [Event.AppList org (.ok apps)]
                ++ pre.map (fun x => Event.AppServices x (.ok (bound x)))
                ++ [Event.AppServices a (.error err)] })) := by
  refine ⟨?_, ?_, ?_⟩
  · intro apps st1 hl hb
    obtain ⟨m, hm, hk⟩ := servicesToApps_apply w org apps bound s.world st1 s.trace hl hb
    refine ⟨m, hm, hk, ?_, ?_⟩
    · intro k
      rw [hk k, ← ServicesController.bindersOf_ne_nil_iff]
      by_cases h : bindersOf apps bound k = [] <;> simp [h]
    · intro k l hl2
      rw [hk k] at hl2
      by_cases h : bindersOf apps bound k = []
      · simp [h] at hl2
      · rw [if_neg h] at hl2
        simp only [Option.some.injEq] at hl2
        rw [← hl2]
        exact h
  · intro err st1 hl
    simp [servicesToApps, World.appList, hl, Run.step]
  · intro apps st1 pre a post err st2 hl hsplit hpre ha
    subst hsplit
    have hrun := invertApps_failing w bound a post err st1 st2 ha pre AppsOf.empty
      (s.trace ++ [Event.AppList org (.ok (pre ++ a :: post))]) hpre
    simp only [servicesToApps, World.appList, hl, Run.step]
    rw [hrun]

/-- The inverse index of the example cluster: "a" is bound by "web" and "worker", "b" by
"worker", "c" by nobody; with the services of "worker" unreadable, the inversion returns
that error after reading "app" and "web", and no map. -/
theorem servicesToApps_inverts_witness :
    AppsOf.entry (servicesToApps Cluster.world "org" (Run.start demoCluster)).1 "a"
      = some [app "web", app "worker"] ∧
    AppsOf.entry (servicesToApps Cluster.world "org" (Run.start demoCluster)).1 "b"
      = some [app "worker"] ∧
    AppsOf.entry (servicesToApps Cluster.world "org" (Run.start demoCluster)).1 "c" = none ∧
    (AppsOf.failure (servicesToApps Cluster.unreadableWorld "org"
        (Run.start brokenCluster)).1 = some "cluster unreachable" ∧
      AppsOf.entry (servicesToApps Cluster.unreadableWorld "org"
        (Run.start brokenCluster)).1 "a" = none ∧
      (servicesToApps Cluster.unreadableWorld "org" (Run.start brokenCluster)).2.trace
        = [Event.AppList "org" (.ok [app "app", app "web", app "worker"]),
            Event.AppServices (app "app") (.ok []),
            Event.AppServices (app "web") (.ok [svc "a"]),
            Event.AppServices (app "worker") (.error "cluster unreachable")]) ∧
    (∃ m : AppsOf,
      servicesToApps Cluster.world "org" (Run.start demoCluster)
        = (.ok m,
            { world := demoCluster,
              trace := (Run.start demoCluster).trace
                ++ [Event.AppList "org" (.ok [app "app", app "web", app "worker"])]
                ++ [app "app", app "web", app "worker"].map
                  (fun a => Event.AppServices a (.ok (demoCluster.boundTo a))) }) ∧
      (∀ k, m k = if bindersOf [app "app", app "web", app "worker"] demoCluster.boundTo k = []
                  then none
                  else some (bindersOf [app "app", app "web", app "worker"]
                    demoCluster.boundTo k)) ∧
      (∀ k, (∃ l, m k = some l) ↔
        ∃ a ∈ [app "app", app "web", app "worker"], ∃ b ∈ demoCluster.boundTo a, b.Name = k) ∧
      (∀ k l, m k = some l → l ≠ [])) :=
  ⟨by decide, by decide, by decide, ⟨by decide, by decide, by decide⟩,
    (servicesToApps_inverts Cluster.world "org" (Run.start demoCluster)
      demoCluster.boundTo).1 [app "app", app "web", app "worker"] demoCluster
      (by decide) (fun _ _ => rfl)⟩

/-! ## `ServicebindingsController.Create` on a cluster whose calls do not fail -/

theorem lookupAll_names (w : World σ) (org : String) :
    ∀ (names : List String) (st : σ), (lookupAll w org names st).1.map Prod.fst = names := by
  intro names
  induction names with
  | nil => intro st; rfl
  | cons name rest ih =>
    intro st
    simp only [lookupAll, List.map_cons, ih]

namespace ServicebindingsController

/-- When no lookup fails internally, the resolve loop looks every name up, each on the
state the lookup before it left, and hands on the found services and one issue per
not-found name. -/
theorem resolveLoop_all (w : World σ) (org : String) :
    ∀ (names : List String) (theServices : List Service) (theIssues : APIErrors) (s : Run σ),
    lookupFailures (lookupAll w org names s.world).1 = [] →
    resolveLoop w org names theServices theIssues s
      = (.ok (theServices ++ foundServices (lookupAll w org names s.world).1,
            theIssues ++ (notFoundNames (lookupAll w org names s.world).1).map
              ServiceIsNotKnown),
          { world := (lookupAll w org names s.world).2,
            trace := s.trace ++ (lookupAll w org names s.world).1.map
              (fun p => Event.ServiceLookup org p.1 p.2) }) := by
  intro names
  induction names with
  | nil =>
    intro theServices theIssues s _
    simp [resolveLoop, lookupAll, foundServices, notFoundNames]
  | cons name rest ih =>
    intro theServices theIssues s hl
    cases hres : (w.ServiceLookup org name s.world).1 with
    | ok service =>
      have hl2 : lookupFailures (lookupAll w org rest (w.ServiceLookup org name s.world).2).1
          = [] := by
        simpa [lookupAll, lookupFailures, hres] using hl
      rw [resolveLoop_found w org name rest theServices theIssues s service hres,
        ih _ _ _ hl2]
      simp [lookupAll, hres, Run.step, foundServices, notFoundNames]
    | error err =>
      by_cases hne : err = "service not found"
      · subst hne
        have hl2 : lookupFailures
            (lookupAll w org rest (w.ServiceLookup org name s.world).2).1 = [] := by
          simpa [lookupAll, lookupFailures, hres] using hl
        rw [resolveLoop_notFound w org name rest theServices theIssues s hres,
          ih _ _ _ hl2]
        simp [lookupAll, hres, Run.step, foundServices, notFoundNames]
      · exfalso
        simp [lookupAll, lookupFailures, hres, hne] at hl

/-- When every `app.Bind` succeeds, the bind loop binds every service, each on the state
the bind before it left, and collects no issue. -/
theorem bindLoop_all (w : World σ) (app : Application) :
    ∀ (services : List Service) (theIssues : APIErrors) (s : Run σ),
    bindErrors (bindAll w app services s.world).1 = [] →
    bindLoop w app services theIssues s
      = (.ok theIssues,
          { world := (bindAll w app services s.world).2,
            trace := s.trace ++ (bindAll w app services s.world).1.map
              (fun p => Event.Bind app p.1 p.2) }) ∧
    (bindAll w app services s.world).1 = services.map (fun service => (service, none)) := by
  intro services
  induction services with
  | nil =>
    intro theIssues s _
    simp [bindLoop, bindAll]
  | cons service rest ih =>
    intro theIssues s hb
    cases hres : (w.Bind app service s.world).1 with
    | some err =>
      exfalso
      simp [bindAll, bindErrors, hres] at hb
    | none =>
      have hb2 : bindErrors (bindAll w app rest (w.Bind app service s.world).2).1 = [] := by
        simpa [bindAll, bindErrors, hres] using hb
      obtain ⟨hrun, hall⟩ := ih theIssues
        (s.step (Event.Bind app service none) (w.Bind app service s.world).2) hb2
      constructor
      · rw [bindLoop_bound w app service rest theIssues s hres, hrun]
        simp [bindAll, hres, Run.step]
      · simp only [Run.step] at hall
        simp [bindAll, hres, hall]

/-- The not-found issues are no internal errors. -/
theorem notKnown_not_internal (names : List String) :
    (names.map ServiceIsNotKnown).filter (fun e => !e.isInternal)
      = names.map ServiceIsNotKnown := by
  rw [List.filter_eq_self]
  intro e he
  rw [List.mem_map] at he
  obtain ⟨n, -, rfl⟩ := he
  simp [ServiceIsNotKnown, NewAPIError, APIError.isInternal, StatusNotFound]

/-- C3. For every valid bind request that gets to the loops of `Create` (cluster
reachable, organization and application known), on a cluster where each lookup of a
requested name, made on the state the lookup before it left, either finds the service or
reports "service not found" (`ls` are the answers of `services.Lookup`), and every
`app.Bind` of a found service, made on the state the bind before it left, succeeds (`bs`
are the answers of `app.Bind`): `Create` looks every requested name up, in request order;
it calls `app.Bind` exactly on the found services, in request order, and the cluster is
left in the state the last bind left (or the response write after it); the
`ServiceIsNotKnown` issues it returns are exactly one per not-found name, in request
order; when some name is not found these issues are all it returns, and when none is, it
writes the response and returns nothing but the error of that write, if it fails; so
every requested name is either reported or bound (of three names with one unknown: one
issue, two binds). -/
theorem Create_skips_unknown_services (w : World σ) (org appName : String)
    (req : BindRequest) (st0 st1 st2 st3 : σ) (app : Application)
    (hnames : req.Names ≠ []) (hempty : "" ∉ req.Names)
    (hc : w.GetCluster st0 = (none, st1))
    (ho : w.OrgExists org st1 = (.ok true, st2))
    (ha : w.AppLookup org appName st2 = (.ok (some app), st3))
    (ls : List (String × Except String Service)) (stL : σ)
    (bs : List (Service × GoError)) (stB : σ)
    (hL : lookupAll w org req.Names st3 = (ls, stL))
    (hl : lookupFailures ls = [])
    (hB : bindAll w app (foundServices ls) stL = (bs, stB))
    (hb : bindErrors bs = []) :
    lookups (Create w org appName (.decoded req) (Run.start st0)).2.trace = ls ∧
    ls.map Prod.fst = req.Names ∧
    binds (Create w org appName (.decoded req) (Run.start st0)).2.trace = bs ∧
    bs = (foundServices ls).map (fun service => (service, none)) ∧
    (Create w org appName (.decoded req) (Run.start st0)).1.filter (fun e => !e.isInternal)
      = (notFoundNames ls).map ServiceIsNotKnown ∧
    (notFoundNames ls).Sublist req.Names ∧
    (notFoundNames ls ≠ [] →
      (Create w org appName (.decoded req) (Run.start st0)).1
        = (notFoundNames ls).map ServiceIsNotKnown ∧
      (Create w org appName (.decoded req) (Run.start st0)).2.world = stB) ∧
    (notFoundNames ls = [] →
      (Create w org appName (.decoded req) (Run.start st0)).1
        = (match (w.Write Payload.empty stB).1 with
          | some err => [InternalError err]
          | none => []) ∧
      (Create w org appName (.decoded req) (Run.start st0)).2.world
        = (w.Write Payload.empty stB).2) ∧
    (notFoundNames ls).length + bs.length = req.Names.length := by
  have hnamesL : ls.map Prod.fst = req.Names := by
    have := lookupAll_names w org req.Names st3
    rw [hL] at this
    exact this
  have hres := resolveLoop_all w org req.Names [] []
    { world := st3, trace := preamble org appName app } (by simp only [hL]; exact hl)
  simp only [hL, List.nil_append] at hres
  obtain ⟨hbind, hbs⟩ := bindLoop_all w app (foundServices ls)
    ((notFoundNames ls).map ServiceIsNotKnown)
    { world := stL,
      trace := preamble org appName app
        ++ ls.map (fun p => Event.ServiceLookup org p.1 p.2) }
    (by simp only [hB]; exact hb)
  simp only [hB] at hbind hbs
  have hlen : (notFoundNames ls).length + bs.length = req.Names.length := by
    rw [hbs, List.length_map, ← hnamesL, List.length_map]
    exact (length_lookups ls hl).symm
  have hsub : (notFoundNames ls).Sublist req.Names := by
    rw [← hnamesL]
    exact notFoundNames_sublist ls
  rw [Create_reaches_loops w org appName req st0 st1 st2 st3 app hnames hempty hc ho ha,
    hres]
  simp only
  rw [hbind]
  simp only
  by_cases hnf : notFoundNames ls = []
  · have hlen0 : ¬ ((notFoundNames ls).map ServiceIsNotKnown).length > 0 := by
      simp [hnf]
    rw [if_neg hlen0]
    have hreads := reads_of_trace org appName app ls bs
      [Event.Write Payload.empty (w.Write Payload.empty stB).1] (Or.inr ⟨_, rfl⟩)
    cases hw : (w.Write Payload.empty stB).1 with
    | none =>
      simp only [World.write, hw, Run.step]
      rw [hw] at hreads
      refine ⟨hreads.1, hnamesL, hreads.2, hbs, ?_, hsub, fun h => absurd hnf h,
        fun _ => ⟨by first | rfl | trivial, by first | rfl | trivial⟩, hlen⟩
      simp [hnf]
    | some err =>
      simp only [World.write, hw, Run.step]
      rw [hw] at hreads
      refine ⟨hreads.1, hnamesL, hreads.2, hbs, ?_, hsub, fun h => absurd hnf h,
        fun _ => ⟨by first | rfl | trivial | simp [hnf], by first | rfl | trivial⟩, hlen⟩
      simp [hnf, isInternal_InternalError]
  · have hlen1 : ((notFoundNames ls).map ServiceIsNotKnown).length > 0 := by
      rw [List.length_map]
      exact List.length_pos.mpr hnf
    rw [if_pos hlen1]
    have hreads := reads_of_trace org appName app ls bs [] (Or.inl rfl)
    simp only [List.append_nil] at hreads
    exact ⟨hreads.1, hnamesL, hreads.2, hbs, notKnown_not_internal _, hsub,
      fun _ => ⟨rfl, rfl⟩, fun h => absurd h hnf, hlen⟩

/-- A request naming "a", "x" and "c", of which "x" does not exist, made for the
application "app" of the demo cluster, which binds nothing: one not-found issue for "x",
and afterwards the cluster holds "a" and "c" as bound to "app". -/
theorem Create_skips_unknown_services_witness :
    (Create Cluster.world "org" "app" (.decoded ⟨["a", "x", "c"]⟩) (Run.start demoCluster)).1
      = [ServiceIsNotKnown "x"] ∧
    demoCluster.boundTo (Carrier.app "app") = [] ∧
    (Create Cluster.world "org" "app" (.decoded ⟨["a", "x", "c"]⟩)
      (Run.start demoCluster)).2.world.boundTo (Carrier.app "app") = [svc "a", svc "c"] ∧
    binds (Create Cluster.world "org" "app" (.decoded ⟨["a", "x", "c"]⟩)
      (Run.start demoCluster)).2.trace = [(svc "a", none), (svc "c", none)] ∧
    (lookupAll Cluster.world "org" ["a", "x", "c"] demoCluster).1
      = [("a", .ok (svc "a")), ("x", .error "service not found"), ("c", .ok (svc "c"))] ∧
    ((Create Cluster.world "org" "app" (.decoded ⟨["a", "x", "c"]⟩) (Run.start demoCluster)).1
        = (notFoundNames (lookupAll Cluster.world "org" ["a", "x", "c"] demoCluster).1).map
            ServiceIsNotKnown ∧
      (Create Cluster.world "org" "app" (.decoded ⟨["a", "x", "c"]⟩)
        (Run.start demoCluster)).2.world
        = (bindAll Cluster.world (Carrier.app "app")
            (foundServices (lookupAll Cluster.world "org" ["a", "x", "c"] demoCluster).1)
            (lookupAll Cluster.world "org" ["a", "x", "c"] demoCluster).2).2) :=
  ⟨by decide, by decide, by decide, by decide, by decide,
    (Create_skips_unknown_services Cluster.world "org" "app" ⟨["a", "x", "c"]⟩
      demoCluster demoCluster demoCluster demoCluster (Carrier.app "app")
      (by decide) (by decide) rfl (by decide) (by decide)
      (lookupAll Cluster.world "org" ["a", "x", "c"] demoCluster).1
      (lookupAll Cluster.world "org" ["a", "x", "c"] demoCluster).2
      (bindAll Cluster.world (Carrier.app "app")
        (foundServices (lookupAll Cluster.world "org" ["a", "x", "c"] demoCluster).1)
        (lookupAll Cluster.world "org" ["a", "x", "c"] demoCluster).2).1
      (bindAll Cluster.world (Carrier.app "app")
        (foundServices (lookupAll Cluster.world "org" ["a", "x", "c"] demoCluster).1)
        (lookupAll Cluster.world "org" ["a", "x", "c"] demoCluster).2).2
      rfl (by decide) rfl (by decide)).2.2.2.2.2.2.1 (by decide)⟩

end ServicebindingsController

/-! ## The admission guard of `Stage` and the creation of the run -/

namespace ApplicationsController

/-- What `createRun` does with the run it built: it asks the cluster to create it, on the
state it was given; when that fails it returns the error and stops; when that succeeds it
goes on, asking for the main domain on the state the creation left. -/
theorem createRun_calls (w : StageWorld σ) (uid : String) (app : App) (s5 : StageRun σ)
    (pr : PipelineRun) (hpr : newPipelineRun w uid app = some pr) :
    (∀ err, (w.PipelineRunCreate pr s5.world).1.2 = some err →
      createRun w uid app s5
        = (.returned (singleInternalError err
            ("failed to create pipeline run: " ++ w.GoSyntax
              (w.PipelineRunCreate pr s5.world).1.1)),
            { world := (w.PipelineRunCreate pr s5.world).2,
              trace := s5.trace ++ [StageEvent.PipelineRunCreate pr (some err)] })) ∧
    ((w.PipelineRunCreate pr s5.world).1.2 = none →
      (s5.trace ++ [StageEvent.PipelineRunCreate pr none,
          StageEvent.MainDomain (w.MainDomain (w.PipelineRunCreate pr s5.world).2).1])
        <+: (createRun w uid app s5).2.trace) := by
  constructor
  · intro err herr
    simp [createRun, hpr, herr, StageRun.step]
  · intro hnone
    unfold createRun
    simp only [hpr, hnone, StageRun.step]
    cases hd : (w.MainDomain (w.PipelineRunCreate pr s5.world).2).1 with
    | error err => simp [List.prefix_append_right_inj, List.cons_prefix_cons]
    | ok mainDomain =>
      simp only
      cases hk : (w.CreateCertificate app.AppRef.Name app.AppRef.Org mainDomain
          (w.MainDomain (w.PipelineRunCreate pr s5.world).2).2).1 with
      | some err => simp [List.prefix_append_right_inj, List.cons_prefix_cons]
      | none =>
        simp only
        unfold jsonResponse
        cases hm : w.Marshal { Stage := uid } with
        | some err => simp [List.prefix_append_right_inj, List.cons_prefix_cons]
        | none =>
          simp only [StageRun.step]
          split <;> simp [List.prefix_append_right_inj, List.cons_prefix_cons]

/-- C10. Given a well-formed stage request (decoded, with a git reference) that passes
validation (URL name equal to the body name, no negative instances), a reachable cluster
and Tekton client, a generated uid and a successful listing of the pipeline runs selected
by the application's name and organization labels: `Stage` rejects the request with the
error "pipelinerun for image ID still running" if and only if the listed runs include a
run whose `CompletionTime` is unset; on that rejection no pipeline run is created, no
certificate is requested, nothing is called after the listing and the cluster is left as
the listing left it.  Once every listed run has a `CompletionTime`, a request whose
instance count resolves (it gives an instances value, or the lookup of the deployment of
the application finds it or reports not-found) goes on to create a run: `Stage` asks the
cluster to create the run `newPipelineRun` builds for the application under the new uid,
on the state the earlier calls left; when the creation fails `Stage` returns that error
and leaves the cluster as the creation left it, and when it succeeds `Stage` goes on from
the state the creation left.  When the lookup of the deployment fails otherwise, `Stage`
returns that error and asks for no run. -/
theorem Stage_rejects_while_running (w : StageWorld σ) (name : String) (req : StageRequest)
    (st0 st1 st2 st3 st4 : σ) (uid : String) (items : List PipelineRun) (git : GitRef)
    (hname : name = req.App.Name)
    (hinst : ∀ n, req.Instances = some n → 0 ≤ n)
    (hgit : req.Git = some git)
    (hc : w.GetCluster st0 = (none, st1))
    (ht : w.NewForConfig st1 = (none, st2))
    (hu : w.Hex16 st2 = (.ok uid, st3))
    (hl : w.PipelineRunList (stageSelector req.App) st3 = (.ok items, st4)) :
    ((Stage w name (.decoded req) (StageRun.start st0)).1
        = .returned (singleNewError "pipelinerun for image ID still running" StatusBadRequest)
      ↔ ∃ pr ∈ items, pr.CompletionTime = none) ∧
    ((∃ pr ∈ items, pr.CompletionTime = none) →
      createdRuns (Stage w name (.decoded req) (StageRun.start st0)).2.trace = [] ∧
      requestedCertificates (Stage w name (.decoded req) (StageRun.start st0)).2.trace = [] ∧
      (Stage w name (.decoded req) (StageRun.start st0)).2.trace
        = [StageEvent.GetCluster none, StageEvent.NewForConfig none,
            StageEvent.Hex16 (.ok uid),
            StageEvent.PipelineRunList (stageSelector req.App) (.ok items)] ∧
      (Stage w name (.decoded req) (StageRun.start st0)).2.world = st4) ∧
    ((∀ pr ∈ items, pr.CompletionTime ≠ none) →
      ∀ (instances : Int) (st5 : σ) (tr5 : List StageEvent),
      ((∃ n, req.Instances = some n ∧ instances = int32 n ∧ st5 = st4 ∧
          tr5 = [StageEvent.GetCluster none, StageEvent.NewForConfig none,
            StageEvent.Hex16 (.ok uid),
            StageEvent.PipelineRunList (stageSelector req.App) (.ok items)]) ∨
        (req.Instances = none ∧
          ∃ res, w.DeploymentGet req.App.Org req.App.Name st4 = (res, st5) ∧
            (res = .found instances ∨ (∃ e, res = .notFound e) ∧ instances = DefaultInstances) ∧
            tr5 = [StageEvent.GetCluster none, StageEvent.NewForConfig none,
              StageEvent.Hex16 (.ok uid),
              StageEvent.PipelineRunList (stageSelector req.App) (.ok items),
              StageEvent.DeploymentGet req.App.Org req.App.Name res])) →
      ∃ pr : PipelineRun,
        newPipelineRun w uid
          { AppRef := req.App, Git := req.Git, Route := req.Route, Instances := instances }
          = some pr ∧
        pr.Name = uid ∧
        ("app.kubernetes.io/name", req.App.Name) ∈ pr.Labels ∧
        ("app.kubernetes.io/part-of", req.App.Org) ∈ pr.Labels ∧
        (∀ err, (w.PipelineRunCreate pr st5).1.2 = some err →
          Stage w name (.decoded req) (StageRun.start st0)
            = (.returned (singleInternalError err
                ("failed to create pipeline run: " ++ w.GoSyntax
                  (w.PipelineRunCreate pr st5).1.1)),
                { world := (w.PipelineRunCreate pr st5).2,
                  trace := tr5 ++ [StageEvent.PipelineRunCreate pr (some err)] })) ∧
        ((w.PipelineRunCreate pr st5).1.2 = none →
          (tr5 ++ [StageEvent.PipelineRunCreate pr none,
              StageEvent.MainDomain (w.MainDomain (w.PipelineRunCreate pr st5).2).1])
            <+: (Stage w name (.decoded req) (StageRun.start st0)).2.trace)) ∧
    ((∀ pr ∈ items, pr.CompletionTime ≠ none) →
      ∀ (e : String) (st5 : σ), req.Instances = none →
      w.DeploymentGet req.App.Org req.App.Name st4 = (.failed e, st5) →
      Stage w name (.decoded req) (StageRun.start st0)
        = (.returned (singleError e StatusInternalServerError),
            { world := st5,
              trace := [StageEvent.GetCluster none, StageEvent.NewForConfig none,
                StageEvent.Hex16 (.ok uid),
                StageEvent.PipelineRunList (stageSelector req.App) (.ok items),
                StageEvent.DeploymentGet req.App.Org req.App.Name (.failed e)] })) := by
  have hany : items.any (fun pr => pr.CompletionTime.isNone) = true
      ↔ ∃ pr ∈ items, pr.CompletionTime = none := by
    rw [List.any_eq_true]
    constructor
    · rintro ⟨pr, hpr, h⟩
      exact ⟨pr, hpr, Option.isNone_iff_eq_none.mp h⟩
    · rintro ⟨pr, hpr, h⟩
      exact ⟨pr, hpr, Option.isNone_iff_eq_none.mpr h⟩
  have hguard := Stage_reaches_guard w name req st0 st1 st2 st3 st4 uid items hname hinst
    hc ht hu hl
  refine ⟨?_, ?_, ?_, ?_⟩
  · rw [hguard]
    by_cases hrun : items.any (fun pr => pr.CompletionTime.isNone) = true
    · rw [if_pos hrun]
      exact ⟨fun _ => hany.mp hrun, fun _ => rfl⟩
    · rw [if_neg hrun]
      exact ⟨fun h => absurd h (stageRun_not_guard w req uid _),
        fun h => absurd (hany.mpr h) hrun⟩
  · intro hex
    rw [hguard, if_pos (hany.mpr hex)]
    exact ⟨rfl, rfl, rfl, rfl⟩
  · intro hall instances st5 tr5 hres
    have hrun := Stage_passes_guard w name req st0 st1 st2 st3 st4 uid items hname hinst
      hc ht hu hl hall
    have hsome : ∃ pr, newPipelineRun w uid
        { AppRef := req.App, Git := req.Git, Route := req.Route, Instances := instances }
        = some pr := by
      simp [newPipelineRun, hgit]
    obtain ⟨pr, hpr⟩ := hsome
    have hstage : Stage w name (.decoded req) (StageRun.start st0)
        = createRun w uid
            { AppRef := req.App, Git := req.Git, Route := req.Route, Instances := instances }
            { world := st5, trace := tr5 } := by
      rw [hrun]
      rcases hres with ⟨n, hn, hi, hst, htr⟩ | ⟨hn, res, hd, hcase, htr⟩
      · subst hi hst htr
        simp [stageRun, hn]
      · subst htr
        rcases hcase with hf | ⟨⟨e, he⟩, hi⟩
        · subst hf
          simp [stageRun, hn, existingReplica, hd, StageRun.step]
        · subst he hi
          simp [stageRun, hn, existingReplica, hd, StageRun.step]
    obtain ⟨hfail, hok⟩ := createRun_calls w uid
      { AppRef := req.App, Git := req.Git, Route := req.Route, Instances := instances }
      { world := st5, trace := tr5 } pr hpr
    refine ⟨pr, hpr, ?_, ?_, ?_, ?_, ?_⟩
    · have h := hpr
      simp only [newPipelineRun, hgit, Option.some.injEq] at h
      subst h
      rfl
    · have h := hpr
      simp only [newPipelineRun, hgit, Option.some.injEq] at h
      subst h
      simp
    · have h := hpr
      simp only [newPipelineRun, hgit, Option.some.injEq] at h
      subst h
      simp
    · intro err herr
      rw [hstage]
      exact hfail err herr
    · intro hnone
      rw [hstage]
      exact hok hnone
  · intro hall e st5 hn hd
    rw [Stage_passes_guard w name req st0 st1 st2 st3 st4 uid items hname hinst
      hc ht hu hl hall]
    simp [stageRun, hn, existingReplica, hd, StageRun.step]

/-- The stage request for "web" on the example cluster.  While the earlier run of "web"
has no completion time the request is rejected and the cluster holds the runs it held;
once that run has completed, the same request is answered with its stage id and the
cluster holds the new run "run2". -/
theorem Stage_rejects_while_running_witness :
    ((Stage StageCluster.world "web" (.decoded demoStageRequest)
        (StageRun.start (stagingCluster none))).1
      = .returned (singleNewError "pipelinerun for image ID still running"
          StatusBadRequest) ∧
      (Stage StageCluster.world "web" (.decoded demoStageRequest)
        (StageRun.start (stagingCluster none))).2.world.runs.map (fun pr => pr.Name)
        = ["run1", "other"]) ∧
    ((Stage StageCluster.world "web" (.decoded demoStageRequest)
        (StageRun.start (stagingCluster (some 3)))).1 = .returned [] ∧
      (Stage StageCluster.world "web" (.decoded demoStageRequest)
        (StageRun.start (stagingCluster (some 3)))).2.world.runs.map (fun pr => pr.Name)
        = ["run1", "other", "run2"]) ∧
    (∃ pr : PipelineRun,
      newPipelineRun StageCluster.world "run2"
        { AppRef := demoStageRequest.App, Git := demoStageRequest.Git,
          Route := demoStageRequest.Route, Instances := 2 } = some pr ∧
      pr.Name = "run2" ∧
      ("app.kubernetes.io/name", demoStageRequest.App.Name) ∈ pr.Labels ∧
      ("app.kubernetes.io/part-of", demoStageRequest.App.Org) ∈ pr.Labels ∧
      (∀ err, (StageCluster.world.PipelineRunCreate pr
          { stagingCluster (some 3) with uids := ["run3"] }).1.2 = some err →
        Stage StageCluster.world "web" (.decoded demoStageRequest)
            (StageRun.start (stagingCluster (some 3)))
          = (.returned (singleInternalError err
              ("failed to create pipeline run: " ++ StageCluster.world.GoSyntax
                (StageCluster.world.PipelineRunCreate pr
                  { stagingCluster (some 3) with uids := ["run3"] }).1.1)),
              { world := (StageCluster.world.PipelineRunCreate pr
                  { stagingCluster (some 3) with uids := ["run3"] }).2,
                trace := [StageEvent.GetCluster none, StageEvent.NewForConfig none,
                    StageEvent.Hex16 (.ok "run2"),
                    StageEvent.PipelineRunList (stageSelector demoStageRequest.App)
                      (.ok [earlierRun (some 3)])]
                  ++ [StageEvent.PipelineRunCreate pr (some err)] })) ∧
      ((StageCluster.world.PipelineRunCreate pr
          { stagingCluster (some 3) with uids := ["run3"] }).1.2 = none →
        ([StageEvent.GetCluster none, StageEvent.NewForConfig none,
            StageEvent.Hex16 (.ok "run2"),
            StageEvent.PipelineRunList (stageSelector demoStageRequest.App)
              (.ok [earlierRun (some 3)])]
          ++ [StageEvent.PipelineRunCreate pr none,
            StageEvent.MainDomain (StageCluster.world.MainDomain
              (StageCluster.world.PipelineRunCreate pr
                { stagingCluster (some 3) with uids := ["run3"] }).2).1])
          <+: (Stage StageCluster.world "web" (.decoded demoStageRequest)
            (StageRun.start (stagingCluster (some 3)))).2.trace)) :=
  ⟨⟨by decide, by decide⟩, ⟨by decide, by decide⟩,
    (Stage_rejects_while_running StageCluster.world "web" demoStageRequest
      (stagingCluster (some 3)) (stagingCluster (some 3)) (stagingCluster (some 3))
      { stagingCluster (some 3) with uids := ["run3"] }
      { stagingCluster (some 3) with uids := ["run3"] } "run2" [earlierRun (some 3)]
      { Revision := "main", URL := "http://gitea.example.org/org/web" }
      rfl (by simp [demoStageRequest]) rfl rfl rfl rfl (by decide)).2.2.1
      (by decide) 2 { stagingCluster (some 3) with uids := ["run3"] }
      [StageEvent.GetCluster none, StageEvent.NewForConfig none,
        StageEvent.Hex16 (.ok "run2"),
        StageEvent.PipelineRunList (stageSelector demoStageRequest.App)
          (.ok [earlierRun (some 3)])]
      (Or.inl ⟨2, rfl, by decide, rfl, rfl⟩)⟩

/-- The last sentence of claim C10 does not hold for every request.  On the example
cluster with unreadable deployments, the stage request for "web" that gives no instances
is well-formed and passes validation, and the listing succeeds with the one earlier run of
"web", which has a completion time; yet `Stage` does not go on to create a run: it returns
the error of the deployment lookup, asks the cluster for no run, and the cluster holds the
runs it held. -/
theorem Stage_stops_on_failed_deployment_lookup :
    "web" = stageRequestInheriting.App.Name ∧
    stageRequestInheriting.Instances = none ∧
    stageRequestInheriting.Git ≠ none ∧
    StageCluster.unreachableWorld.PipelineRunList
        (stageSelector stageRequestInheriting.App)
        { stagingCluster (some 3) with uids := ["run3"] }
      = (.ok [earlierRun (some 3)], { stagingCluster (some 3) with uids := ["run3"] }) ∧
    (∀ pr ∈ [earlierRun (some 3)], pr.CompletionTime ≠ none) ∧
    (Stage StageCluster.unreachableWorld "web" (.decoded stageRequestInheriting)
        (StageRun.start (stagingCluster (some 3)))).1
      = .returned (singleError "etcd unavailable" StatusInternalServerError) ∧
    createdRuns (Stage StageCluster.unreachableWorld "web" (.decoded stageRequestInheriting)
        (StageRun.start (stagingCluster (some 3)))).2.trace = [] ∧
    (Stage StageCluster.unreachableWorld "web" (.decoded stageRequestInheriting)
        (StageRun.start (stagingCluster (some 3)))).2.trace
      = [StageEvent.GetCluster none, StageEvent.NewForConfig none,
          StageEvent.Hex16 (.ok "run2"),
          StageEvent.PipelineRunList (stageSelector stageRequestInheriting.App)
            (.ok [earlierRun (some 3)]),
          StageEvent.DeploymentGet "org" "web" (.failed "etcd unavailable")] ∧
    (Stage StageCluster.unreachableWorld "web" (.decoded stageRequestInheriting)
        (StageRun.start (stagingCluster (some 3)))).2.world.runs
      = (stagingCluster (some 3)).runs := by
  refine ⟨?_, ?_, ?_, ?_, ?_, ?_, ?_, ?_, ?_⟩ <;> decide

end ApplicationsController

end Carrier
